import Mathlib

/-!
# DREAM3D `DataArray<T>`: a shallow embedding

Sources: `Source/DREAM3DLib/DataArrays/DataArray.hpp` and, for the container,
`Source/DREAM3DLib/DataContainers/EdgeDataContainer.cpp`.

Modelling conventions.

* `size_t` is the 64-bit unsigned type: every `+`, `-`, `*` the source performs on
  `size_t` values is rendered by `wadd`, `wsub`, `wmul`, which reduce modulo `2 ^ 64`.
* A pointer is a natural number, `0` being `NULL`.  The C heap is a list of blocks; the
  block with address `p + 1` sits at position `p`, and a freed block is `none`.  A pointer
  expression `base + off` of the source is carried as the pair `(base, off)`.
* Block lengths are counted in elements of `T`.  The template argument contributes
  `sizeof(T)` and `typeid(T)` (`ElementType`).  The byte count `n * sizeof(T)` that the
  source passes to `malloc` and `realloc` is a `size_t` product: the block obtained holds
  `blockElems α n` elements, which is `n` when the product is representable and fewer when
  it wraps; `realloc` of a live block to zero bytes frees it and returns `NULL`.  Whether the
  allocator succeeds, whether `realloc` moves the block, and what the uninitialised storage
  contains are chosen by the environment (`Alloc`).
* The counts of `memcpy` and `memset` are checked in elements against the blocks involved.
* Undefined behaviour of the C++ program (dereferencing `NULL` or a freed block, copying
  outside a block, passing `NULL` to `memset`, dividing by zero, indexing an empty
  `QVector`) is the result `none`.
* `memcpy` whose source and destination are the very same range is taken to leave the
  range as it is.
* Compile-time facts the header does not fix (`__APPLE__`, the value of an element whose
  bytes are all `0xAB`) are the fields of `Platform`.
* An `IDataArray::Pointer` of the container is the address of an array object in a store
  of array objects, so that pointers stored under several keys may share one array.
-/

namespace DREAM3D

/-! ## `size_t` arithmetic -/

/-- Number of values of `size_t`. -/
def SIZE_T_MOD : Nat := 2 ^ 64

/-- `a + b` on `size_t`. -/
def wadd (a b : Nat) : Nat := (a + b) % SIZE_T_MOD

/-- `a - b` on `size_t`. -/
def wsub (a b : Nat) : Nat := (a % SIZE_T_MOD + SIZE_T_MOD - b % SIZE_T_MOD) % SIZE_T_MOD

/-- `a * b` on `size_t`. -/
def wmul (a b : Nat) : Nat := (a * b) % SIZE_T_MOD

/-- Conversion of a `size_t` to `int` (two's complement, 32 bits). -/
def toInt32 (a : Nat) : Int :=
  if a % 2 ^ 32 < 2 ^ 31 then ((a % 2 ^ 32 : Nat) : Int) else ((a % 2 ^ 32 : Nat) : Int) - 2 ^ 32

/-! ## Element types -/

/-- The enumeration `DataArray<T>::NumType`. -/
inductive NumType where
  | Int8 | UInt8 | Int16 | UInt16 | Int32 | UInt32 | Int64 | UInt64 | Float | Double | Bool
  | UnknownNumType
  deriving DecidableEq, Repr

/-- The element type `T` of an instantiation `DataArray<T>`, as far as `typeid` tells types
apart: the eleven types `getType` tests for, and any other type, given by its name. -/
inductive CType where
  | int8_t | uint8_t | int16_t | uint16_t | int32_t | uint32_t | int64_t | uint64_t
  | float | double | bool
  | other (name : String)
  deriving DecidableEq, Repr

/-- What the template argument `T` of `DataArray<T>` contributes to the code besides its
values: `sizeof(T)`, which is at least 1, and `typeid(T)`. -/
class ElementType (α : Type) where
  sizeofT : Nat
  sizeofT_pos : 0 < sizeofT
  typeId : CType

/-- The number of whole elements of `T` in `n * sizeof(T)` bytes, the product being computed
in `size_t` as the source does in every call of `malloc` and `realloc`: `n` itself when the
product is representable, fewer when it wraps. -/
def blockElems (α : Type) [ElementType α] (n : Nat) : Nat :=
  wmul n (ElementType.sizeofT α) / ElementType.sizeofT α

/-! ## The heap -/

/-- A pointer; `0` is `NULL`. -/
abbrev Ptr := Nat

/-- Calls made to the C allocator, in order.  The `count` of a call is the number `n` of
the byte count `n * sizeof(T)` that the source passes. -/
inductive MemEvent where
  | malloc (count : Nat) (result : Ptr)
  | realloc (old : Ptr) (count : Nat) (result : Ptr)
  | free (p : Ptr)
  deriving DecidableEq, Repr

/-- The C heap together with the record of allocator calls. -/
structure Heap (α : Type) where
  blocks : List (Option (List α))
  log : List MemEvent
  deriving DecidableEq

/-- What the environment decides for the allocator call of one operation. -/
structure Alloc (α : Type) where
  ok : Bool
  moves : Bool
  junk : Nat → α

/-- Compile-time facts of the build. -/
structure Platform (α : Type) where
  dontUseRealloc : Bool
  abFill : α

variable {α : Type}

/-- Contents of the live block at `p`. -/
def Heap.read (h : Heap α) (p : Ptr) : Option (List α) :=
  if p = 0 then none else h.blocks.getD (p - 1) none

/-- Replace the contents of the block at `p`. -/
def Heap.store (h : Heap α) (p : Ptr) (b : List α) : Heap α :=
  { h with blocks := h.blocks.set (p - 1) (some b) }

/-- Uninitialised storage for offsets `lo, lo + 1, ..., lo + n - 1`. -/
def junkBlock (env : Alloc α) (lo n : Nat) : List α :=
  (List.range n).map (fun i => env.junk (lo + i))

/-- The call `malloc(n * sizeof(T))`: the byte count is a `size_t` product, so the block
obtained holds `blockElems α n` elements.  A request of zero bytes is served like any
other (glibc hands out a minimum-sized block). -/
def Heap.malloc [ElementType α] (h : Heap α) (env : Alloc α) (n : Nat) : Heap α × Ptr :=
  if env.ok then
    ({ blocks := h.blocks ++ [some (junkBlock env 0 (blockElems α n))],
       log := h.log ++ [MemEvent.malloc n (h.blocks.length + 1)] }, h.blocks.length + 1)
  else
    ({ h with log := h.log ++ [MemEvent.malloc n 0] }, 0)

/-- The call `free(p)`. -/
def Heap.free (h : Heap α) (p : Ptr) : Option (Heap α) :=
  if p = 0 then some { h with log := h.log ++ [MemEvent.free 0] }
  else
    match h.read p with
    | none => none
    | some _ => some { blocks := h.blocks.set (p - 1) none, log := h.log ++ [MemEvent.free p] }

/-- The call `realloc(p, n * sizeof(T))`, the byte count being a `size_t` product.  When
the byte count is zero and `p` is not null, the block is freed and the null pointer
returned, as glibc and the Microsoft runtime do. -/
def Heap.realloc [ElementType α]
    (h : Heap α) (env : Alloc α) (p : Ptr) (n : Nat) : Option (Heap α × Ptr) :=
  if p = 0 then
    if env.ok then
      some ({ blocks := h.blocks ++ [some (junkBlock env 0 (blockElems α n))],
              log := h.log ++ [MemEvent.realloc 0 n (h.blocks.length + 1)] }, h.blocks.length + 1)
    else
      some ({ h with log := h.log ++ [MemEvent.realloc 0 n 0] }, 0)
  else
    match h.read p with
    | none => none
    | some old =>
      if wmul n (ElementType.sizeofT α) = 0 then
        some ({ blocks := h.blocks.set (p - 1) none,
                log := h.log ++ [MemEvent.realloc p n 0] }, 0)
      else if env.ok then
        if env.moves then
          some ({ blocks := h.blocks.set (p - 1) none ++
                    [some (old.take (blockElems α n) ++
                      junkBlock env old.length (blockElems α n - old.length))],
                  log := h.log ++ [MemEvent.realloc p n (h.blocks.length + 1)] },
                h.blocks.length + 1)
        else
          some ({ blocks := h.blocks.set (p - 1)
                    (some (old.take (blockElems α n) ++
                      junkBlock env old.length (blockElems α n - old.length))),
                  log := h.log ++ [MemEvent.realloc p n p] }, p)
      else
        some ({ h with log := h.log ++ [MemEvent.realloc p n 0] }, 0)

/-- The call `memcpy(dst + dOff, src + sOff, cnt * sizeof(T))`.  The count is checked in
elements against both blocks; a count that fits a live block has a representable byte
count. -/
def Heap.memcpy (h : Heap α) (dst dOff src sOff cnt : Nat) : Option (Heap α) :=
  match h.read src, h.read dst with
  | some s, some d =>
    if sOff + cnt ≤ s.length ∧ dOff + cnt ≤ d.length then
      some (h.store dst (d.take dOff ++ (s.drop sOff).take cnt ++ d.drop (dOff + cnt)))
    else none
  | _, _ => none

/-- The call `memset(p, byte, cnt * sizeof(T))`, `v` being the element made of that byte.
The count is checked in elements against the block, as for `memcpy`. -/
def Heap.memset (h : Heap α) (p : Ptr) (v : α) (cnt : Nat) : Option (Heap α) :=
  match h.read p with
  | some d =>
    if cnt ≤ d.length then some (h.store p (List.replicate cnt v ++ d.drop cnt)) else none
  | none => none

/-- The assignment `p[off] = v`. -/
def Heap.poke (h : Heap α) (p : Ptr) (off : Nat) (v : α) : Option (Heap α) :=
  match h.read p with
  | some d => if off < d.length then some (h.store p (d.set off v)) else none
  | none => none

/-! ## The class `DataArray<T>` -/

/-- The data members of `DataArray<T>`. -/
structure DataArray (α : Type) where
  m_Array : Ptr
  m_Size : Nat
  m_OwnsData : Bool
  m_MaxId : Nat
  m_IsAllocated : Bool
  m_Name : String
  m_TupleDims : List Nat
  m_NumTuples : Nat
  m_CompDims : List Nat
  m_NumComponents : Nat
  m_FillValue : α
  deriving DecidableEq

/-- The loops of the constructor: first entry, then the remaining entries are added. -/
def sumDims : List Nat → Option Nat
  | [] => none
  | d :: ds => some (ds.foldl wadd d)

/-- The protected constructor `DataArray(tupleDims, compDims, name, ownsData, fillValue)`. -/
def DataArray.ctor (tupleDims compDims : List Nat) (name : String) (ownsData : Bool)
    (fillValue : α) : Option (DataArray α) :=
  match sumDims tupleDims, sumDims compDims with
  | some nt, some nc =>
    some { m_Array := 0
           m_Size := wmul nt nc
           m_OwnsData := ownsData
           m_MaxId := if wmul nt nc > 0 then wsub (wmul nt nc) 1 else wmul nt nc
           m_IsAllocated := false
           m_Name := name
           m_TupleDims := tupleDims
           m_NumTuples := nt
           m_CompDims := compDims
           m_NumComponents := nc
           m_FillValue := fillValue }
  | _, _ => none

/-- The member `getNumberOfTuples()`. -/
def DataArray.getNumberOfTuples (a : DataArray α) : Nat := a.m_NumTuples

/-- The member `getSize()`. -/
def DataArray.getSize (a : DataArray α) : Nat := a.m_Size

/-- The member `getNumberOfComponents()`, whose return type is `int`. -/
def DataArray.getNumberOfComponents (a : DataArray α) : Int := toInt32 a.m_NumComponents

/-- The member `isAllocated()`. -/
def DataArray.isAllocated (a : DataArray α) : Bool := a.m_IsAllocated

/-- The member `releaseOwnership()`. -/
def DataArray.releaseOwnership (a : DataArray α) : DataArray α := { a with m_OwnsData := false }

/-- The member `takeOwnership()`. -/
def DataArray.takeOwnership (a : DataArray α) : DataArray α := { a with m_OwnsData := true }

/-- The member `_deallocate()`: poison the first element, free the block, null the pointer. -/
def DataArray._deallocate (pf : Platform α) (a : DataArray α) (h : Heap α) :
    Option (DataArray α × Heap α) :=
  (if a.m_Array ≠ 0 ∧ a.m_Size > 0 then h.poke a.m_Array 0 pf.abFill else some h).bind fun h1 =>
  (h1.free a.m_Array).bind fun h2 =>
  some ({ a with m_Array := 0, m_IsAllocated := false }, h2)

/-- The member `initialize()`. -/
def DataArray.initialize (pf : Platform α) (a : DataArray α) (h : Heap α) :
    Option (DataArray α × Heap α) :=
  (if a.m_Array ≠ 0 ∧ a.m_OwnsData = true then a._deallocate pf h else some (a, h)).bind fun r =>
  some ({ r.1 with m_Array := 0, m_Size := 0, m_OwnsData := true, m_MaxId := 0,
                   m_IsAllocated := false }, r.2)

/-- The destructor `~DataArray()`; what remains is the heap. -/
def DataArray.destroy (pf : Platform α) (a : DataArray α) (h : Heap α) : Option (Heap α) :=
  if a.m_Array ≠ 0 ∧ a.m_OwnsData = true then (a._deallocate pf h).map (fun r => r.2) else some h

/-- The member `Allocate()`. -/
def DataArray.Allocate [ElementType α]
    (pf : Platform α) (env : Alloc α) (a : DataArray α) (h : Heap α) :
    Option (Int × DataArray α × Heap α) :=
  (if a.m_Array ≠ 0 ∧ a.m_OwnsData = true then a._deallocate pf h else some (a, h)).bind fun r =>
  let a1 : DataArray α := { r.1 with m_Array := 0, m_OwnsData := true, m_IsAllocated := false }
  if a1.m_Size = 0 then
    ( DataArray.initialize pf a1 r.2).bind fun r2 => some (1, r2.1, r2.2)
  else
    let m := r.2.malloc env a1.m_Size
    if m.2 = 0 then some (-1, { a1 with m_Array := m.2 }, m.1)
    else some (1, { a1 with m_Array := m.2, m_Size := a1.m_Size, m_IsAllocated := true }, m.1)

/-- The tail of `resizeAndExtend`: "Allocation was successful.  Save it." -/
def DataArray.saveAllocation (a : DataArray α) (newSize : Nat) (newArray : Ptr) : DataArray α :=
  { a with m_Size := newSize, m_Array := newArray, m_OwnsData := true,
           m_MaxId := wsub newSize 1, m_IsAllocated := true }

/-- The member `resizeAndExtend(size)`; the first component is the returned pointer. -/
def DataArray.resizeAndExtend [ElementType α]
    (pf : Platform α) (env : Alloc α) (a : DataArray α) (h : Heap α)
    (size : Nat) : Option (Ptr × DataArray α × Heap α) :=
  if size = a.m_Size then some (a.m_Array, a, h)
  else if size = 0 then
    ( DataArray.initialize pf a h).bind fun r => some (r.1.m_Array, r.1, r.2)
  else if a.m_Array ≠ 0 ∧ a.m_OwnsData = false then
    let m := h.malloc env size
    if m.2 = 0 then some (0, a, m.1)
    else
      (m.1.memcpy m.2 0 a.m_Array 0 (if size < a.m_Size then size else a.m_Size)).bind fun h2 =>
      some (m.2, a.saveAllocation size m.2, h2)
  else if pf.dontUseRealloc = false then
    (h.realloc env a.m_Array size).bind fun m =>
    if m.2 = 0 then some (0, a, m.1)
    else some (m.2, a.saveAllocation size m.2, m.1)
  else
    let m := h.malloc env size
    if m.2 = 0 then some (0, a, m.1)
    else
      (if a.m_Array ≠ 0 then
          m.1.memcpy m.2 0 a.m_Array 0 (if size < a.m_Size then size else a.m_Size)
        else some m.1).bind fun h2 =>
      (a._deallocate pf h2).bind fun r =>
      some (m.2, r.1.saveAllocation size m.2, r.2)

/-- The member `resizeTotalElements(size)`. -/
def DataArray.resizeTotalElements [ElementType α]
    (pf : Platform α) (env : Alloc α) (a : DataArray α)
    (h : Heap α) (size : Nat) : Option (Int × DataArray α × Heap α) :=
  (a.resizeAndExtend pf env h size).bind fun r =>
  if r.1 ≠ 0 ∨ size = 0 then some (1, r.2.1, r.2.2) else some (0, r.2.1, r.2.2)

/-- The member `resize(numTuples)`. -/
def DataArray.resize [ElementType α]
    (pf : Platform α) (env : Alloc α) (a : DataArray α) (h : Heap α)
    (numTuples : Nat) : Option (Int × DataArray α × Heap α) :=
  a.resizeTotalElements pf env h (wmul numTuples a.m_NumComponents)

/-- The member `copyTuple(currentPos, newPos)`. -/
def DataArray.copyTuple (a : DataArray α) (h : Heap α) (currentPos newPos : Nat) :
    Option (Int × DataArray α × Heap α) :=
  if a.m_NumComponents = 0 then none
  else if currentPos ≥ wadd a.m_MaxId 1 / a.m_NumComponents
      ∨ newPos ≥ wadd a.m_MaxId 1 / a.m_NumComponents then some (-1, a, h)
  else
    (h.memcpy a.m_Array (wmul newPos a.m_NumComponents)
        a.m_Array (wmul currentPos a.m_NumComponents) a.m_NumComponents).bind fun h1 =>
    some (0, a, h1)

/-- The loop of `eraseTuples` that walks `idxs` while `j == idxs[k]`; the result is the
final `(j, k)`. -/
def frontRun : List Nat → Nat → Nat → Nat × Nat
  | [], j, k => (j, k)
  | x :: rest, j, k => if j = x then frontRun rest (wadd j 1) (k + 1) else (j, k)

/-- Rows `i ≥ 1` of the tables `srcIdx`, `destIdx`, `copyElements` of `eraseTuples`, as
triples `(srcIdx[i], destIdx[i], copyElements[i])`.  `prevIdx` is `idxs[i - 1]`, `prevDest`
is `destIdx[i - 1]`, `prevCopy` is `copyElements[i - 1]`, and the list holds `idxs[i], ...`;
when it is empty `i` is the last row. -/
def eraseRows (n c : Nat) (prevIdx prevDest prevCopy : Nat) : List Nat → List (Nat × Nat × Nat)
  | [] =>
    [(wmul (wadd prevIdx 1) c, wadd prevCopy prevDest, wmul (wsub (wsub n prevIdx) 1) c)]
  | x :: rest =>
    (wmul (wadd prevIdx 1) c, wadd prevCopy prevDest, wmul (wsub (wsub x prevIdx) 1) c) ::
      eraseRows n c x (wadd prevCopy prevDest) (wmul (wsub (wsub x prevIdx) 1) c) rest

/-- The three tables of `eraseTuples`, row `0` included. -/
def eraseTable (n c : Nat) : List Nat → List (Nat × Nat × Nat)
  | [] => []
  | x :: rest => (0, 0, wmul (wsub x 0) c) :: eraseRows n c x 0 (wmul (wsub x 0) c) rest

/-- The loop "Copy the data" of `eraseTuples`. -/
def copyRows (newArray src : Ptr) : List (Nat × Nat × Nat) → Heap α → Option (Heap α)
  | [], h => some h
  | row :: rest, h =>
    (h.memcpy newArray row.2.1 src row.1 row.2.2).bind fun h1 => copyRows newArray src rest h1

/-- The bookkeeping at the end of both copy paths of `eraseTuples`. -/
def DataArray.saveErased (a : DataArray α) (newSize : Nat) (newArray : Ptr) : DataArray α :=
  { a with m_Size := newSize, m_Array := newArray, m_OwnsData := true, m_MaxId := wsub newSize 1 }

/-- The member `eraseTuples(idxs)`. -/
def DataArray.eraseTuples [ElementType α]
    (pf : Platform α) (env : Alloc α) (a : DataArray α) (h : Heap α)
    (idxs : List Nat) : Option (Int × DataArray α × Heap α) :=
  if idxs.length = 0 then some (0, a, h)
  else if idxs.length ≥ a.getNumberOfTuples then
    (a.resize pf env h 0).bind fun r => some (0, r.2.1, r.2.2)
  else if idxs.any (fun i => decide (wmul i a.m_NumComponents > a.m_MaxId)) then some (-100, a, h)
  else
    let newSize := wmul (wsub a.getNumberOfTuples idxs.length) a.m_NumComponents
    let m := h.malloc env newSize
    (m.1.memset m.2 pf.abFill newSize).bind fun h1 =>
    if (frontRun idxs 0 0).2 = idxs.length then
      (h1.memcpy m.2 0 a.m_Array (wmul (frontRun idxs 0 0).1 a.m_NumComponents)
          (wmul (wsub a.getNumberOfTuples idxs.length) a.m_NumComponents)).bind fun h2 =>
      (a._deallocate pf h2).bind fun r =>
      some (0, r.1.saveErased newSize m.2, r.2)
    else
      (copyRows m.2 a.m_Array (eraseTable a.getNumberOfTuples a.m_NumComponents idxs) h1).bind
        fun h2 =>
      (a._deallocate pf h2).bind fun r =>
      some (0, r.1.saveErased newSize m.2, r.2)

/-! ## The factories `CreateArray` -/

/-- Common tail of every `CreateArray` overload: `Allocate`, and on failure `delete d` and
the null handle. -/
def finishCreate [ElementType α] (pf : Platform α) (env : Alloc α) (h : Heap α) (d : DataArray α) :
    Option (Option (DataArray α) × Heap α) :=
  (d.Allocate pf env h).bind fun r =>
  if r.1 < 0 then (r.2.1.destroy pf r.2.2).map (fun h1 => (none, h1))
  else some (some r.2.1, r.2.2)

/-- `CreateArray(size_t numElements, const QString& name)`. -/
def CreateArray [ElementType α] [Zero α] [One α] (pf : Platform α) (env : Alloc α) (h : Heap α)
    (numElements : Nat) (name : String) : Option (Option (DataArray α) × Heap α) :=
  if name.isEmpty then some (none, h)
  else (DataArray.ctor [numElements] [1] name false (1 : α)).bind (finishCreate pf env h)

/-- `CreateArray(size_t numTuples, int rank, size_t* dims, const QString& name)`. -/
def CreateArrayRank [ElementType α] [Zero α] [One α] (pf : Platform α) (env : Alloc α) (h : Heap α)
    (numTuples : Nat) (rank : Nat) (dims : List Nat) (name : String) :
    Option (Option (DataArray α) × Heap α) :=
  if name.isEmpty then some (none, h)
  else if rank ≤ dims.length then
    (DataArray.ctor [numTuples] (dims.take rank) name false (1 : α)).bind
      (finishCreate pf env h)
  else none

/-- `CreateArray(size_t numTuples, std::vector<size_t> cDims, const QString& name)`. -/
def CreateArrayStd [ElementType α] [Zero α] [One α] (pf : Platform α) (env : Alloc α) (h : Heap α)
    (numTuples : Nat) (cDims : List Nat) (name : String) :
    Option (Option (DataArray α) × Heap α) :=
  if name.isEmpty then some (none, h)
  else (DataArray.ctor [numTuples] cDims name false (1 : α)).bind (finishCreate pf env h)

/-- `CreateArray(size_t numTuples, QVector<size_t> cDims, const QString& name)`. -/
def CreateArrayQ [ElementType α] [Zero α] [One α] (pf : Platform α) (env : Alloc α) (h : Heap α)
    (numTuples : Nat) (cDims : List Nat) (name : String) :
    Option (Option (DataArray α) × Heap α) :=
  if name.isEmpty then some (none, h)
  else (DataArray.ctor [numTuples] cDims name true (0 : α)).bind (finishCreate pf env h)

/-- `CreateArray(QVector<size_t> tDims, QVector<size_t> cDims, const QString& name)`. -/
def CreateArrayDims [ElementType α] [Zero α] [One α] (pf : Platform α) (env : Alloc α) (h : Heap α)
    (tDims cDims : List Nat) (name : String) : Option (Option (DataArray α) × Heap α) :=
  if name.isEmpty then some (none, h)
  else (DataArray.ctor tDims cDims name true (0 : α)).bind (finishCreate pf env h)

/-! ## Concrete data used in the examples -/

/-- In the examples the element type is `uint64_t`, eight bytes wide, its values being
rendered by natural numbers. -/
instance : ElementType Nat := { sizeofT := 8, sizeofT_pos := by decide, typeId := CType.uint64_t }

/-- The values of `long double`, an element type that is none of the eleven that `getType`
tests for; sixteen bytes wide, its values rendered by natural numbers. -/
structure LongDouble where
  val : Nat
  deriving DecidableEq

/-- The template argument `long double`. -/
instance : ElementType LongDouble :=
  { sizeofT := 16, sizeofT_pos := by decide, typeId := CType.other "long double" }

/-- The value `T(0)` of `long double`. -/
instance : Zero LongDouble := ⟨⟨0⟩⟩

/-- The value `T(true)` of `long double`. -/
instance : One LongDouble := ⟨⟨1⟩⟩

/-- A build that uses `realloc`, for arrays of `long double`. -/
def pfLongDouble : Platform LongDouble := { dontUseRealloc := false, abFill := ⟨171⟩ }

/-- An allocator that succeeds, for arrays of `long double`. -/
def envLongDouble : Alloc LongDouble :=
  { ok := true, moves := true, junk := fun i => ⟨900 + i⟩ }

/-- The empty heap of `long double` blocks. -/
def heapLongDouble : Heap LongDouble := { blocks := [], log := [] }

/-- A build that uses `realloc`, with `171` standing for the `0xAB` element. -/
def pfRealloc : Platform Nat := { dontUseRealloc := false, abFill := 171 }

/-- A build that avoids `realloc` (`__APPLE__`). -/
def pfApple : Platform Nat := { dontUseRealloc := true, abFill := 171 }

/-- An allocator that succeeds, moves blocks on `realloc`, and hands out storage holding
`900 + offset`. -/
def envOk : Alloc Nat := { ok := true, moves := true, junk := fun i => 900 + i }

/-- An allocator that fails. -/
def envFail : Alloc Nat := { ok := false, moves := true, junk := fun i => 900 + i }

/-- The empty heap. -/
def heap0 : Heap Nat := { blocks := [], log := [] }



/-! ## Vocabulary of the statements -/

/-- The heap after the block at `p` has been freed. -/
def Heap.release (h : Heap α) (p : Ptr) : Heap α :=
  { blocks := h.blocks.set (p - 1) none, log := h.log ++ [MemEvent.free p] }

/-- The array either has no buffer, or its pointer designates a live block of exactly
`m_Size` elements. -/
def DataArray.bufferOk (a : DataArray α) (h : Heap α) : Prop :=
  a.m_Array = 0 ∨ ∃ buf, h.read a.m_Array = some buf ∧ buf.length = a.m_Size

/-- The array currently holds the elements `buf`: either it is the empty array without a
buffer, or `buf` is the content of its live block of `m_Size` elements. -/
def DataArray.holds (a : DataArray α) (h : Heap α) (buf : List α) : Prop :=
  (a.m_Array = 0 ∧ a.m_Size = 0 ∧ buf = []) ∨ (h.read a.m_Array = some buf ∧ buf.length = a.m_Size)

/-! ## Concrete arrays used in the examples -/

/-- The array `[[10,11],[20,21],[30,31],[40,41],[50,51]]`: five tuples of two components,
as `CreateArray` leaves it once the elements have been set. -/
def arr52 : DataArray Nat :=
  { m_Array := 1, m_Size := 10, m_OwnsData := true, m_MaxId := 9, m_IsAllocated := true,
    m_Name := "a", m_TupleDims := [5], m_NumTuples := 5, m_CompDims := [2],
    m_NumComponents := 2, m_FillValue := 0 }

/-- The heap holding the buffer of `arr52`. -/
def heap52 : Heap Nat :=
  { blocks := [some [10, 11, 20, 21, 30, 31, 40, 41, 50, 51]], log := [MemEvent.malloc 10 1] }

/-- A two-tuple, one-component array holding `[10, 20]`. -/
def arr21 : DataArray Nat :=
  { m_Array := 1, m_Size := 2, m_OwnsData := true, m_MaxId := 1, m_IsAllocated := true,
    m_Name := "a", m_TupleDims := [2], m_NumTuples := 2, m_CompDims := [1],
    m_NumComponents := 1, m_FillValue := 0 }

/-- The heap holding the buffer of `arr21`. -/
def heap21 : Heap Nat := { blocks := [some [10, 20]], log := [MemEvent.malloc 2 1] }

/-- The tuples of `buf` (each of `c` components) whose index lies in `lo, ..., lo + m - 1`
and is not listed in `idxs`, in increasing index order, laid out flat. -/
def tuplesFrom (buf : List α) (c lo m : Nat) (idxs : List Nat) : List α :=
  ((List.range' lo m).filter (fun i => decide (i ∉ idxs))).flatMap
    (fun i => (buf.drop (i * c)).take c)

/-- The copy loop of `eraseTuples` acting on the contents `d` of the destination block,
`src` being the contents of the source block. -/
def applyRows (src : List α) : List (Nat × Nat × Nat) → List α → Option (List α)
  | [], d => some d
  | row :: rest, d =>
    if row.1 + row.2.2 ≤ src.length ∧ row.2.1 + row.2.2 ≤ d.length then
      applyRows src rest
        (d.take row.2.1 ++ (src.drop row.1).take row.2.2 ++ d.drop (row.2.1 + row.2.2))
    else none

/-- The state in which a factory leaves an array of `n` tuples of `c` components (the
elements `buf` may have been written since): counts, total size and max index agree, and
the pointer designates a live block holding the `n * c` elements `buf`, a block whose size
in bytes is representable in `size_t`. -/
def DataArray.freshWith [ElementType α]
    (a : DataArray α) (h : Heap α) (n c : Nat) (buf : List α) : Prop :=
  a.m_NumTuples = n ∧ a.m_NumComponents = c ∧ a.m_Size = n * c ∧ a.m_Size < 2 ^ 64 ∧
    a.m_MaxId = a.m_Size - 1 ∧ h.read a.m_Array = some buf ∧ buf.length = a.m_Size ∧
    a.m_Size * ElementType.sizeofT α < 2 ^ 64

/-- The array `[[1,2,3],[4,5,6],[7,8,9],[10,11,12]]`: four tuples of three components. -/
def arr43 : DataArray Nat :=
  { m_Array := 1, m_Size := 12, m_OwnsData := true, m_MaxId := 11, m_IsAllocated := true,
    m_Name := "a", m_TupleDims := [4], m_NumTuples := 4, m_CompDims := [3],
    m_NumComponents := 3, m_FillValue := 0 }

/-- The heap holding the buffer of `arr43`. -/
def heap43 : Heap Nat :=
  { blocks := [some [1, 2, 3, 4, 5, 6, 7, 8, 9, 10, 11, 12]], log := [MemEvent.malloc 12 1] }

/-! ## Type tags -/

/-- The member `getType()` of `DataArray<T>`: the chain of comparisons of `typeid(T)`. -/
def DataArray.getType [ElementType α] (_a : DataArray α) : NumType :=
  if ElementType.typeId α = CType.int8_t then NumType.Int8
  else if ElementType.typeId α = CType.uint8_t then NumType.UInt8
  else if ElementType.typeId α = CType.int16_t then NumType.Int16
  else if ElementType.typeId α = CType.uint16_t then NumType.UInt16
  else if ElementType.typeId α = CType.int32_t then NumType.Int32
  else if ElementType.typeId α = CType.uint32_t then NumType.UInt32
  else if ElementType.typeId α = CType.int64_t then NumType.Int64
  else if ElementType.typeId α = CType.uint64_t then NumType.UInt64
  else if ElementType.typeId α = CType.float then NumType.Float
  else if ElementType.typeId α = CType.double then NumType.Double
  else if ElementType.typeId α = CType.bool then NumType.Bool
  else NumType.UnknownNumType

/-! ## Further members of `DataArray<T>` -/

/-- Conversion of an `int` to `size_t`. -/
def ofInt32 (x : Int) : Nat := (x % (2 ^ 64 : Int)).toNat

/-- The member `getName()`. -/
def DataArray.getName (a : DataArray α) : String := a.m_Name

/-- The member `setName(name)`. -/
def DataArray.setName (a : DataArray α) (name : String) : DataArray α := { a with m_Name := name }

/-- The member `getVoidPointer(i)`: the null pointer is `(0, 0)`, and `&m_Array[i]` is the
pair of the block address and the offset `i`. -/
def DataArray.getVoidPointer (a : DataArray α) (i : Nat) : Ptr × Nat :=
  if i ≥ a.m_Size then (0, 0) else (a.m_Array, i)

/-- The member `initializeWithValues(value)`: the loop assigns `m_Array[i]` for every
`i < m_Size`, and touches no memory when `m_Size` is zero. -/
def DataArray.initializeWithValues (a : DataArray α) (h : Heap α) (value : α) :
    Option (DataArray α × Heap α) :=
  if a.m_Size = 0 then some (a, h)
  else (h.memset a.m_Array value a.m_Size).map fun h1 => (a, h1)

/-- The member `readH5Data(parentId)`.  `H5DataArrayReader::readIDataArray` is not part of
the header: it is the parameter `readIDataArray`, which from the heap yields the handle of
the array read (or the null handle) and the heap holding that array's buffer. -/
def DataArray.readH5Data [ElementType α] (pf : Platform α) (env : Alloc α)
    (readIDataArray : Heap α → Option (DataArray α) × Heap α) (a : DataArray α) (h : Heap α) :
    Option (Int × DataArray α × Heap α) :=
  (a.resize pf env h 0).bind fun r =>
  match (readIDataArray r.2.2).1 with
  | none => some (-1, r.2.1, (readIDataArray r.2.2).2)
  | some p =>
    some (0, { r.2.1 with m_NumComponents := ofInt32 p.getNumberOfComponents
                          m_Size := p.getSize
                          m_MaxId := if p.getSize = 0 then 0 else wsub p.getSize 1
                          m_Array := (p.getVoidPointer 0).1 },
          (readIDataArray r.2.2).2)

/-! ## `byteSwapElements`

The buffer is viewed as `char*`: the heap below is a heap of bytes, and `w` is `sizeof(T)`. -/

/-- The macro `mxa_bswap(s, d, t)` with `ptr` at offset `off` of the byte block:
`t[0] = ptr[s]; ptr[s] = ptr[d]; ptr[d] = t[0]`. -/
def mxa_bswap {β : Type} (bytes : List β) (off s d : Nat) : Option (List β) :=
  match bytes[off + s]?, bytes[off + d]? with
  | some x, some y => some ((bytes.set (off + s) y).set (off + d) x)
  | _, _ => none

/-- The body of the loop of `byteSwapElements` for one element, `ptr` at offset `off`. -/
def swapOne {β : Type} (w : Nat) (bytes : List β) (off : Nat) : Option (List β) :=
  if w = 2 then mxa_bswap bytes off 0 1
  else if w = 4 then
    (mxa_bswap bytes off 0 3).bind fun b1 => mxa_bswap b1 off 1 2
  else if w = 8 then
    (mxa_bswap bytes off 0 7).bind fun b1 =>
    (mxa_bswap b1 off 1 6).bind fun b2 =>
    (mxa_bswap b2 off 2 5).bind fun b3 => mxa_bswap b3 off 3 4
  else some bytes

/-- The loop of `byteSwapElements`: `k` elements remain, `ptr` is at offset `off`. -/
def byteSwapLoop {β : Type} (w : Nat) : Nat → Nat → List β → Option (List β)
  | 0, _, bytes => some bytes
  | k + 1, off, bytes => (swapOne w bytes off).bind fun b => byteSwapLoop w k (off + w) b

/-- The member `byteSwapElements()` for `sizeof(T) = w`.  No byte is read or written when
the array is empty or the width is none of 2, 4, 8. -/
def DataArray.byteSwapElements {β : Type} (w : Nat) (a : DataArray α) (h : Heap β) :
    Option (DataArray α × Heap β) :=
  if a.m_Size = 0 ∨ ¬ (w = 2 ∨ w = 4 ∨ w = 8) then some (a, h)
  else
    match h.read a.m_Array with
    | some bytes => (byteSwapLoop w a.m_Size 0 bytes).map fun b => (a, h.store a.m_Array b)
    | none => none

/-! ## Sequences of operations on one array -/

/-- A call of one of the members that act on an array and its heap. -/
inductive ArrayOp (α : Type) where
  | allocate (env : Alloc α)
  | resize (env : Alloc α) (numTuples : Nat)
  | eraseTuples (env : Alloc α) (idxs : List Nat)
  | copyTuple (currentPos newPos : Nat)
  | reset
  | initializeWithValues (value : α)
  | readH5Data (env : Alloc α) (readIDataArray : Heap α → Option (DataArray α) × Heap α)

/-- Whether the call is `readH5Data`. -/
def ArrayOp.isRead : ArrayOp α → Bool
  | ArrayOp.readH5Data _ _ => true
  | _ => false

/-- The effect of one call (`reset` is the member `initialize()`). -/
def ArrayOp.run [ElementType α] (pf : Platform α) (op : ArrayOp α) (s : DataArray α × Heap α) :
    Option (DataArray α × Heap α) :=
  match op with
  | ArrayOp.allocate env => (s.1.Allocate pf env s.2).map fun r => r.2
  | ArrayOp.resize env n => (s.1.resize pf env s.2 n).map fun r => r.2
  | ArrayOp.eraseTuples env idxs => (s.1.eraseTuples pf env s.2 idxs).map fun r => r.2
  | ArrayOp.copyTuple i j => (s.1.copyTuple s.2 i j).map fun r => r.2
  | ArrayOp.reset => DataArray.initialize pf s.1 s.2
  | ArrayOp.initializeWithValues v => s.1.initializeWithValues s.2 v
  | ArrayOp.readH5Data env rd => (s.1.readH5Data pf env rd s.2).map fun r => r.2

/-- The effect of a sequence of calls, first call first. -/
def runOps [ElementType α] (pf : Platform α) : List (ArrayOp α) → DataArray α × Heap α →
    Option (DataArray α × Heap α)
  | [], s => some s
  | op :: rest, s => (op.run pf s).bind fun s1 => runOps pf rest s1

/-- A reader that finds the array `[[1,2,3],[4,5,6],[7,8,9],[10,11,12]]` (four tuples of
three components) in the file and allocates its buffer. -/
def reader43 (h : Heap Nat) : Option (DataArray Nat) × Heap Nat :=
  (some { m_Array := h.blocks.length + 1, m_Size := 12, m_OwnsData := true, m_MaxId := 11,
          m_IsAllocated := true, m_Name := "a", m_TupleDims := [4], m_NumTuples := 4,
          m_CompDims := [3], m_NumComponents := 3, m_FillValue := 0 },
   { blocks := h.blocks ++ [some [1, 2, 3, 4, 5, 6, 7, 8, 9, 10, 11, 12]],
     log := h.log ++ [MemEvent.malloc 12 (h.blocks.length + 1)] })

/-! ## `EdgeDataContainer`

Source: `Source/DREAM3DLib/DataContainers/EdgeDataContainer.cpp`.  An `IDataArray::Pointer`
is a shared pointer: it is rendered by the address of the array object it points to, the
null handle by `none`.  The array objects live in a store indexed by address, so that two
pointers with the same address share one array object, and a member that calls a method
of the array through a pointer changes the object in the store. -/

/-- Qt's `QMap<QString, V>`: entries with distinct keys, kept in increasing key order. -/
abbrev QMap (β : Type) := List (String × β)

/-- `QMap::find(key)` followed by `it.value()`; `none` when `find` returns `end()`. -/
def QMap.find {β : Type} : QMap β → String → Option β
  | [], _ => none
  | e :: rest, key => if e.1 = key then some e.2 else QMap.find rest key

/-- The value of the existing key `key` is replaced. -/
def QMap.replace {β : Type} : QMap β → String → β → QMap β
  | [], _, _ => []
  | e :: rest, key, value =>
    if e.1 = key then (key, value) :: rest else e :: QMap.replace rest key value

/-- A new entry is inserted in front of the first entry with a larger key. -/
def QMap.insertNew {β : Type} : QMap β → String → β → QMap β
  | [], key, value => [(key, value)]
  | e :: rest, key, value =>
    if key.data < e.1.data then (key, value) :: e :: rest
    else e :: QMap.insertNew rest key value

/-- The assignment `map[key] = value`: replaces the value of an existing key, otherwise
inserts the entry at its place in key order. -/
def QMap.insert {β : Type} (m : QMap β) (key : String) (value : β) : QMap β :=
  if (QMap.find m key).isSome then QMap.replace m key value else QMap.insertNew m key value

/-- `QMap::erase(it)` for the iterator returned by `find(key)`. -/
def QMap.erase {β : Type} : QMap β → String → QMap β
  | [], _ => []
  | e :: rest, key => if e.1 = key then rest else e :: QMap.erase rest key

/-- The keys in iteration order. -/
def QMap.keys {β : Type} (m : QMap β) : List String := m.map (fun e => e.1)

/-- Modelled from the spec: `IDataArray::GetName()`, declared in `IDataArray.h`, which is
not among the sources; it returns the array's human-readable name. -/
def DataArray.GetName (a : DataArray α) : String := a.m_Name

/-- Modelled from the spec: `IDataArray::SetName(name)`, declared in `IDataArray.h`, which
is not among the sources; it renames the array. -/
def DataArray.SetName (a : DataArray α) (name : String) : DataArray α := { a with m_Name := name }

/-- The address of an array object, as held by a non-null `IDataArray::Pointer`. -/
abbrev ArrayPtr := Nat

/-- The array objects that the shared pointers point to, by address.  Dereferencing an
address outside the store is undefined. -/
abbrev ArrayStore (α : Type) := List (DataArray α)

/-- The data members of `EdgeDataContainer` that the edge-array members use. -/
structure EdgeDataContainer where
  m_EdgeData : QMap ArrayPtr
  m_EdgeFieldData : QMap ArrayPtr
  m_EdgeEnsembleData : QMap ArrayPtr
  m_NumEdgeTuples : Nat
  m_NumEdgeFieldTuples : Nat
  m_NumEdgeEnsembleTuples : Nat
  deriving DecidableEq

/-- The member `getEdgeData(name)`. -/
def EdgeDataContainer.getEdgeData (c : EdgeDataContainer) (name : String) : Option ArrayPtr :=
  QMap.find c.m_EdgeData name

/-- The member `addEdgeData(name, data)` for a non-null `data` (a null `data` is
dereferenced by the first statement): `data->SetName(name)` renames the array object in the
store, then the pointer is stored under `name` and the tuple count is read through it. -/
def EdgeDataContainer.addEdgeData (c : EdgeDataContainer) (objs : ArrayStore α)
    (name : String) (data : ArrayPtr) : Option (EdgeDataContainer × ArrayStore α) :=
  match objs[data]? with
  | none => none
  | some d =>
    let objs1 := if d.GetName ≠ name then objs.set data (d.SetName name) else objs
    match objs1[data]? with
    | none => none
    | some d1 =>
      some ({ c with m_EdgeData := QMap.insert c.m_EdgeData name data
                     m_NumEdgeTuples := d1.getNumberOfTuples }, objs1)

/-- The member `removeEdgeData(name)`: the returned handle and the container afterwards. -/
def EdgeDataContainer.removeEdgeData (c : EdgeDataContainer) (name : String) :
    Option ArrayPtr × EdgeDataContainer :=
  match QMap.find c.m_EdgeData name with
  | none => (none, c)
  | some p => (some p, { c with m_EdgeData := QMap.erase c.m_EdgeData name })

/-- The member `clearEdgeData()`. -/
def EdgeDataContainer.clearEdgeData (c : EdgeDataContainer) : EdgeDataContainer :=
  { c with m_EdgeData := [], m_NumEdgeTuples := 0 }

/-- The member `getEdgeArrayNameList()`. -/
def EdgeDataContainer.getEdgeArrayNameList (c : EdgeDataContainer) : List String :=
  QMap.keys c.m_EdgeData

/-- The member `getNumEdgeArrays()`. -/
def EdgeDataContainer.getNumEdgeArrays (c : EdgeDataContainer) : Int :=
  toInt32 (List.length c.m_EdgeData)

/-- The array objects of the examples: `arr21`, named `"a"`, at address 0 and `arr43`
renamed to `"c"` at address 1. -/
def arrays2 : ArrayStore Nat := [arr21, { arr43 with m_Name := "c" }]

/-- A container whose edge map holds the array at address 0 under `"a"` and the array at
address 1 under `"c"`. -/
def edges2 : EdgeDataContainer :=
  { m_EdgeData := [("a", 0), ("c", 1)], m_EdgeFieldData := [],
    m_EdgeEnsembleData := [], m_NumEdgeTuples := 4, m_NumEdgeFieldTuples := 0,
    m_NumEdgeEnsembleTuples := 0 }

/-- The bytes of a buffer of two four-byte elements, at the address held by `arr21`. -/
def bytes21x4 : Heap Nat := { blocks := [some [1, 2, 3, 4, 5, 6, 7, 8]], log := [] }

/-! ## Element access and zero fill -/

/-- The member `getValue(i)` of a release build: `m_Array[i]`, undefined when the pointer
does not designate a live block of more than `i` elements. -/
def DataArray.getValue (a : DataArray α) (h : Heap α) (i : Nat) : Option α :=
  (h.read a.m_Array).bind fun b => b[i]?

/-- The member `initializeWithZeros()`: `memset(m_Array, 0, m_Size * sizeof(T))`; the
element whose bytes are all zero is `0`. -/
def DataArray.initializeWithZeros [Zero α] (a : DataArray α) (h : Heap α) :
    Option (DataArray α × Heap α) :=
  (h.memset a.m_Array 0 a.m_Size).map fun h1 => (a, h1)

/-! ## The two copy paths of `eraseTuples` -/

/-- The statements of `eraseTuples` from the computation of `newSize` on, with the branch
"Only front elements are being dropped" taken: a single `memcpy` of the trailing
`(getNumberOfTuples() - idxs.size()) * m_NumComponents` elements that start at tuple `j`. -/
def DataArray.eraseTuplesFast [ElementType α]
    (pf : Platform α) (env : Alloc α) (a : DataArray α) (h : Heap α)
    (idxs : List Nat) : Option (Int × DataArray α × Heap α) :=
  let newSize := wmul (wsub a.getNumberOfTuples idxs.length) a.m_NumComponents
  let m := h.malloc env newSize
  (m.1.memset m.2 pf.abFill newSize).bind fun h1 =>
  (h1.memcpy m.2 0 a.m_Array (wmul (frontRun idxs 0 0).1 a.m_NumComponents)
      (wmul (wsub a.getNumberOfTuples idxs.length) a.m_NumComponents)).bind fun h2 =>
  (a._deallocate pf h2).bind fun r =>
  some (0, r.1.saveErased newSize m.2, r.2)

/-- The statements of `eraseTuples` from the computation of `newSize` on, with the other
branch taken: the tables `srcIdx`, `destIdx`, `copyElements` and the loop "Copy the data",
one `memcpy` per row. -/
def DataArray.eraseTuplesGeneral [ElementType α] (pf : Platform α) (env : Alloc α) (a : DataArray α)
    (h : Heap α) (idxs : List Nat) : Option (Int × DataArray α × Heap α) :=
  let newSize := wmul (wsub a.getNumberOfTuples idxs.length) a.m_NumComponents
  let m := h.malloc env newSize
  (m.1.memset m.2 pf.abFill newSize).bind fun h1 =>
  (copyRows m.2 a.m_Array (eraseTable a.getNumberOfTuples a.m_NumComponents idxs) h1).bind
    fun h2 =>
  (a._deallocate pf h2).bind fun r =>
  some (0, r.1.saveErased newSize m.2, r.2)

/-! ## The field arrays of `EdgeDataContainer` -/

/-- Modelled from the spec: `IDataArray::Resize(numTuples)`, declared in `IDataArray.h`,
which is not among the sources; it resizes the array by tuple count, which for
`DataArray<T>` is the member `resize`. -/
def DataArray.Resize [ElementType α]
    (pf : Platform α) (env : Alloc α) (a : DataArray α) (h : Heap α)
    (numTuples : Nat) : Option (Int × DataArray α × Heap α) :=
  a.resize pf env h numTuples

/-- The member `getEdgeFieldData(name)`. -/
def EdgeDataContainer.getEdgeFieldData (c : EdgeDataContainer) (name : String) :
    Option ArrayPtr :=
  QMap.find c.m_EdgeFieldData name

/-- The member `getEdgeFieldArrayNameList()`. -/
def EdgeDataContainer.getEdgeFieldArrayNameList (c : EdgeDataContainer) : List String :=
  QMap.keys c.m_EdgeFieldData

/-- The loop of `resizeEdgeFieldDataArrays(size)` over the entries of the map, in key order:
`d->Resize(size)` on the array object each pointer points to, the returned code being
ignored.  `env` gives the allocator's behaviour during the call made for each key. -/
def resizeArrays [ElementType α] (pf : Platform α) (env : String → Alloc α) (size : Nat) :
    QMap ArrayPtr → ArrayStore α → Heap α → Option (ArrayStore α × Heap α)
  | [], objs, h => some (objs, h)
  | e :: rest, objs, h =>
    match objs[e.2]? with
    | none => none
    | some d =>
      (d.Resize pf (env e.1) h size).bind fun r =>
      resizeArrays pf env size rest (objs.set e.2 r.2.1) r.2.2

/-- The member `resizeEdgeFieldDataArrays(size)`. -/
def EdgeDataContainer.resizeEdgeFieldDataArrays [ElementType α]
    (pf : Platform α) (env : String → Alloc α)
    (c : EdgeDataContainer) (objs : ArrayStore α) (h : Heap α) (size : Nat) :
    Option (EdgeDataContainer × ArrayStore α × Heap α) :=
  (resizeArrays pf env size c.m_EdgeFieldData objs h).map fun q =>
    ({ c with m_NumEdgeFieldTuples := size }, q.1, q.2)

/-- A container whose edge map holds the single array at address 0 under `"a"`. -/
def edges1 : EdgeDataContainer :=
  { m_EdgeData := [("a", 0)], m_EdgeFieldData := [], m_EdgeEnsembleData := [],
    m_NumEdgeTuples := 2, m_NumEdgeFieldTuples := 0, m_NumEdgeEnsembleTuples := 0 }

/-- A heap with the buffers of two arrays: `[10, 20]` at address 1 and the twelve elements
`1, ..., 12` at address 2. -/
def heapFields : Heap Nat :=
  { blocks := [some [10, 20], some [1, 2, 3, 4, 5, 6, 7, 8, 9, 10, 11, 12]],
    log := [MemEvent.malloc 2 1, MemEvent.malloc 12 2] }

/-- The array objects of the field map below: `arr21` (two tuples of one component) at
address 0 and a four-tuple, three-component array named `"c"` at address 1, both as the
factories leave them, their buffers in `heapFields`. -/
def fieldArrays2 : ArrayStore Nat := [arr21, { arr43 with m_Name := "c", m_Array := 2 }]

/-- A container whose field map holds the array at address 0 under `"a"` and the array at
address 1 under `"c"`. -/
def fields2 : EdgeDataContainer :=
  { m_EdgeData := [], m_EdgeFieldData := [("a", 0), ("c", 1)],
    m_EdgeEnsembleData := [], m_NumEdgeTuples := 0, m_NumEdgeFieldTuples := 4,
    m_NumEdgeEnsembleTuples := 0 }

/-- The result `r` (handle and heap) is what one of the five `CreateArray` overloads
returns for the name `name`, called on the heap `h`, for some sizes and shapes. -/
def returnedByCreateArray [ElementType α]
    [Zero α] [One α] (pf : Platform α) (env : Alloc α) (h : Heap α)
    (name : String) (r : Option (DataArray α) × Heap α) : Prop :=
  (∃ numElements, CreateArray pf env h numElements name = some r) ∨
    (∃ numTuples rank dims, CreateArrayRank pf env h numTuples rank dims name = some r) ∨
    (∃ numTuples cDims, CreateArrayStd pf env h numTuples cDims name = some r) ∨
    (∃ numTuples cDims, CreateArrayQ pf env h numTuples cDims name = some r) ∨
    (∃ tDims cDims, CreateArrayDims pf env h tDims cDims name = some r)


/-! ## Heap lemmas -/

theorem Heap.read_some_ne_zero {β : Type} {h : Heap β} {p : Nat} {b : List β} (hr : h.read p = some b) :
    p ≠ 0 := by
  intro h0
  simp [Heap.read, h0] at hr

theorem Heap.read_some_lt {β : Type} {h : Heap β} {p : Nat} {b : List β} (hr : h.read p = some b) :
    p - 1 < h.blocks.length := by
  by_contra hge
  have hge2 : h.blocks.length ≤ p - 1 := Nat.le_of_not_lt hge
  have h0 := Heap.read_some_ne_zero hr
  simp only [Heap.read, h0, if_false] at hr
  rw [List.getD_eq_default _ _ hge2] at hr
  cases hr

theorem Heap.read_store_same {β : Type} (h : Heap β) (p : Nat) (b : List β) (hp : p ≠ 0)
    (hlt : p - 1 < h.blocks.length) : (h.store p b).read p = some b := by
  simp [Heap.read, Heap.store, hp, List.getD_eq_getElem?_getD, hlt]

theorem Heap.read_store_ne {β : Type} (h : Heap β) (p q : Nat) (b : List β) (hq : q ≠ 0) (hpq : p ≠ q) :
    (h.store q b).read p = h.read p := by
  by_cases hp : p = 0
  · simp [Heap.read, hp]
  · have : q - 1 ≠ p - 1 := by omega
    simp [Heap.read, Heap.store, hp, List.getD_eq_getElem?_getD, List.getElem?_set_ne this]

theorem Heap.store_store {β : Type} (h : Heap β) (p : Nat) (b c : List β) :
    (h.store p b).store p c = h.store p c := by
  simp [Heap.store]

theorem Heap.log_store {β : Type} (h : Heap β) (p : Nat) (b : List β) : (h.store p b).log = h.log := rfl

/-- A byte count that is representable buys the whole number of elements asked for. -/
theorem blockElems_eq [ElementType α] {n : Nat} (hfit : n * ElementType.sizeofT α < 2 ^ 64) :
    blockElems α n = n := by
  unfold blockElems wmul SIZE_T_MOD
  rw [Nat.mod_eq_of_lt hfit]
  exact Nat.mul_div_cancel n ElementType.sizeofT_pos

theorem Heap.malloc_ok [ElementType α] (h : Heap α) (env : Alloc α) (n : Nat) (hok : env.ok = true)
    (hfit : n * ElementType.sizeofT α < 2 ^ 64) :
    h.malloc env n =
      ({ blocks := h.blocks ++ [some (junkBlock env 0 n)],
         log := h.log ++ [MemEvent.malloc n (h.blocks.length + 1)] }, h.blocks.length + 1) := by
  simp [Heap.malloc, hok, blockElems_eq hfit]

theorem Heap.malloc_snd [ElementType α]
    (h : Heap α) (env : Alloc α) (n : Nat) (hok : env.ok = true) :
    (h.malloc env n).2 = h.blocks.length + 1 := by
  simp [Heap.malloc, hok]

theorem Heap.read_malloc_new [ElementType α]
    (h : Heap α) (env : Alloc α) (n : Nat) (hok : env.ok = true)
    (hfit : n * ElementType.sizeofT α < 2 ^ 64) :
    (h.malloc env n).1.read (h.malloc env n).2 = some (junkBlock env 0 n) := by
  simp [Heap.malloc_ok h env n hok hfit, Heap.read, List.getD_eq_getElem?_getD]

theorem Heap.read_malloc_old [ElementType α]
    (h : Heap α) (env : Alloc α) (n : Nat) {p : Nat} {b : List α}
    (hr : h.read p = some b) : (h.malloc env n).1.read p = some b := by
  have h0 := Heap.read_some_ne_zero hr
  have hlt := Heap.read_some_lt hr
  cases hok : env.ok
  · simpa [Heap.malloc, hok, Heap.read] using hr
  · simp only [Heap.read, h0, if_false] at hr
    simp [Heap.malloc, hok, Heap.read, h0, List.getD_eq_getElem?_getD,
      List.getElem?_append_left hlt]
    simpa [List.getD_eq_getElem?_getD] using hr

theorem junkBlock_length {β : Type} (env : Alloc β) (lo n : Nat) : (junkBlock env lo n).length = n := by
  simp [junkBlock]

theorem Heap.read_release_ne {β : Type} (h : Heap β) (p q : Nat) (hq : q ≠ 0) (hpq : p ≠ q) :
    (h.release q).read p = h.read p := by
  by_cases hp : p = 0
  · simp [Heap.read, hp]
  · have : q - 1 ≠ p - 1 := by omega
    simp [Heap.read, Heap.release, hp, List.getD_eq_getElem?_getD, List.getElem?_set_ne this]

theorem Heap.read_release_same {β : Type} (h : Heap β) (p : Nat) : (h.release p).read p = none := by
  by_cases hp : p = 0
  · simp [Heap.read, hp]
  · by_cases hlt : p - 1 < h.blocks.length
    · simp [Heap.read, Heap.release, hp, List.getD_eq_getElem?_getD, hlt]
    · have hge : (h.blocks.set (p - 1) none).length ≤ p - 1 := by
        simpa using Nat.le_of_not_lt hlt
      simp [Heap.read, Heap.release, hp, List.getD_eq_getElem?_getD, List.getElem?_eq_none hge]

theorem Heap.poke_live {β : Type} (h : Heap β) (p off : Nat) (v : β) (d : List β)
    (hr : h.read p = some d) (ho : off < d.length) :
    h.poke p off v = some (h.store p (d.set off v)) := by
  simp [Heap.poke, hr, ho]

theorem Heap.free_live {β : Type} (h : Heap β) (p : Nat) (d : List β) (hr : h.read p = some d) :
    h.free p = some (h.release p) := by
  simp [Heap.free, Heap.read_some_ne_zero hr, hr, Heap.release]

theorem Heap.release_store {β : Type} (h : Heap β) (p : Nat) (b : List β) :
    (h.store p b).release p = h.release p := by
  simp [Heap.release, Heap.store]

/-! ## `_deallocate` and `initialize` -/

theorem DataArray.deallocate_live (pf : Platform α) (a : DataArray α) (h : Heap α)
    (buf : List α) (hr : h.read a.m_Array = some buf) (hl : buf.length = a.m_Size) :
    a._deallocate pf h =
      some ({ a with m_Array := 0, m_IsAllocated := false }, h.release a.m_Array) := by
  have h0 := Heap.read_some_ne_zero hr
  have hlt := Heap.read_some_lt hr
  by_cases hs : a.m_Size > 0
  · have hb : 0 < buf.length := by omega
    have hfree := Heap.free_live (h.store a.m_Array (buf.set 0 pf.abFill)) a.m_Array _
      (Heap.read_store_same h a.m_Array (buf.set 0 pf.abFill) h0 hlt)
    simp [DataArray._deallocate, h0, hs, Heap.poke_live h a.m_Array 0 pf.abFill buf hr hb,
      hfree, Heap.release_store]
  · simp [DataArray._deallocate, h0, hs, Heap.free_live h a.m_Array buf hr]

theorem DataArray.initialize_ok (pf : Platform α) (a : DataArray α) (h : Heap α)
    (hb : a.bufferOk h) :
    ∃ h1, DataArray.initialize pf a h =
      some ({ a with m_Array := 0, m_Size := 0, m_OwnsData := true, m_MaxId := 0,
                     m_IsAllocated := false }, h1) := by
  by_cases hc : a.m_Array ≠ 0 ∧ a.m_OwnsData = true
  · rcases hb with hb | ⟨buf, hr, hl⟩
    · exact absurd hb hc.1
    · exact ⟨h.release a.m_Array, by
        simp [ DataArray.initialize, hc, DataArray.deallocate_live pf a h buf hr hl]⟩
  · exact ⟨h, by simp [ DataArray.initialize, hc]⟩

/-! ## `resize` to zero and `eraseTuples` of every tuple -/

theorem DataArray.resize_zero_ok [ElementType α] (pf : Platform α) (env : Alloc α) (a : DataArray α)
    (h : Heap α) (hb : a.bufferOk h) :
    ∃ a1 h1, a.resize pf env h 0 = some (1, a1, h1) ∧ a1.m_Size = 0 := by
  have hw : wmul 0 a.m_NumComponents = 0 := by simp [wmul]
  by_cases hs : a.m_Size = 0
  · refine ⟨a, h, ?_, hs⟩
    simp [DataArray.resize, hw, DataArray.resizeTotalElements, DataArray.resizeAndExtend, hs]
  · obtain ⟨h1, hi⟩ := DataArray.initialize_ok pf a h hb
    refine ⟨{ a with m_Array := 0, m_Size := 0, m_OwnsData := true, m_MaxId := 0,
                     m_IsAllocated := false }, h1, ?_, rfl⟩
    have hs2 : ¬ (0 = a.m_Size) := fun e => hs e.symm
    simp [DataArray.resize, hw, DataArray.resizeTotalElements, DataArray.resizeAndExtend, hs2, hi]

/-- When the index list is non-empty and at least as long as the tuple count that
`getNumberOfTuples()` reports, `eraseTuples` returns 0 and the array has size zero
afterwards. -/
theorem DataArray.eraseTuples_reported_count [ElementType α] (pf : Platform α) (env : Alloc α)
    (a : DataArray α) (h : Heap α)
    (idxs : List Nat) (hb : a.bufferOk h) (hne : 0 < idxs.length)
    (hlen : a.getNumberOfTuples ≤ idxs.length) :
    ∃ a1 h1, a.eraseTuples pf env h idxs = some (0, a1, h1) ∧ a1.getSize = 0 := by
  obtain ⟨a1, h1, hr, hs⟩ := DataArray.resize_zero_ok pf env a h hb
  refine ⟨a1, h1, ?_, hs⟩
  have hne2 : idxs.length ≠ 0 := by omega
  simp [DataArray.eraseTuples, hne2, hlen, hr]

/-- Erasing the five indices of the five-tuple array as the factory left it empties it. -/
theorem eraseTuples_all_of_fresh_array :
    arr52.bufferOk heap52 ∧ 0 < [0, 1, 2, 3, 4].length ∧
      arr52.getNumberOfTuples ≤ [0, 1, 2, 3, 4].length ∧
      ∃ a1 h1, arr52.eraseTuples pfRealloc envOk heap52 [0, 1, 2, 3, 4] = some (0, a1, h1) ∧
        a1.getSize = 0 :=
  ⟨Or.inr ⟨_, rfl, rfl⟩, by decide, by decide,
    DataArray.eraseTuples_reported_count pfRealloc envOk arr52 heap52 [0, 1, 2, 3, 4]
      (Or.inr ⟨_, rfl, rfl⟩)
      (by decide) (by decide)⟩

/-! ## `eraseTuples` with an index off the end -/

/-- C3 (as amended): on an array whose max index lies inside its `getNumberOfTuples()`
tuples, an index list shorter than the tuple count that contains an index at or beyond the
tuple count (whose element offset is representable in `size_t`) makes `eraseTuples` return
-100 with the array and the heap exactly as they were. -/
theorem C3_eraseTuples_out_of_range [ElementType α]
    (pf : Platform α) (env : Alloc α) (a : DataArray α)
    (h : Heap α) (idxs : List Nat)
    (hmax : a.m_MaxId < a.getNumberOfTuples * a.m_NumComponents)
    (hpos : 0 < idxs.length) (hlen : idxs.length < a.getNumberOfTuples)
    (hout : ∃ i ∈ idxs, a.getNumberOfTuples ≤ i ∧ i * a.m_NumComponents < 2 ^ 64) :
    a.eraseTuples pf env h idxs = some (-100, a, h) := by
  obtain ⟨i, hi, hge, hfit⟩ := hout
  have hne : idxs.length ≠ 0 := by omega
  have hnl : ¬ (a.getNumberOfTuples ≤ idxs.length) := by omega
  have hany : idxs.any (fun i => decide (wmul i a.m_NumComponents > a.m_MaxId)) = true := by
    rw [List.any_eq_true]
    refine ⟨i, hi, ?_⟩
    have hw : wmul i a.m_NumComponents = i * a.m_NumComponents := by
      unfold wmul SIZE_T_MOD
      exact Nat.mod_eq_of_lt hfit
    have hle : a.getNumberOfTuples * a.m_NumComponents ≤ i * a.m_NumComponents :=
      Nat.mul_le_mul_right _ hge
    simp only [hw, decide_eq_true_eq]
    omega
  simp [DataArray.eraseTuples, hne, hnl, hany]

/-- Witness for C3: the hypotheses hold at a concrete array and the theorem applies. -/
theorem C3_eraseTuples_out_of_range_witness :
    arr52.m_MaxId < arr52.getNumberOfTuples * arr52.m_NumComponents ∧ 0 < [1, 7].length ∧
      [1, 7].length < arr52.getNumberOfTuples ∧
      arr52.eraseTuples pfRealloc envOk heap52 [1, 7] = some (-100, arr52, heap52) :=
  ⟨by decide, by decide, by decide,
    C3_eraseTuples_out_of_range pfRealloc envOk arr52 heap52 [1, 7] (by decide) (by decide)
      (by decide) ⟨7, by decide, by decide, by decide⟩⟩

/-- C3 (as stated) fails: the two-tuple array below is asked to erase the indices 5 and 6,
both beyond its tuple count; `eraseTuples` returns 0 and empties the array. -/
theorem C3_counterexample :
    (∃ i ∈ [5, 6], arr21.getNumberOfTuples ≤ i) ∧
      arr21.eraseTuples pfRealloc envOk heap21 [5, 6] ≠ some (-100, arr21, heap21) ∧
      (arr21.eraseTuples pfRealloc envOk heap21 [5, 6]).map
          (fun r => (r.1, r.2.1.getSize, r.2.1.m_Array, r.2.2.read 1)) =
        some (0, 0, 0, none) := by
  decide

/-- The range check of `eraseTuples` multiplies in `size_t`: for the five-tuple,
two-component array the index `2 ^ 63` has offset `2 ^ 64`, which wraps to 0, so the index
is accepted and `eraseTuples` returns 0 with a four-tuple buffer instead of -100. -/
theorem eraseTuples_wrapping_index_accepted :
    (arr52.eraseTuples pfRealloc envOk heap52 [2 ^ 63]).map
        (fun r => (r.1, r.2.1.getSize, r.2.2.read r.2.1.m_Array)) =
      some (0, 8, some [20, 21, 30, 31, 40, 41, 50, 51]) := by
  decide

/-! ## `memcpy`, `memset` -/

theorem Heap.memcpy_live {β : Type} (h : Heap β) (dst dOff src sOff cnt : Nat) (s d : List β)
    (hs : h.read src = some s) (hd : h.read dst = some d)
    (hb1 : sOff + cnt ≤ s.length) (hb2 : dOff + cnt ≤ d.length) :
    h.memcpy dst dOff src sOff cnt =
      some (h.store dst (d.take dOff ++ (s.drop sOff).take cnt ++ d.drop (dOff + cnt))) := by
  simp [Heap.memcpy, hs, hd, hb1, hb2]

theorem Heap.memset_live {β : Type} (h : Heap β) (p : Nat) (v : β) (cnt : Nat) (d : List β)
    (hd : h.read p = some d) (hb : cnt ≤ d.length) :
    h.memset p v cnt = some (h.store p (List.replicate cnt v ++ d.drop cnt)) := by
  simp [Heap.memset, hd, hb]

theorem Heap.malloc_fst_blocks_length [ElementType α] (h : Heap α) (env : Alloc α) (n : Nat)
    (hok : env.ok = true) : (h.malloc env n).1.blocks.length = h.blocks.length + 1 := by
  simp [Heap.malloc, hok]

theorem flatMap_range'_tuples (buf : List α) (c : Nat) :
    ∀ m lo, (List.range' lo m).flatMap (fun i => (buf.drop (i * c)).take c) =
      (buf.drop (lo * c)).take (m * c)
  | 0, lo => by simp
  | m + 1, lo => by
    rw [List.range'_succ, List.flatMap_cons, flatMap_range'_tuples buf c m (lo + 1)]
    have e1 : (m + 1) * c = c + m * c := by rw [Nat.add_mul, Nat.one_mul, Nat.add_comm]
    have e2 : (lo + 1) * c = lo * c + c := by rw [Nat.add_mul, Nat.one_mul]
    rw [e1, List.take_add, List.drop_drop, e2]

theorem tuplesFrom_nil (buf : List α) (c lo m : Nat) :
    tuplesFrom buf c lo m [] = (buf.drop (lo * c)).take (m * c) := by
  unfold tuplesFrom
  rw [List.filter_eq_self.2 (by simp)]
  exact flatMap_range'_tuples buf c m lo

theorem tuplesFrom_cons (buf : List α) (c lo m x : Nat) (rest : List Nat)
    (hlo : lo ≤ x) (hx : x < lo + m) (hrest : ∀ y ∈ rest, x < y) :
    tuplesFrom buf c lo m (x :: rest) =
      (buf.drop (lo * c)).take ((x - lo) * c) ++ tuplesFrom buf c (x + 1) (lo + m - x - 1) rest := by
  unfold tuplesFrom
  have hsplit : List.range' lo m =
      List.range' lo (x - lo) ++ ([x] ++ List.range' (x + 1) (lo + m - x - 1)) := by
    have h1 : List.range' lo m = List.range' lo (x - lo) ++ List.range' x (lo + m - x) := by
      have := List.range'_append_1 lo (x - lo) (lo + m - x)
      rw [show lo + (x - lo) = x by omega, show lo + m - x + (x - lo) = m by omega] at this
      exact this.symm
    have h2 : List.range' x (lo + m - x) = [x] ++ List.range' (x + 1) (lo + m - x - 1) := by
      rw [show lo + m - x = (lo + m - x - 1) + 1 by omega, List.range'_succ]
      simp
    rw [h1, h2]
  rw [hsplit, List.filter_append, List.filter_append, List.flatMap_append, List.flatMap_append]
  have hA : (List.range' lo (x - lo)).filter (fun i => decide (i ∉ x :: rest)) =
      List.range' lo (x - lo) := by
    rw [List.filter_eq_self]
    intro i hi
    rw [List.mem_range'_1] at hi
    simp only [List.mem_cons, not_or, decide_eq_true_eq]
    refine ⟨by omega, fun hmem => ?_⟩
    have := hrest i hmem
    omega
  have hB : [x].filter (fun i => decide (i ∉ x :: rest)) = [] := by simp
  have hC : (List.range' (x + 1) (lo + m - x - 1)).filter (fun i => decide (i ∉ x :: rest)) =
      (List.range' (x + 1) (lo + m - x - 1)).filter (fun i => decide (i ∉ rest)) := by
    apply List.filter_congr
    intro i hi
    rw [List.mem_range'_1] at hi
    have hne : i ≠ x := by omega
    simp [hne]
  rw [hA, hB, hC, flatMap_range'_tuples]
  simp

theorem tuplesFrom_range' (buf : List α) (c : Nat) :
    ∀ k lo m, k < m → tuplesFrom buf c lo m (List.range' lo k) =
      (buf.drop ((lo + k) * c)).take ((m - k) * c)
  | 0, lo, m, _ => by simpa using tuplesFrom_nil buf c lo m
  | k + 1, lo, m, hk => by
    rw [List.range'_succ, tuplesFrom_cons buf c lo m lo _ (Nat.le_refl _) (by omega)
      (by intro y hy; rw [List.mem_range'_1] at hy; omega)]
    rw [show lo + m - lo - 1 = m - 1 by omega, tuplesFrom_range' buf c k (lo + 1) (m - 1) (by omega)]
    simp only [Nat.sub_self, Nat.zero_mul, List.take_zero, List.nil_append]
    rw [show lo + 1 + k = lo + (k + 1) by omega, show m - 1 - k = m - (k + 1) by omega]

/-! ## `size_t` arithmetic without wrap-around -/

theorem wadd_eq {a b : Nat} (h : a + b < 2 ^ 64) : wadd a b = a + b := by
  unfold wadd SIZE_T_MOD
  exact Nat.mod_eq_of_lt h

theorem wmul_eq {a b : Nat} (h : a * b < 2 ^ 64) : wmul a b = a * b := by
  unfold wmul SIZE_T_MOD
  exact Nat.mod_eq_of_lt h

theorem wsub_eq {a b : Nat} (ha : a < 2 ^ 64) (hb : b ≤ a) : wsub a b = a - b := by
  unfold wsub SIZE_T_MOD
  omega

theorem le_mul_of_one_le {n c : Nat} (hc : 1 ≤ c) : n ≤ n * c :=
  Nat.le_mul_of_pos_right n hc

/-! ## The copy tables of `eraseTuples` -/

theorem pairwise_lt_room (n : Nat) :
    ∀ (rest : List Nat) (x : Nat), (x :: rest).Pairwise (· < ·) → (∀ y ∈ x :: rest, y < n) →
      x + rest.length < n
  | [], x, _, hlt => by simpa using hlt x (by simp)
  | y :: r, x, hp, hlt => by
    have hxy : x < y := (List.pairwise_cons.1 hp).1 y (by simp)
    have ih := pairwise_lt_room n r y (List.pairwise_cons.1 hp).2
      (fun z hz => hlt z (List.mem_cons_of_mem _ hz))
    simp only [List.length_cons]
    omega

theorem applyRows_eraseRows (src : List α) (n c : Nat) (hc : 1 ≤ c)
    (hsrc : src.length = n * c) (hfit : n * c < 2 ^ 64) :
    ∀ (rest : List Nat) (prevIdx prevDest prevCopy : Nat) (d : List α),
      prevIdx < n → (prevIdx :: rest).Pairwise (· < ·) → (∀ y ∈ rest, y < n) →
      d.length ≤ n * c →
      d.length = prevCopy + prevDest + (n - prevIdx - 1 - rest.length) * c →
      applyRows src (eraseRows n c prevIdx prevDest prevCopy rest) d =
        some (d.take (prevCopy + prevDest) ++
          tuplesFrom src c (prevIdx + 1) (n - prevIdx - 1) rest)
  | [], prevIdx, prevDest, prevCopy, d, hprev, _, _, hdle, hd => by
    have hn : n < 2 ^ 64 := Nat.lt_of_le_of_lt (le_mul_of_one_le hc) hfit
    have hm1 : (prevIdx + 1) * c ≤ n * c := Nat.mul_le_mul_right c hprev
    have hm2 : (n - prevIdx - 1) * c ≤ n * c := Nat.mul_le_mul_right c (by omega)
    have hsum : (prevIdx + 1) * c + (n - prevIdx - 1) * c = n * c := by
      rw [← Nat.add_mul]; congr 1; omega
    simp only [List.length_nil, Nat.sub_zero] at hd
    have e1 : wadd prevIdx 1 = prevIdx + 1 := wadd_eq (by omega)
    have e2 : wmul (prevIdx + 1) c = (prevIdx + 1) * c := wmul_eq (by omega)
    have e3 : wadd prevCopy prevDest = prevCopy + prevDest := wadd_eq (by omega)
    have e4 : wsub n prevIdx = n - prevIdx := wsub_eq hn (by omega)
    have e5 : wsub (n - prevIdx) 1 = n - prevIdx - 1 := wsub_eq (by omega) (by omega)
    have e6 : wmul (n - prevIdx - 1) c = (n - prevIdx - 1) * c := wmul_eq (by omega)
    have hb1 : (prevIdx + 1) * c + (n - prevIdx - 1) * c ≤ src.length := by omega
    have hb2 : prevCopy + prevDest + (n - prevIdx - 1) * c ≤ d.length := by omega
    simp only [eraseRows, e1, e2, e3, e4, e5, e6, applyRows, hb1, hb2, and_self, if_true]
    have hdrop : d.drop (prevCopy + prevDest + (n - prevIdx - 1) * c) = [] :=
      List.drop_eq_nil_of_le (by omega)
    rw [hdrop, List.append_nil, tuplesFrom_nil]
  | x :: rest, prevIdx, prevDest, prevCopy, d, hprev, hp, hlt, hdle, hd => by
    have hn : n < 2 ^ 64 := Nat.lt_of_le_of_lt (le_mul_of_one_le hc) hfit
    have hpx : prevIdx < x := (List.pairwise_cons.1 hp).1 x (by simp)
    have hpr : (x :: rest).Pairwise (· < ·) := (List.pairwise_cons.1 hp).2
    have hxn : x < n := hlt x (by simp)
    have hroom := pairwise_lt_room n rest x hpr hlt
    have hm1 : (prevIdx + 1) * c ≤ n * c := Nat.mul_le_mul_right c hprev
    have hm2 : (x - prevIdx - 1) * c ≤ n * c := Nat.mul_le_mul_right c (by omega)
    have hsum : (prevIdx + 1) * c + (x - prevIdx - 1) * c = x * c := by
      rw [← Nat.add_mul]; congr 1; omega
    have hxc : x * c ≤ n * c := Nat.mul_le_mul_right c (by omega)
    have hsplit : (n - prevIdx - 1 - (rest.length + 1)) * c =
        (x - prevIdx - 1) * c + (n - x - 1 - rest.length) * c := by
      rw [← Nat.add_mul]; congr 1; omega
    simp only [List.length_cons] at hd
    have e1 : wadd prevIdx 1 = prevIdx + 1 := wadd_eq (by omega)
    have e2 : wmul (prevIdx + 1) c = (prevIdx + 1) * c := wmul_eq (by omega)
    have e3 : wadd prevCopy prevDest = prevCopy + prevDest := wadd_eq (by omega)
    have e4 : wsub x prevIdx = x - prevIdx := wsub_eq (by omega) (by omega)
    have e5 : wsub (x - prevIdx) 1 = x - prevIdx - 1 := wsub_eq (by omega) (by omega)
    have e6 : wmul (x - prevIdx - 1) c = (x - prevIdx - 1) * c := wmul_eq (by omega)
    have hb1 : (prevIdx + 1) * c + (x - prevIdx - 1) * c ≤ src.length := by omega
    have hb2 : prevCopy + prevDest + (x - prevIdx - 1) * c ≤ d.length := by omega
    simp only [eraseRows, e1, e2, e3, e4, e5, e6, applyRows, hb1, hb2, and_self, if_true]
    have hlenAB : (d.take (prevCopy + prevDest) ++
        ((src.drop ((prevIdx + 1) * c)).take ((x - prevIdx - 1) * c))).length =
        (x - prevIdx - 1) * c + (prevCopy + prevDest) := by
      simp only [List.length_append, List.length_take, List.length_drop]
      omega
    have hlen1 : (d.take (prevCopy + prevDest) ++
        ((src.drop ((prevIdx + 1) * c)).take ((x - prevIdx - 1) * c)) ++
        d.drop (prevCopy + prevDest + (x - prevIdx - 1) * c)).length = d.length := by
      rw [List.length_append, hlenAB, List.length_drop]
      omega
    rw [applyRows_eraseRows src n c hc hsrc hfit rest x (prevCopy + prevDest)
      ((x - prevIdx - 1) * c) _ hxn hpr (fun y hy => hlt y (List.mem_cons_of_mem _ hy))
      (by rw [hlen1]; exact hdle) (by rw [hlen1]; omega)]
    rw [List.take_left' hlenAB, tuplesFrom_cons src c (prevIdx + 1) (n - prevIdx - 1) x rest
      (by omega) (by omega) (fun y hy => (List.pairwise_cons.1 hpr).1 y hy)]
    rw [show x - (prevIdx + 1) = x - prevIdx - 1 by omega,
      show prevIdx + 1 + (n - prevIdx - 1) - x - 1 = n - x - 1 by omega, List.append_assoc]

theorem applyRows_length (src : List α) :
    ∀ (rows : List (Nat × Nat × Nat)) (d d1 : List α),
      applyRows src rows d = some d1 → d1.length = d.length
  | [], d, d1, he => by
    simp only [applyRows, Option.some.injEq] at he
    rw [he]
  | row :: rest, d, d1, he => by
    simp only [applyRows] at he
    split at he
    · rename_i hb
      rw [applyRows_length src rest _ d1 he]
      simp only [List.length_append, List.length_take, List.length_drop]
      omega
    · cases he

theorem applyRows_eraseTable (src : List α) (n c : Nat) (hc : 1 ≤ c)
    (hsrc : src.length = n * c) (hfit : n * c < 2 ^ 64) (x : Nat) (rest : List Nat) (d : List α)
    (hp : (x :: rest).Pairwise (· < ·)) (hlt : ∀ y ∈ x :: rest, y < n)
    (hd : d.length = (n - (x :: rest).length) * c) :
    applyRows src (eraseTable n c (x :: rest)) d = some (tuplesFrom src c 0 n (x :: rest)) := by
  have hn : n < 2 ^ 64 := Nat.lt_of_le_of_lt (le_mul_of_one_le hc) hfit
  have hxn : x < n := hlt x (by simp)
  have hroom := pairwise_lt_room n rest x hp hlt
  have hxc : x * c ≤ n * c := Nat.mul_le_mul_right c (by omega)
  simp only [List.length_cons] at hd
  have hsplit : (n - (rest.length + 1)) * c = x * c + (n - x - 1 - rest.length) * c := by
    rw [← Nat.add_mul]; congr 1; omega
  have e1 : wsub x 0 = x := by simpa using wsub_eq (Nat.lt_trans hxn hn) (Nat.zero_le x)
  have e2 : wmul x c = x * c := wmul_eq (by omega)
  have hdle : d.length ≤ n * c := by
    rw [hd]; exact Nat.mul_le_mul_right c (Nat.sub_le _ _)
  have hb1 : x * c ≤ src.length := by omega
  have hb2 : x * c ≤ d.length := by omega
  simp only [eraseTable, e1, e2, applyRows, hb1, hb2, and_self, if_true, List.take_zero,
    List.nil_append, List.drop_zero, Nat.zero_add]
  have hlenA : (src.take (x * c)).length = x * c + 0 := by
    simp only [List.length_take]; omega
  have hlen1 : (src.take (x * c) ++ d.drop (x * c)).length = d.length := by
    simp only [List.length_append, List.length_take, List.length_drop]; omega
  rw [applyRows_eraseRows src n c hc hsrc hfit rest x 0 (x * c) _ hxn hp
    (fun y hy => hlt y (List.mem_cons_of_mem _ hy)) (by rw [hlen1]; omega)
    (by rw [hlen1]; omega)]
  rw [List.take_left' hlenA, tuplesFrom_cons src c 0 n x rest (Nat.zero_le x) (by omega)
    (fun y hy => (List.pairwise_cons.1 hp).1 y hy)]
  simp

theorem copyRows_store (q p : Nat) (src : List α) (hpq : p ≠ q) (hq : q ≠ 0) :
    ∀ (rows : List (Nat × Nat × Nat)) (h : Heap α) (d d1 : List α),
      h.read p = some src → q - 1 < h.blocks.length → applyRows src rows d = some d1 →
      copyRows q p rows (h.store q d) = some (h.store q d1)
  | [], h, d, d1, _, _, he => by
    simp only [applyRows, Option.some.injEq] at he
    simp [copyRows, he]
  | row :: rest, h, d, d1, hr, hlt, he => by
    simp only [applyRows] at he
    split at he
    · rename_i hb
      have hcpy := Heap.memcpy_live (h.store q d) q row.2.1 p row.1 row.2.2 src d
        (by rw [Heap.read_store_ne h p q d hq hpq]; exact hr)
        (Heap.read_store_same h q d hq hlt) hb.1 hb.2
      simp only [copyRows, hcpy, Option.some_bind, Heap.store_store]
      exact copyRows_store q p src hpq hq rest h _ d1 hr hlt he
    · cases he

theorem frontRun_full (n : Nat) (hn : n < 2 ^ 64) :
    ∀ (idxs : List Nat) (j k : Nat), (∀ y ∈ idxs, y < n) →
      (frontRun idxs j k).2 = k + idxs.length →
      idxs = List.range' j idxs.length ∧ (frontRun idxs j k).1 = j + idxs.length
  | [], j, k, _, _ => by simp [frontRun]
  | x :: rest, j, k, hlt, hk => by
    by_cases hjx : j = x
    · have hxn : x < n := hlt x (by simp)
      have e1 : wadd j 1 = j + 1 := wadd_eq (by omega)
      simp only [frontRun, hjx, if_true, List.length_cons] at hk ⊢
      rw [← hjx] at hk ⊢
      rw [e1] at hk ⊢
      obtain ⟨ih1, ih2⟩ := frontRun_full n hn rest (j + 1) (k + 1)
        (fun y hy => hlt y (List.mem_cons_of_mem _ hy)) (by omega)
      refine ⟨?_, by omega⟩
      rw [List.range'_succ, ← ih1]
    · simp only [frontRun, hjx, if_false, List.length_cons] at hk
      omega

/-! ## `eraseTuples` on a fresh array with in-range, ascending indices -/

theorem DataArray.eraseTuples_fresh [ElementType α]
    (pf : Platform α) (env : Alloc α) (a : DataArray α)
    (h : Heap α) (buf : List α) (n c : Nat) (idxs : List Nat) (hc : 1 ≤ c)
    (hf : a.freshWith h n c buf) (hsorted : idxs.Pairwise (· < ·)) (hin : ∀ i ∈ idxs, i < n)
    (hpos : 0 < idxs.length) (hlen : idxs.length < n) (hok : env.ok = true) :
    ∃ h1, a.eraseTuples pf env h idxs =
        some (0, ({ a with m_Array := 0, m_IsAllocated := false } : DataArray α).saveErased
          ((n - idxs.length) * c) (h.blocks.length + 1), h1) ∧
      h1.read (h.blocks.length + 1) = some (tuplesFrom buf c 0 n idxs) ∧
      (tuplesFrom buf c 0 n idxs).length = (n - idxs.length) * c ∧
      h1.read a.m_Array = none ∧
      h1.log = h.log ++ [MemEvent.malloc ((n - idxs.length) * c) (h.blocks.length + 1),
        MemEvent.free a.m_Array] := by
  obtain ⟨hn, hcomp, hsize, hrange, hmax, hr, hl, hby⟩ := hf
  subst hn hcomp
  have h0 := Heap.read_some_ne_zero hr
  have hlt := Heap.read_some_lt hr
  have hfit : a.m_NumTuples * a.m_NumComponents < 2 ^ 64 := by rw [← hsize]; exact hrange
  have hnfit : a.m_NumTuples < 2 ^ 64 := Nat.lt_of_le_of_lt (le_mul_of_one_le hc) hfit
  have hsrc : buf.length = a.m_NumTuples * a.m_NumComponents := by rw [hl, hsize]
  have hne : idxs.length ≠ 0 := by omega
  have hnl : ¬ (a.m_NumTuples ≤ idxs.length) := by omega
  have hNle : (a.m_NumTuples - idxs.length) * a.m_NumComponents ≤
      a.m_NumTuples * a.m_NumComponents :=
    Nat.mul_le_mul_right a.m_NumComponents (Nat.sub_le _ _)
  have hany : idxs.any (fun i => decide (wmul i a.m_NumComponents > a.m_MaxId)) = false := by
    rw [List.any_eq_false]
    intro x hx
    have hxn := hin x hx
    have hxc : (x + 1) * a.m_NumComponents ≤ a.m_NumTuples * a.m_NumComponents :=
      Nat.mul_le_mul_right a.m_NumComponents hxn
    rw [Nat.add_mul, Nat.one_mul] at hxc
    have e : wmul x a.m_NumComponents = x * a.m_NumComponents := wmul_eq (by omega)
    simp only [e, decide_eq_true_eq, hmax, hsize]
    omega
  have eN1 : wsub a.m_NumTuples idxs.length = a.m_NumTuples - idxs.length :=
    wsub_eq hnfit (by omega)
  have eN2 : wmul (a.m_NumTuples - idxs.length) a.m_NumComponents =
      (a.m_NumTuples - idxs.length) * a.m_NumComponents :=
    wmul_eq (by omega)
  generalize hN : (a.m_NumTuples - idxs.length) * a.m_NumComponents = N at *
  have hNb : N * ElementType.sizeofT α < 2 ^ 64 :=
    Nat.lt_of_le_of_lt (Nat.mul_le_mul_right _ (by rw [hsize]; exact hNle)) hby
  have hmal := Heap.malloc_ok h env N hok hNb
  obtain ⟨hm, hhm⟩ : ∃ hm : Heap α,
      Heap.mk (h.blocks ++ [some (junkBlock env 0 N)])
        (h.log ++ [MemEvent.malloc N (h.blocks.length + 1)]) = hm := ⟨_, rfl⟩
  rw [hhm] at hmal
  have hmq : hm.read (h.blocks.length + 1) = some (junkBlock env 0 N) := by
    have := Heap.read_malloc_new h env N hok hNb
    rwa [hmal] at this
  have hmp : hm.read a.m_Array = some buf := by
    have := Heap.read_malloc_old h env N hr
    rwa [hmal] at this
  have hmlen : h.blocks.length + 1 - 1 < hm.blocks.length := by
    rw [← hhm]; simp
  have hmlog : hm.log = h.log ++ [MemEvent.malloc N (h.blocks.length + 1)] := by
    rw [← hhm]
  have hq : h.blocks.length + 1 ≠ a.m_Array := by omega
  have hq0 : h.blocks.length + 1 ≠ 0 := by omega
  have hset := Heap.memset_live hm (h.blocks.length + 1) pf.abFill N (junkBlock env 0 N) hmq
    (by simp [junkBlock_length])
  generalize hd0 : List.replicate N pf.abFill ++ (junkBlock env 0 N).drop N = d0 at hset
  have hd0len : d0.length = N := by
    rw [← hd0]; simp [junkBlock_length]
  -- the common tail of both copy paths
  have tail : ∀ d1 : List α,
      d1 = tuplesFrom buf a.m_NumComponents 0 a.m_NumTuples idxs → d1.length = N →
      ∃ h1, ((a._deallocate pf (hm.store (h.blocks.length + 1) d1)).bind fun r =>
          some ((0 : Int), r.1.saveErased N (h.blocks.length + 1), r.2)) =
          some (0, ({ a with m_Array := 0, m_IsAllocated := false } : DataArray α).saveErased
            N (h.blocks.length + 1), h1) ∧
        h1.read (h.blocks.length + 1) =
          some (tuplesFrom buf a.m_NumComponents 0 a.m_NumTuples idxs) ∧
        (tuplesFrom buf a.m_NumComponents 0 a.m_NumTuples idxs).length = N ∧
        h1.read a.m_Array = none ∧
        h1.log = h.log ++ [MemEvent.malloc N (h.blocks.length + 1), MemEvent.free a.m_Array] := by
    intro d1 hd1 hd1len
    have hrp : (hm.store (h.blocks.length + 1) d1).read a.m_Array = some buf := by
      rw [Heap.read_store_ne hm _ _ d1 hq0 (fun e => hq e.symm)]; exact hmp
    refine ⟨(hm.store (h.blocks.length + 1) d1).release a.m_Array, ?_, ?_, ?_, ?_, ?_⟩
    · rw [DataArray.deallocate_live pf a _ buf hrp hl]
      rfl
    · rw [Heap.read_release_ne _ _ _ h0 hq, Heap.read_store_same hm _ d1 hq0 hmlen, hd1]
    · rw [← hd1]; exact hd1len
    · exact Heap.read_release_same _ _
    · simp [Heap.release, Heap.log_store, hmlog]
  simp only [DataArray.eraseTuples, hne, DataArray.getNumberOfTuples, ge_iff_le, hnl,
    hany, if_false, eN1, eN2, hN, hmal, hset, Option.some_bind, Bool.false_eq_true]
  by_cases hfront : (frontRun idxs 0 0).2 = idxs.length
  · obtain ⟨hrange', hj⟩ := frontRun_full a.m_NumTuples hnfit idxs 0 0 hin (by omega)
    simp only [hfront, if_true, hj, Nat.zero_add]
    have hkc : idxs.length * a.m_NumComponents ≤ a.m_NumTuples * a.m_NumComponents :=
      Nat.mul_le_mul_right a.m_NumComponents (by omega)
    have hsum : idxs.length * a.m_NumComponents + N = a.m_NumTuples * a.m_NumComponents := by
      rw [← hN, ← Nat.add_mul]; congr 1; omega
    have e3 : wmul idxs.length a.m_NumComponents = idxs.length * a.m_NumComponents :=
      wmul_eq (by omega)
    have hcpy := Heap.memcpy_live (hm.store (h.blocks.length + 1) d0) (h.blocks.length + 1) 0
      a.m_Array (idxs.length * a.m_NumComponents) N buf d0
      (by rw [Heap.read_store_ne hm _ _ d0 hq0 (fun e => hq e.symm)]; exact hmp)
      (Heap.read_store_same hm _ d0 hq0 hmlen) (by omega) (by omega)
    have hd0drop : d0.drop (0 + N) = [] := List.drop_eq_nil_of_le (by omega)
    simp only [List.take_zero, List.nil_append, hd0drop, List.append_nil,
      Heap.store_store] at hcpy
    rw [e3, hcpy, Option.some_bind]
    apply tail
    · have := tuplesFrom_range' buf a.m_NumComponents idxs.length 0 a.m_NumTuples hlen
      rw [← hrange'] at this
      rw [this, Nat.zero_add]
      congr 1
      · rw [← hN]
    · simp only [List.length_take, List.length_drop]; omega
  · simp only [hfront, if_false]
    obtain ⟨x, rest, hxr⟩ : ∃ x rest, idxs = x :: rest := by
      cases idxs with
      | nil => simp at hpos
      | cons x rest => exact ⟨x, rest, rfl⟩
    have happ := applyRows_eraseTable buf a.m_NumTuples a.m_NumComponents hc hsrc hfit x rest d0
      (by rw [← hxr]; exact hsorted) (by rw [← hxr]; exact hin)
      (by rw [← hxr, hN]; exact hd0len)
    rw [← hxr] at happ
    rw [copyRows_store (h.blocks.length + 1) a.m_Array buf (fun e => hq e.symm) hq0 _ hm d0 _
      hmp hmlen happ, Option.some_bind]
    apply tail _ rfl
    rw [applyRows_length buf _ d0 _ happ, hd0len]

/-- C2: on a fresh array of `n` tuples of `c ≥ 1` components holding `buf`, with a strictly
ascending index list of length strictly between 0 and `n` whose indices are all below `n`,
and the allocator succeeding, `eraseTuples` returns 0 and the buffer afterwards holds the
`(n - |idxs|) * c` elements of the tuples whose index is not listed, in their original
order. -/
theorem C2_eraseTuples_keeps_survivors [ElementType α]
    (pf : Platform α) (env : Alloc α) (a : DataArray α)
    (h : Heap α) (buf : List α) (n c : Nat) (idxs : List Nat) (hc : 1 ≤ c)
    (hf : a.freshWith h n c buf) (hsorted : idxs.Pairwise (· < ·)) (hin : ∀ i ∈ idxs, i < n)
    (hpos : 0 < idxs.length) (hlen : idxs.length < n) (hok : env.ok = true) :
    ∃ a1 h1, a.eraseTuples pf env h idxs = some (0, a1, h1) ∧
      a1.getSize = (n - idxs.length) * c ∧
      h1.read a1.m_Array =
        some (((List.range n).filter (fun i => decide (i ∉ idxs))).flatMap
          (fun i => (buf.drop (i * c)).take c)) ∧
      (((List.range n).filter (fun i => decide (i ∉ idxs))).flatMap
          (fun i => (buf.drop (i * c)).take c)).length = (n - idxs.length) * c := by
  obtain ⟨h1, he, hrd, hlen1, -, -⟩ :=
    DataArray.eraseTuples_fresh pf env a h buf n c idxs hc hf hsorted hin hpos hlen hok
  rw [List.range_eq_range']
  exact ⟨_, h1, he, rfl, hrd, hlen1⟩

/-- Witness for C2: the hypotheses hold at a concrete array and the theorem applies. -/
theorem C2_eraseTuples_keeps_survivors_witness :
    1 ≤ 2 ∧ arr52.freshWith heap52 5 2 [10, 11, 20, 21, 30, 31, 40, 41, 50, 51] ∧
      [1, 3].Pairwise (· < ·) ∧ (∀ i ∈ [1, 3], i < 5) ∧ 0 < [1, 3].length ∧ [1, 3].length < 5 ∧
      ∃ a1 h1, arr52.eraseTuples pfRealloc envOk heap52 [1, 3] = some (0, a1, h1) ∧
        a1.getSize = (5 - [1, 3].length) * 2 ∧
        h1.read a1.m_Array =
          some (((List.range 5).filter (fun i => decide (i ∉ [1, 3]))).flatMap
            (fun i => ([10, 11, 20, 21, 30, 31, 40, 41, 50, 51].drop (i * 2)).take 2)) ∧
        (((List.range 5).filter (fun i => decide (i ∉ [1, 3]))).flatMap
            (fun i => ([10, 11, 20, 21, 30, 31, 40, 41, 50, 51].drop (i * 2)).take 2)).length =
          (5 - [1, 3].length) * 2 :=
  ⟨by decide, by unfold DataArray.freshWith; decide, by decide, by decide, by decide, by decide,
    C2_eraseTuples_keeps_survivors pfRealloc envOk arr52 heap52
      [10, 11, 20, 21, 30, 31, 40, 41, 50, 51] 5 2 [1, 3] (by decide)
      (by unfold DataArray.freshWith; decide) (by decide) (by decide) (by decide) (by decide)
      rfl⟩

/-- The example of the specification: erasing the tuples 1 and 3 of
`[[10,11],[20,21],[30,31],[40,41],[50,51]]` leaves `[[10,11],[30,31],[50,51]]`. -/
theorem eraseTuples_example_1_3 :
    (arr52.eraseTuples pfRealloc envOk heap52 [1, 3]).map
        (fun r => (r.1, r.2.1.getSize, r.2.2.read r.2.1.m_Array)) =
      some (0, 6, some [10, 11, 30, 31, 50, 51]) := by
  decide

/-! ## `copyTuple` -/

theorem blit_getElem? (d s : List α) (dOff sOff cnt i : Nat) (hb1 : sOff + cnt ≤ s.length)
    (hb2 : dOff + cnt ≤ d.length) :
    (d.take dOff ++ (s.drop sOff).take cnt ++ d.drop (dOff + cnt))[i]? =
      if dOff ≤ i ∧ i < dOff + cnt then s[sOff + (i - dOff)]? else d[i]? := by
  have hlA : (d.take dOff).length = dOff := by simp only [List.length_take]; omega
  have hlB : ((s.drop sOff).take cnt).length = cnt := by
    simp only [List.length_take, List.length_drop]; omega
  have hlAB : (d.take dOff ++ (s.drop sOff).take cnt).length = dOff + cnt := by
    rw [List.length_append, hlA, hlB]
  by_cases h1 : i < dOff
  · have hi : i < (d.take dOff ++ (s.drop sOff).take cnt).length := by omega
    rw [List.getElem?_append_left hi, List.getElem?_append_left (by omega),
      List.getElem?_take_of_lt h1, if_neg (by omega)]
  · by_cases h2 : i < dOff + cnt
    · have hi : i < (d.take dOff ++ (s.drop sOff).take cnt).length := by omega
      rw [List.getElem?_append_left hi, List.getElem?_append_right (by omega), hlA,
        List.getElem?_take_of_lt (by omega), List.getElem?_drop, if_pos (by omega)]
    · rw [List.getElem?_append_right (by omega), hlAB, List.getElem?_drop, if_neg (by omega)]
      congr 1
      omega

/-- C6 (as amended): on an array of `c ≥ 1` components whose live buffer `buf` holds `n`
tuples and whose max index is `n * c - 1`, `copyTuple(src, dst)` with `src < n` and
`dst < n` returns 0; afterwards every component of tuple `dst` is the previous component of
tuple `src`, every other tuple is unchanged, and nothing else changes. -/
theorem C6_copyTuple_copies (a : DataArray α) (h : Heap α) (buf : List α) (n src dst : Nat)
    (hc : 1 ≤ a.m_NumComponents) (hr : h.read a.m_Array = some buf)
    (hl : buf.length = n * a.m_NumComponents) (hmax : a.m_MaxId + 1 = n * a.m_NumComponents)
    (hfit : n * a.m_NumComponents < 2 ^ 64) (hs : src < n) (hd : dst < n) :
    ∃ h1 new, a.copyTuple h src dst = some (0, a, h1) ∧
      h1.read a.m_Array = some new ∧ new.length = buf.length ∧
      (∀ j, j < a.m_NumComponents →
        new[dst * a.m_NumComponents + j]? = buf[src * a.m_NumComponents + j]?) ∧
      (∀ t j, t < n → t ≠ dst → j < a.m_NumComponents →
        new[t * a.m_NumComponents + j]? = buf[t * a.m_NumComponents + j]?) ∧
      (∀ p, p ≠ a.m_Array → h1.read p = h.read p) ∧ h1.log = h.log := by
  have h0 := Heap.read_some_ne_zero hr
  have hlt := Heap.read_some_lt hr
  have hc0 : a.m_NumComponents ≠ 0 := by omega
  have e1 : wadd a.m_MaxId 1 = n * a.m_NumComponents := by rw [wadd_eq (by omega), hmax]
  have e2 : n * a.m_NumComponents / a.m_NumComponents = n := Nat.mul_div_cancel n hc
  have hsc : (src + 1) * a.m_NumComponents ≤ n * a.m_NumComponents :=
    Nat.mul_le_mul_right _ hs
  have hdc : (dst + 1) * a.m_NumComponents ≤ n * a.m_NumComponents :=
    Nat.mul_le_mul_right _ hd
  rw [Nat.add_mul, Nat.one_mul] at hsc hdc
  have e3 : wmul src a.m_NumComponents = src * a.m_NumComponents := wmul_eq (by omega)
  have e4 : wmul dst a.m_NumComponents = dst * a.m_NumComponents := wmul_eq (by omega)
  have hcpy := Heap.memcpy_live h a.m_Array (dst * a.m_NumComponents) a.m_Array
    (src * a.m_NumComponents) a.m_NumComponents buf buf hr hr (by omega) (by omega)
  have hget := fun i => blit_getElem? buf buf (dst * a.m_NumComponents)
    (src * a.m_NumComponents) a.m_NumComponents i (by omega) (by omega)
  refine ⟨h.store a.m_Array (buf.take (dst * a.m_NumComponents) ++
      (buf.drop (src * a.m_NumComponents)).take a.m_NumComponents ++
      buf.drop (dst * a.m_NumComponents + a.m_NumComponents)), _, ?_,
    Heap.read_store_same h a.m_Array _ h0 hlt, ?_, ?_, ?_, ?_, ?_⟩
  · simp only [DataArray.copyTuple, hc0, if_false, e1, e2, ge_iff_le, e3, e4, hcpy,
      Option.some_bind]
    rw [if_neg (by omega)]
  · simp only [List.length_append, List.length_take, List.length_drop]
    omega
  · intro j hj
    rw [hget, if_pos (by omega)]
    congr 1
    omega
  · intro t j ht hne hj
    rw [hget, if_neg]
    intro hcon
    rcases Nat.lt_or_gt_of_ne hne with hlt2 | hgt2
    · have : (t + 1) * a.m_NumComponents ≤ dst * a.m_NumComponents :=
        Nat.mul_le_mul_right _ hlt2
      rw [Nat.add_mul, Nat.one_mul] at this
      omega
    · have : (dst + 1) * a.m_NumComponents ≤ t * a.m_NumComponents :=
        Nat.mul_le_mul_right _ hgt2
      rw [Nat.add_mul, Nat.one_mul] at this
      omega
  · intro p hp
    exact Heap.read_store_ne h p a.m_Array _ h0 hp
  · rfl

/-- Witness for C6: the hypotheses hold at a concrete array and the theorem applies. -/
theorem C6_copyTuple_copies_witness :
    1 ≤ arr43.m_NumComponents ∧
      heap43.read arr43.m_Array = some [1, 2, 3, 4, 5, 6, 7, 8, 9, 10, 11, 12] ∧
      [1, 2, 3, 4, 5, 6, 7, 8, 9, 10, 11, 12].length = 4 * arr43.m_NumComponents ∧
      arr43.m_MaxId + 1 = 4 * arr43.m_NumComponents ∧ 4 * arr43.m_NumComponents < 2 ^ 64 ∧
      0 < 4 ∧ 1 < 4 ∧
      ∃ h1 new, arr43.copyTuple heap43 0 1 = some (0, arr43, h1) ∧
        h1.read arr43.m_Array = some new ∧
        new.length = [1, 2, 3, 4, 5, 6, 7, 8, 9, 10, 11, 12].length ∧
        (∀ j, j < arr43.m_NumComponents →
          new[1 * arr43.m_NumComponents + j]? =
            [1, 2, 3, 4, 5, 6, 7, 8, 9, 10, 11, 12][0 * arr43.m_NumComponents + j]?) ∧
        (∀ t j, t < 4 → t ≠ 1 → j < arr43.m_NumComponents →
          new[t * arr43.m_NumComponents + j]? =
            [1, 2, 3, 4, 5, 6, 7, 8, 9, 10, 11, 12][t * arr43.m_NumComponents + j]?) ∧
        (∀ p, p ≠ arr43.m_Array → h1.read p = heap43.read p) ∧ h1.log = heap43.log :=
  ⟨by decide, by decide, by decide, by decide, by decide, by decide, by decide,
    C6_copyTuple_copies arr43 heap43 [1, 2, 3, 4, 5, 6, 7, 8, 9, 10, 11, 12] 4 0 1 (by decide)
      (by decide) (by decide) (by decide) (by decide) (by decide) (by decide)⟩

/-- The scenario of the specification: tuple 0 is `(1,2,3)` and tuple 2 is `(7,8,9)`;
`copyTuple(0,1)` makes tuple 1 equal to `(1,2,3)` and leaves tuples 0 and 2 as they were. -/
theorem copyTuple_example_0_1 :
    (arr43.copyTuple heap43 0 1).map (fun r => (r.1, r.2.2.read r.2.1.m_Array)) =
      some (0, some [1, 2, 3, 1, 2, 3, 7, 8, 9, 10, 11, 12]) := by
  decide

/-- C6 (as stated) fails: the array made by `CreateArray(3, [0], "a")` has three tuples of
zero components; `copyTuple(0, 0)` divides by the component count, which is undefined
behaviour (the result `none`), instead of returning 0. -/
theorem C6_counterexample :
    ((CreateArrayQ pfRealloc envOk heap0 3 [0] "a").bind fun r =>
        r.1.map fun a =>
          (a.getNumberOfTuples, a.getNumberOfComponents, (a.copyTuple r.2 0 0).isNone)) =
      some (3, 0, true) := by
  decide

/-! ## The factories produce the concrete arrays and fresh states -/

theorem arr52_created :
    (CreateArrayDims pfRealloc envOk heap0 [5] [2] "a").map
        (fun r => (r.1, r.2.store 1 [10, 11, 20, 21, 30, 31, 40, 41, 50, 51])) =
      some (some arr52, heap52) := by
  decide

theorem arr21_created :
    (CreateArrayQ pfRealloc envOk heap0 2 [1] "a").map (fun r => (r.1, r.2.store 1 [10, 20])) =
      some (some arr21, heap21) := by
  decide

theorem arr43_created :
    (CreateArrayDims pfRealloc envOk heap0 [4] [3] "a").map
        (fun r => (r.1, r.2.store 1 [1, 2, 3, 4, 5, 6, 7, 8, 9, 10, 11, 12])) =
      some (some arr43, heap43) := by
  decide

/-- A factory call for `n` tuples of `c` components with `0 < n * c`, the byte count
`n * c * sizeof(T)` being representable, and a succeeding allocator returns an array in the
state `freshWith`. -/
theorem CreateArrayQ_freshWith (pf : Platform Nat) (env : Alloc Nat) (h : Heap Nat)
    (n c : Nat) (name : String) (hname : name.isEmpty = false) (hpos : 0 < n * c)
    (hfit : n * c < 2 ^ 64) (hok : env.ok = true)
    (hbytes : n * c * ElementType.sizeofT Nat < 2 ^ 64) :
    ∃ a h1, CreateArrayQ pf env h n [c] name = some (some a, h1) ∧
      a.freshWith h1 n c (junkBlock env 0 (n * c)) := by
  have e1 : wmul n c = n * c := wmul_eq hfit
  have e2 : wsub (n * c) 1 = n * c - 1 := wsub_eq hfit hpos
  have hne : n * c ≠ 0 := by omega
  refine ⟨{ m_Array := h.blocks.length + 1, m_Size := n * c, m_OwnsData := true,
            m_MaxId := n * c - 1, m_IsAllocated := true, m_Name := name, m_TupleDims := [n],
            m_NumTuples := n, m_CompDims := [c], m_NumComponents := c, m_FillValue := 0 },
    (h.malloc env (n * c)).1, ?_, rfl, rfl, rfl, hfit, rfl, ?_, ?_, hbytes⟩
  · simp [CreateArrayQ, hname, DataArray.ctor, sumDims, e1, e2, hpos, finishCreate,
      DataArray.Allocate, hne, Heap.malloc_snd h env (n * c) hok]
  · have := Heap.read_malloc_new h env (n * c) hok hbytes
    rwa [Heap.malloc_snd h env (n * c) hok] at this
  · simp [junkBlock_length]

/-! ## Failing inputs -/

/-- C1: `resize` and `eraseTuples` change the total size but never `m_NumTuples`.  After
`CreateArray([2], [1])` and a successful `resize(3)` the array reports 2 tuples of 1
component and size 3; after `CreateArray([3], [1])` and a successful `eraseTuples([0])` it
reports 3 tuples of 1 component and size 2. -/
theorem C1_size_product_broken :
    ((CreateArrayDims pfRealloc envOk heap0 [2] [1] "a").bind fun r =>
        r.1.bind fun a =>
          (a.resize pfRealloc envOk r.2 3).map fun q =>
            (q.1, q.2.1.getNumberOfTuples, q.2.1.getNumberOfComponents, q.2.1.getSize)) =
        some (1, 2, 1, 3) ∧
      ((CreateArrayDims pfRealloc envOk heap0 [3] [1] "a").bind fun r =>
        r.1.bind fun a =>
          (a.eraseTuples pfRealloc envOk r.2 [0]).map fun q =>
            (q.1, q.2.1.getNumberOfTuples, q.2.1.getNumberOfComponents, q.2.1.getSize)) =
        some (0, 3, 1, 2) := by
  decide

/-- The stale tuple count is then used by the next `eraseTuples`: erasing tuple 0 twice from
a three-tuple array copies beyond the two-tuple buffer (undefined behaviour). -/
theorem eraseTuples_twice_overruns :
    ((CreateArrayDims pfRealloc envOk heap0 [3] [1] "a").bind fun r =>
        r.1.bind fun a =>
          (a.eraseTuples pfRealloc envOk r.2 [0]).map fun q =>
            (q.2.1.eraseTuples pfRealloc envOk q.2.2 [0]).isNone) = some true := by
  decide

/-- C5: after the successful `eraseTuples([1, 3])` on the five-tuple, two-component array
the max index is the new size minus one (5 = 6 - 1), but `getNumberOfTuples()` still
returns 5 instead of 3. -/
theorem C5_numTuples_not_updated :
    (arr52.eraseTuples pfRealloc envOk heap52 [1, 3]).map
        (fun q => (q.1, q.2.1.getNumberOfTuples, q.2.1.m_MaxId, q.2.1.getSize)) =
      some (0, 5, 5, 6) := by
  decide

/-- C7: the array made by `CreateArray(0, "a")` has no tuple and no buffer, yet
`copyTuple(0, 0)` computes `max = (0 + 1) / 1 = 1`, passes the range check and copies
through the null pointer (undefined behaviour, the result `none`) instead of returning -1. -/
theorem C7_copyTuple_empty_array :
    ((CreateArray pfRealloc envOk heap0 0 "a").bind fun r =>
        r.1.map fun (a : DataArray Nat) =>
          (a.getNumberOfTuples, a.getSize, a.m_Array, a.m_MaxId, a.m_NumComponents,
            (a.copyTuple r.2 0 0).isNone)) =
      some (0, 0, 0, 0, 1, true) := by
  decide

/-- C8: after `releaseOwnership()` the owning flag is false, yet `eraseTuples([0])` frees
the buffer: the allocator log ends with `free` of the array's block, which is dead
afterwards. -/
theorem C8_eraseTuples_frees_borrowed :
    ((CreateArray pfRealloc envOk heap0 3 "a").bind fun r =>
        r.1.bind fun (a : DataArray Nat) =>
          (a.releaseOwnership.eraseTuples pfRealloc envOk r.2 [0]).map fun q =>
            (a.releaseOwnership.m_OwnsData, a.m_Array, q.1, q.2.2.log,
              (q.2.2.read a.m_Array).isNone)) =
      some (false, 1, 0,
        [MemEvent.malloc 3 1, MemEvent.malloc 2 2, MemEvent.free 1], true) := by
  decide

/-- The general copy path of `eraseTuples` frees a borrowed buffer as well. -/
theorem eraseTuples_general_path_frees_borrowed :
    (arr52.releaseOwnership.eraseTuples pfRealloc envOk heap52 [1, 3]).map
        (fun q => (q.1, q.2.2.log, q.2.2.read 1)) =
      some (0, [MemEvent.malloc 10 1, MemEvent.malloc 6 2, MemEvent.free 1], none) := by
  decide

/-! ## `resize` to the reported tuple count, `resize(0)` -/

/-- When the requested total equals the current size and the array has a buffer (or the
size is zero), `resize` returns 1 and changes nothing. -/
theorem DataArray.resize_same_size [ElementType α]
    (pf : Platform α) (env : Alloc α) (a : DataArray α)
    (h : Heap α) (n : Nat) (hs : wmul n a.m_NumComponents = a.m_Size)
    (hp : a.m_Array ≠ 0 ∨ a.m_Size = 0) : a.resize pf env h n = some (1, a, h) := by
  rcases hp with hp | hp
  · simp [DataArray.resize, DataArray.resizeTotalElements, DataArray.resizeAndExtend, hs, hp]
  · simp [DataArray.resize, DataArray.resizeTotalElements, DataArray.resizeAndExtend, hs, hp]

/-- C11: `getNumberOfTuples()` is the count given at construction, so after
`CreateArray([2], [1])` and `resize(3)` the call `resize(getNumberOfTuples())` is
`resize(2)`: it returns 1 but shrinks the three-element array to two elements in a
reallocated block. -/
theorem C11_resize_to_reported_count_shrinks :
    ((CreateArrayDims pfRealloc envOk heap0 [2] [1] "a").bind fun r =>
        r.1.bind fun a =>
          (a.resize pfRealloc envOk r.2 3).bind fun q =>
            (q.2.1.resize pfRealloc envOk q.2.2 q.2.1.getNumberOfTuples).map fun s =>
              (q.2.1.getNumberOfTuples, q.2.1.getSize, s.1, s.2.1.getSize, s.2.2.log)) =
      some (2, 3, 1, 2,
        [MemEvent.malloc 2 1, MemEvent.realloc 1 3 2, MemEvent.realloc 2 2 3]) := by
  decide

/-- C12 (as amended): on an array whose pointer is null or designates a live block of
`m_Size` elements, `resize(0)` returns 1; when the size was not zero the array is left in
the initial unallocated state (null pointer, size 0, max index 0, not allocated, owning),
and when the size was already zero nothing changes at all. -/
theorem C12_resize_zero [ElementType α]
    (pf : Platform α) (env : Alloc α) (a : DataArray α) (h : Heap α)
    (hb : a.bufferOk h) :
    ∃ a1 h1, a.resize pf env h 0 = some (1, a1, h1) ∧
      (a.m_Size ≠ 0 → a1.m_Array = 0 ∧ a1.getSize = 0 ∧ a1.m_MaxId = 0 ∧
        a1.isAllocated = false ∧ a1.m_OwnsData = true) ∧
      (a.m_Size = 0 → a1 = a ∧ h1 = h) := by
  have hw : wmul 0 a.m_NumComponents = 0 := by simp [wmul]
  by_cases hs : a.m_Size = 0
  · refine ⟨a, h, ?_, fun hne => absurd hs hne, fun _ => ⟨rfl, rfl⟩⟩
    simp [DataArray.resize, hw, DataArray.resizeTotalElements, DataArray.resizeAndExtend, hs]
  · obtain ⟨h1, hi⟩ := DataArray.initialize_ok pf a h hb
    have hs2 : ¬ (0 = a.m_Size) := fun e => hs e.symm
    refine ⟨{ a with m_Array := 0, m_Size := 0, m_OwnsData := true, m_MaxId := 0,
                     m_IsAllocated := false }, h1, ?_, fun _ => ⟨rfl, rfl, rfl, rfl, rfl⟩,
      fun he => absurd he hs⟩
    simp [DataArray.resize, hw, DataArray.resizeTotalElements, DataArray.resizeAndExtend, hs2, hi]

/-- Witness for C12: the five-tuple array is emptied by `resize(0)`. -/
theorem C12_resize_zero_witness :
    arr52.bufferOk heap52 ∧
      ∃ a1 h1, arr52.resize pfRealloc envOk heap52 0 = some (1, a1, h1) ∧
        (arr52.m_Size ≠ 0 → a1.m_Array = 0 ∧ a1.getSize = 0 ∧ a1.m_MaxId = 0 ∧
          a1.isAllocated = false ∧ a1.m_OwnsData = true) ∧
        (arr52.m_Size = 0 → a1 = arr52 ∧ h1 = heap52) :=
  ⟨Or.inr ⟨_, rfl, rfl⟩, C12_resize_zero pfRealloc envOk arr52 heap52 (Or.inr ⟨_, rfl, rfl⟩)⟩

/-- C12 (as stated) fails: the empty array made by `CreateArray(0, "a")`, once
`releaseOwnership()` has been called, is left untouched by `resize(0)` (the requested size
equals the current size), so its owning flag is still false afterwards. -/
theorem C12_counterexample :
    ((CreateArray pfRealloc envOk heap0 0 "a").bind fun r =>
        r.1.bind fun (a : DataArray Nat) =>
          (a.releaseOwnership.resize pfRealloc envOk r.2 0).map fun q =>
            (a.getSize, q.1, q.2.1.getSize, q.2.1.m_Array, q.2.1.m_OwnsData)) =
      some (0, 1, 0, 0, false) := by
  decide

/-! ## `Allocate` with a failing allocator, `isAllocated` after `eraseTuples` -/

/-- C13: a ten-element array whose `Allocate()` meets a failing allocator gets the return
code -1, a null pointer and `isAllocated() == false`, but `getSize()` is still 10. -/
theorem C13_failed_Allocate_keeps_size :
    ((DataArray.ctor [5] [2] "a" true (0 : Nat)).bind fun d =>
        (d.Allocate pfRealloc envFail heap0).map fun r =>
          (r.1, r.2.1.m_Array, r.2.1.isAllocated, r.2.1.getSize)) =
      some (-1, 0, false, 10) := by
  decide

/-- C14: after the successful `eraseTuples([1, 3])` on the five-tuple, two-component array
`isAllocated()` is false although the array holds six elements in a live block. -/
theorem C14_isAllocated_false_after_erase :
    (arr52.eraseTuples pfRealloc envOk heap52 [1, 3]).map
        (fun q => (q.1, q.2.1.isAllocated, q.2.1.getSize, q.2.1.m_Array,
          q.2.2.read q.2.1.m_Array)) =
      some (0, false, 6, 2, some [10, 11, 30, 31, 50, 51]) := by
  decide

/-- The same inconsistency after `Allocate()` has failed on an existing array: not
allocated, null pointer, element count 10. -/
theorem Allocate_failure_not_allocated_nonzero_size :
    (arr52.Allocate pfRealloc envFail heap52).map
        (fun r => (r.1, r.2.1.isAllocated, r.2.1.m_Array, r.2.1.getSize)) =
      some (-1, false, 0, 10) := by
  decide

/-! ## The constructor's counts -/

theorem foldl_wadd_eq_sum :
    ∀ (ds : List Nat) (d : Nat), d + ds.sum < 2 ^ 64 → ds.foldl wadd d = d + ds.sum
  | [], d, _ => by simp
  | x :: rest, d, hfit => by
    simp only [List.sum_cons] at hfit
    have e : wadd d x = d + x := wadd_eq (by omega)
    simp only [List.foldl_cons, e, List.sum_cons]
    rw [foldl_wadd_eq_sum rest (d + x) (by omega)]
    omega

theorem sumDims_eq_sum (ds : List Nat) (hne : ds ≠ []) (hfit : ds.sum < 2 ^ 64) :
    sumDims ds = some ds.sum := by
  cases ds with
  | nil => exact absurd rfl hne
  | cons d rest =>
    simp only [List.sum_cons] at hfit
    simp only [sumDims, List.sum_cons, foldl_wadd_eq_sum rest d hfit]

/-- C16: for non-empty dimension vectors whose sums and product are representable in
`size_t`, the constructor sets the tuple count to the sum of `tDims`, the component count
to the sum of `cDims` and the total size to their product; the array returned by
`CreateArray(tDims, cDims, name)` (non-empty name, allocator succeeding) has the same three
counts. -/
theorem C16_construction_counts (pf : Platform Nat) (env : Alloc Nat) (h : Heap Nat)
    (tDims cDims : List Nat) (name : String) (ownsData : Bool) (fillValue : Nat)
    (ht : tDims ≠ []) (hc : cDims ≠ []) (hts : tDims.sum < 2 ^ 64) (hcs : cDims.sum < 2 ^ 64)
    (hprod : tDims.sum * cDims.sum < 2 ^ 64) (hname : name.isEmpty = false)
    (hok : env.ok = true) :
    (∃ d, DataArray.ctor tDims cDims name ownsData fillValue = some d ∧
        d.getNumberOfTuples = tDims.sum ∧ d.m_NumComponents = cDims.sum ∧
        d.getSize = tDims.sum * cDims.sum) ∧
      ∃ a h1, CreateArrayDims pf env h tDims cDims name = some (some a, h1) ∧
        a.getNumberOfTuples = tDims.sum ∧ a.m_NumComponents = cDims.sum ∧
        a.getSize = tDims.sum * cDims.sum := by
  have e1 := sumDims_eq_sum tDims ht hts
  have e2 := sumDims_eq_sum cDims hc hcs
  have e3 : wmul tDims.sum cDims.sum = tDims.sum * cDims.sum := wmul_eq hprod
  refine ⟨⟨{ m_Array := 0, m_Size := wmul tDims.sum cDims.sum, m_OwnsData := ownsData,
             m_MaxId := if wmul tDims.sum cDims.sum > 0 then wsub (wmul tDims.sum cDims.sum) 1
               else wmul tDims.sum cDims.sum,
             m_IsAllocated := false, m_Name := name, m_TupleDims := tDims,
             m_NumTuples := tDims.sum, m_CompDims := cDims, m_NumComponents := cDims.sum,
             m_FillValue := fillValue }, by simp only [DataArray.ctor, e1, e2], rfl, rfl, e3⟩,
    ?_⟩
  by_cases hz : tDims.sum * cDims.sum = 0
  · refine ⟨{ m_Array := 0, m_Size := 0, m_OwnsData := true, m_MaxId := 0,
              m_IsAllocated := false, m_Name := name, m_TupleDims := tDims,
              m_NumTuples := tDims.sum, m_CompDims := cDims, m_NumComponents := cDims.sum,
              m_FillValue := 0 }, h, ?_, rfl, rfl, ?_⟩
    · simp [CreateArrayDims, hname, DataArray.ctor, e1, e2, e3, hz, finishCreate,
        DataArray.Allocate, DataArray.initialize]
    · simp [DataArray.getSize, hz]
  · have e4 : wsub (tDims.sum * cDims.sum) 1 = tDims.sum * cDims.sum - 1 :=
      wsub_eq hprod (by omega)
    refine ⟨{ m_Array := h.blocks.length + 1, m_Size := tDims.sum * cDims.sum,
              m_OwnsData := true, m_MaxId := tDims.sum * cDims.sum - 1,
              m_IsAllocated := true, m_Name := name, m_TupleDims := tDims,
              m_NumTuples := tDims.sum, m_CompDims := cDims, m_NumComponents := cDims.sum,
              m_FillValue := 0 }, (h.malloc env (tDims.sum * cDims.sum)).1, ?_, rfl, rfl, rfl⟩
    have hpos : 0 < tDims.sum * cDims.sum := by omega
    simp [CreateArrayDims, hname, DataArray.ctor, e1, e2, e3, e4, hz, hpos, finishCreate,
      DataArray.Allocate, Heap.malloc_snd h env (tDims.sum * cDims.sum) hok]

/-- Witness for C16: tuple dimensions `[2, 3]` and component dimensions `[1, 2]` give 5
tuples of 3 components, 15 elements. -/
theorem C16_construction_counts_witness :
    [2, 3] ≠ [] ∧ [1, 2] ≠ [] ∧ [2, 3].sum < 2 ^ 64 ∧ [1, 2].sum < 2 ^ 64 ∧
      [2, 3].sum * [1, 2].sum < 2 ^ 64 ∧ "a".isEmpty = false ∧
      ((∃ d, DataArray.ctor [2, 3] [1, 2] "a" true 0 = some d ∧
          d.getNumberOfTuples = [2, 3].sum ∧ d.m_NumComponents = [1, 2].sum ∧
          d.getSize = [2, 3].sum * [1, 2].sum) ∧
        ∃ a h1, CreateArrayDims pfRealloc envOk heap0 [2, 3] [1, 2] "a" = some (some a, h1) ∧
          a.getNumberOfTuples = [2, 3].sum ∧ a.m_NumComponents = [1, 2].sum ∧
          a.getSize = [2, 3].sum * [1, 2].sum) :=
  ⟨by decide, by decide, by decide, by decide, by decide, by decide,
    C16_construction_counts pfRealloc envOk heap0 [2, 3] [1, 2] "a" true 0 (by decide)
      (by decide) (by decide) (by decide) (by decide) (by decide) rfl⟩

/-! ## `QMap` and `addEdgeData` -/

theorem QMap.find_isSome_iff {β : Type} (key : String) :
    ∀ m : QMap β, (QMap.find m key).isSome = true ↔ key ∈ QMap.keys m
  | [] => by simp [QMap.find, QMap.keys]
  | e :: rest => by
    by_cases he : e.1 = key
    · simp [QMap.find, QMap.keys, he]
    · have ih := QMap.find_isSome_iff key rest
      have hne : ¬ key = e.1 := fun h => he h.symm
      simp only [QMap.find, he, if_false, ih, QMap.keys, List.map_cons, List.mem_cons, hne,
        false_or]

theorem QMap.find_replace_self {β : Type} (key : String) (value : β) :
    ∀ m : QMap β, (QMap.find m key).isSome = true →
      QMap.find (QMap.replace m key value) key = some value
  | [], h => by simp [QMap.find] at h
  | e :: rest, h => by
    by_cases he : e.1 = key
    · simp [QMap.replace, QMap.find, he]
    · simp only [QMap.find, he, if_false] at h
      simp only [QMap.replace, he, if_false, QMap.find]
      exact QMap.find_replace_self key value rest h

theorem QMap.find_insertNew_self {β : Type} (key : String) (value : β) :
    ∀ m : QMap β, key ∉ QMap.keys m → QMap.find (QMap.insertNew m key value) key = some value
  | [], _ => by simp [QMap.insertNew, QMap.find]
  | e :: rest, h => by
    simp only [QMap.keys, List.map_cons, List.mem_cons, not_or] at h
    have he : ¬ e.1 = key := fun hh => h.1 hh.symm
    by_cases hlt : key.data < e.1.data
    · simp [QMap.insertNew, hlt, QMap.find]
    · simp only [QMap.insertNew, hlt, if_false, QMap.find, he]
      exact QMap.find_insertNew_self key value rest h.2

theorem QMap.find_replace_ne {β : Type} (key k2 : String) (value : β) (hne : k2 ≠ key) :
    ∀ m : QMap β, QMap.find (QMap.replace m key value) k2 = QMap.find m k2
  | [] => by simp [QMap.replace]
  | e :: rest => by
    by_cases he : e.1 = key
    · have h1 : ¬ key = k2 := fun h => hne h.symm
      have h2 : ¬ e.1 = k2 := fun h => hne (h.symm.trans he)
      simp [QMap.replace, he, QMap.find, h1]
    · by_cases h2 : e.1 = k2
      · rw [QMap.replace, if_neg he]
        simp [QMap.find, h2]
      · simp only [QMap.replace, he, if_false, QMap.find, h2]
        exact QMap.find_replace_ne key k2 value hne rest

theorem QMap.find_insertNew_ne {β : Type} (key k2 : String) (value : β) (hne : k2 ≠ key) :
    ∀ m : QMap β, QMap.find (QMap.insertNew m key value) k2 = QMap.find m k2
  | [] => by
    have h1 : ¬ key = k2 := fun h => hne h.symm
    simp [QMap.insertNew, QMap.find, h1]
  | e :: rest => by
    have h1 : ¬ key = k2 := fun h => hne h.symm
    by_cases hlt : key.data < e.1.data
    · simp [QMap.insertNew, hlt, QMap.find, h1]
    · by_cases h2 : e.1 = k2
      · rw [QMap.insertNew, if_neg hlt]
        simp [QMap.find, h2]
      · simp only [QMap.insertNew, hlt, if_false, QMap.find, h2]
        exact QMap.find_insertNew_ne key k2 value hne rest

theorem QMap.keys_replace {β : Type} (key : String) (value : β) :
    ∀ m : QMap β, QMap.keys (QMap.replace m key value) = QMap.keys m
  | [] => rfl
  | e :: rest => by
    by_cases he : e.1 = key
    · simp [QMap.replace, he, QMap.keys]
    · have ih := QMap.keys_replace key value rest
      simp only [QMap.keys] at ih
      simp [QMap.replace, he, QMap.keys, ih]

theorem QMap.count_keys_insertNew {β : Type} (key : String) (value : β) :
    ∀ m : QMap β, (QMap.keys (QMap.insertNew m key value)).count key =
      (QMap.keys m).count key + 1
  | [] => by simp [QMap.insertNew, QMap.keys]
  | e :: rest => by
    by_cases hlt : key.data < e.1.data
    · simp [QMap.insertNew, hlt, QMap.keys]
    · have ih := QMap.count_keys_insertNew key value rest
      simp only [QMap.keys] at ih
      simp only [QMap.insertNew, hlt, if_false, QMap.keys, List.map_cons, List.count_cons, ih]
      omega

theorem QMap.count_keys_insert {β : Type} (m : QMap β) (key : String) (value : β)
    (hk : (QMap.keys m).Nodup) : (QMap.keys (QMap.insert m key value)).count key = 1 := by
  by_cases hf : (QMap.find m key).isSome = true
  · have hmem := (QMap.find_isSome_iff key m).1 hf
    simp only [QMap.insert, hf, if_true, QMap.keys_replace]
    exact List.count_eq_one_of_mem hk hmem
  · have hmem : key ∉ QMap.keys m := fun h => hf ((QMap.find_isSome_iff key m).2 h)
    rw [QMap.insert, if_neg hf]
    simp only [QMap.count_keys_insertNew,
      List.count_eq_zero_of_not_mem hmem]

theorem QMap.find_insert_self {β : Type} (m : QMap β) (key : String) (value : β) :
    QMap.find (QMap.insert m key value) key = some value := by
  by_cases hf : (QMap.find m key).isSome = true
  · simp only [QMap.insert, hf, if_true]
    exact QMap.find_replace_self key value m hf
  · have hmem : key ∉ QMap.keys m := fun h => hf ((QMap.find_isSome_iff key m).2 h)
    rw [QMap.insert, if_neg hf]
    exact QMap.find_insertNew_self key value m hmem

theorem QMap.find_insert_ne {β : Type} (m : QMap β) (key k2 : String) (value : β)
    (hne : k2 ≠ key) : QMap.find (QMap.insert m key value) k2 = QMap.find m k2 := by
  by_cases hf : (QMap.find m key).isSome = true
  · simp only [QMap.insert, hf, if_true]
    exact QMap.find_replace_ne key k2 value hne m
  · rw [QMap.insert, if_neg hf]
    exact QMap.find_insertNew_ne key k2 value hne m

theorem DataArray.SetName_same (a : DataArray α) (name : String) (h : a.GetName = name) :
    a.SetName name = a := by
  cases a
  simp only [DataArray.GetName] at h
  simp [DataArray.SetName, h]

theorem DataArray.renamed_eq (a : DataArray α) (name : String) :
    (if a.GetName ≠ name then a.SetName name else a) = a.SetName name := by
  by_cases h : a.GetName = name
  · simp [h, DataArray.SetName_same a name h]
  · simp [h]

/-- C20 (as amended): for a container whose edge map has distinct keys and a pointer
`data` to the array object `d`, `addEdgeData(name, data)` returns; afterwards the lookup of
`name` gives `data`, the object `data` points to is `d` carrying the name `name` (the store
is untouched when `d` already had that name), the tuple count of the group is
`d.getNumberOfTuples()`, the key `name` occurs exactly once, the pointer under every other
key is the one it was, every array object other than the one `data` points to is unchanged,
and the other members of the container are unchanged. -/
theorem C20_addEdgeData (c : EdgeDataContainer) (objs : ArrayStore α) (name : String)
    (data : ArrayPtr) (d : DataArray α) (hk : (QMap.keys c.m_EdgeData).Nodup)
    (hd : objs[data]? = some d) :
    ∃ c1 objs1, c.addEdgeData objs name data = some (c1, objs1) ∧
      c1.getEdgeData name = some data ∧
      objs1[data]? = some (d.SetName name) ∧ (d.SetName name).GetName = name ∧
      (d.GetName = name → objs1 = objs) ∧
      c1.m_NumEdgeTuples = d.getNumberOfTuples ∧
      c1.getEdgeArrayNameList.count name = 1 ∧
      (∀ k, k ≠ name → c1.getEdgeData k = c.getEdgeData k) ∧
      (∀ p, p ≠ data → objs1[p]? = objs[p]?) ∧ objs1.length = objs.length ∧
      c1.m_EdgeFieldData = c.m_EdgeFieldData ∧
      c1.m_EdgeEnsembleData = c.m_EdgeEnsembleData := by
  have hlt : data < objs.length := by
    rcases Nat.lt_or_ge data objs.length with h1 | h1
    · exact h1
    · rw [List.getElem?_eq_none h1] at hd
      cases hd
  by_cases hn : d.GetName = name
  · have hsame := DataArray.SetName_same d name hn
    refine ⟨EdgeDataContainer.mk (QMap.insert c.m_EdgeData name data) c.m_EdgeFieldData
        c.m_EdgeEnsembleData d.getNumberOfTuples c.m_NumEdgeFieldTuples
        c.m_NumEdgeEnsembleTuples, objs, by simp [EdgeDataContainer.addEdgeData, hd, hn],
      ?_, ?_, rfl, fun _ => rfl, rfl, ?_, ?_, fun _ _ => rfl, rfl, rfl, rfl⟩
    · exact QMap.find_insert_self _ _ _
    · rw [hsame]; exact hd
    · exact QMap.count_keys_insert _ _ _ hk
    · intro k hne
      exact QMap.find_insert_ne _ _ _ _ hne
  · have hset : (objs.set data (d.SetName name))[data]? = some (d.SetName name) := by
      simp [List.getElem?_set, hlt]
    refine ⟨EdgeDataContainer.mk (QMap.insert c.m_EdgeData name data) c.m_EdgeFieldData
        c.m_EdgeEnsembleData d.getNumberOfTuples c.m_NumEdgeFieldTuples
        c.m_NumEdgeEnsembleTuples, objs.set data (d.SetName name), by
      simp [EdgeDataContainer.addEdgeData, hd, hn, hset]; rfl, ?_, hset, rfl,
      fun h => absurd h hn, rfl, ?_, ?_, ?_, by simp, rfl, rfl⟩
    · exact QMap.find_insert_self _ _ _
    · exact QMap.count_keys_insert _ _ _ hk
    · intro k hne
      exact QMap.find_insert_ne _ _ _ _ hne
    · intro p hp
      rw [List.getElem?_set_ne (fun e => hp e.symm)]

/-- Witness for C20: the five-tuple array `arr52`, named `"a"`, sits at address 2 of the
store and is added under the new key `"b"` to a container holding the keys `"a"` and
`"c"`. -/
theorem C20_addEdgeData_witness :
    (QMap.keys edges2.m_EdgeData).Nodup ∧ (arrays2 ++ [arr52])[2]? = some arr52 ∧
      ((edges2.addEdgeData (arrays2 ++ [arr52]) "b" 2).map fun r =>
          (r.1.getEdgeArrayNameList, r.1.getEdgeData "b", r.1.m_NumEdgeTuples,
            r.2.map DataArray.GetName)) =
        some (["a", "b", "c"], some 2, 5, ["a", "c", "b"]) ∧
      ∃ c1 objs1, edges2.addEdgeData (arrays2 ++ [arr52]) "b" 2 = some (c1, objs1) ∧
        c1.getEdgeData "b" = some 2 ∧
        objs1[2]? = some (arr52.SetName "b") ∧ (arr52.SetName "b").GetName = "b" ∧
        (arr52.GetName = "b" → objs1 = arrays2 ++ [arr52]) ∧
        c1.m_NumEdgeTuples = arr52.getNumberOfTuples ∧
        c1.getEdgeArrayNameList.count "b" = 1 ∧
        (∀ k, k ≠ "b" → c1.getEdgeData k = edges2.getEdgeData k) ∧
        (∀ p, p ≠ 2 → objs1[p]? = (arrays2 ++ [arr52])[p]?) ∧
        objs1.length = (arrays2 ++ [arr52]).length ∧
        c1.m_EdgeFieldData = edges2.m_EdgeFieldData ∧
        c1.m_EdgeEnsembleData = edges2.m_EdgeEnsembleData :=
  ⟨by decide, by decide, by decide,
    C20_addEdgeData edges2 (arrays2 ++ [arr52]) "b" 2 arr52 (by decide) (by decide)⟩

/-- C20 (as stated) fails when the array is already in the container: the array stored
under `"a"` is added once more under `"b"`.  The pointer under `"a"` is the one it was, but
the array it leads to, which was named `"a"`, is now named `"b"`: the entry under the other
key has not stayed as it was. -/
theorem C20_counterexample :
    ((edges2.getEdgeData "a").bind fun p => (arrays2[p]?).map DataArray.GetName) = some "a" ∧
      ((edges2.addEdgeData arrays2 "b" 0).bind fun r =>
          (r.1.getEdgeData "a").bind fun p => (r.2[p]?).map DataArray.GetName) = some "b" ∧
      ((edges2.addEdgeData arrays2 "b" 0).map fun r =>
          (r.1.getEdgeArrayNameList, r.1.getEdgeData "a", r.1.getEdgeData "b")) =
        some (["a", "b", "c"], some 0, some 0) := by
  refine ⟨by decide, by decide, by decide⟩

/-- Adding under an existing key replaces the entry: the key list stays `["a", "c"]` and
the lookup returns the new pointer. -/
theorem addEdgeData_replaces_existing :
    ((edges2.addEdgeData (arrays2 ++ [arr52]) "c" 2).map fun r =>
        (r.1.getEdgeArrayNameList, r.1.getEdgeData "c", r.1.m_NumEdgeTuples,
          r.2.map DataArray.GetName)) =
      some (["a", "c"], some 2, 5, ["a", "c", "c"]) := by
  decide

/-! ## The component count under sequences of operations -/

theorem DataArray.deallocate_shape (pf : Platform α) (a : DataArray α) (h : Heap α)
    (r : DataArray α × Heap α) (hr : a._deallocate pf h = some r) :
    r.1.m_NumComponents = a.m_NumComponents ∧ r.1.m_NumTuples = a.m_NumTuples := by
  unfold DataArray._deallocate at hr
  simp only [Option.bind_eq_some] at hr
  obtain ⟨h1, -, h2, -, he⟩ := hr
  cases he
  exact ⟨rfl, rfl⟩

theorem DataArray.initialize_shape (pf : Platform α) (a : DataArray α) (h : Heap α)
    (r : DataArray α × Heap α) (hr : DataArray.initialize pf a h = some r) :
    r.1.m_NumComponents = a.m_NumComponents ∧ r.1.m_NumTuples = a.m_NumTuples := by
  unfold DataArray.initialize at hr
  simp only [Option.bind_eq_some] at hr
  obtain ⟨r1, h1, he⟩ := hr
  cases he
  split at h1
  · exact DataArray.deallocate_shape pf a h r1 h1
  · cases h1
    exact ⟨rfl, rfl⟩

theorem DataArray.Allocate_shape [ElementType α] (pf : Platform α) (env : Alloc α) (a : DataArray α)
    (h : Heap α) (r : Int × DataArray α × Heap α) (hr : a.Allocate pf env h = some r) :
    r.2.1.m_NumComponents = a.m_NumComponents ∧ r.2.1.m_NumTuples = a.m_NumTuples := by
  unfold DataArray.Allocate at hr
  simp only [Option.bind_eq_some] at hr
  obtain ⟨r1, h1, he⟩ := hr
  have hs1 : r1.1.m_NumComponents = a.m_NumComponents ∧ r1.1.m_NumTuples = a.m_NumTuples := by
    split at h1
    · exact DataArray.deallocate_shape pf a h r1 h1
    · cases h1
      exact ⟨rfl, rfl⟩
  split at he
  · simp only [Option.bind_eq_some] at he
    obtain ⟨r2, h2, he2⟩ := he
    cases he2
    have := DataArray.initialize_shape pf _ _ r2 h2
    exact ⟨this.1.trans hs1.1, this.2.trans hs1.2⟩
  · split at he <;> (cases he; exact hs1)

theorem DataArray.resizeAndExtend_shape [ElementType α]
    (pf : Platform α) (env : Alloc α) (a : DataArray α)
    (h : Heap α) (size : Nat) (r : Ptr × DataArray α × Heap α)
    (hr : a.resizeAndExtend pf env h size = some r) :
    r.2.1.m_NumComponents = a.m_NumComponents ∧ r.2.1.m_NumTuples = a.m_NumTuples := by
  unfold DataArray.resizeAndExtend at hr
  by_cases c1 : size = a.m_Size
  · rw [if_pos c1] at hr
    cases hr; exact ⟨rfl, rfl⟩
  rw [if_neg c1] at hr
  by_cases c2 : size = 0
  · rw [if_pos c2] at hr
    simp only [Option.bind_eq_some] at hr
    obtain ⟨r1, h1, he⟩ := hr
    cases he
    exact DataArray.initialize_shape pf a h r1 h1
  rw [if_neg c2] at hr
  by_cases c3 : a.m_Array ≠ 0 ∧ a.m_OwnsData = false
  · rw [if_pos c3] at hr
    dsimp only at hr
    by_cases c4 : (h.malloc env size).2 = 0
    · rw [if_pos c4] at hr
      cases hr; exact ⟨rfl, rfl⟩
    · rw [if_neg c4] at hr
      simp only [Option.bind_eq_some] at hr
      obtain ⟨h2, -, he⟩ := hr
      cases he
      exact ⟨rfl, rfl⟩
  rw [if_neg c3] at hr
  by_cases c5 : pf.dontUseRealloc = false
  · rw [if_pos c5] at hr
    simp only [Option.bind_eq_some] at hr
    obtain ⟨m, -, he⟩ := hr
    by_cases c6 : m.2 = 0
    · rw [if_pos c6] at he
      cases he; exact ⟨rfl, rfl⟩
    · rw [if_neg c6] at he
      cases he; exact ⟨rfl, rfl⟩
  · rw [if_neg c5] at hr
    dsimp only at hr
    by_cases c4 : (h.malloc env size).2 = 0
    · rw [if_pos c4] at hr
      cases hr; exact ⟨rfl, rfl⟩
    · rw [if_neg c4] at hr
      simp only [Option.bind_eq_some] at hr
      obtain ⟨h2, -, r1, h1, he⟩ := hr
      cases he
      exact DataArray.deallocate_shape pf a h2 r1 h1

theorem DataArray.resize_shape [ElementType α] (pf : Platform α) (env : Alloc α) (a : DataArray α)
    (h : Heap α) (n : Nat) (r : Int × DataArray α × Heap α)
    (hr : a.resize pf env h n = some r) :
    r.2.1.m_NumComponents = a.m_NumComponents ∧ r.2.1.m_NumTuples = a.m_NumTuples := by
  unfold DataArray.resize DataArray.resizeTotalElements at hr
  simp only [Option.bind_eq_some] at hr
  obtain ⟨r1, h1, he⟩ := hr
  have := DataArray.resizeAndExtend_shape pf env a h _ r1 h1
  split at he <;> (cases he; exact this)

theorem DataArray.eraseTuples_shape [ElementType α]
    (pf : Platform α) (env : Alloc α) (a : DataArray α)
    (h : Heap α) (idxs : List Nat) (r : Int × DataArray α × Heap α)
    (hr : a.eraseTuples pf env h idxs = some r) :
    r.2.1.m_NumComponents = a.m_NumComponents ∧ r.2.1.m_NumTuples = a.m_NumTuples := by
  unfold DataArray.eraseTuples at hr
  split at hr
  · cases hr; exact ⟨rfl, rfl⟩
  split at hr
  · simp only [Option.bind_eq_some] at hr
    obtain ⟨r1, h1, he⟩ := hr
    cases he
    exact DataArray.resize_shape pf env a h 0 r1 h1
  split at hr
  · cases hr; exact ⟨rfl, rfl⟩
  simp only [Option.bind_eq_some] at hr
  obtain ⟨h1, -, he⟩ := hr
  split at he
  · simp only [Option.bind_eq_some] at he
    obtain ⟨h2, -, r1, hd, he2⟩ := he
    cases he2
    exact DataArray.deallocate_shape pf a h2 r1 hd
  · simp only [Option.bind_eq_some] at he
    obtain ⟨h2, -, r1, hd, he2⟩ := he
    cases he2
    exact DataArray.deallocate_shape pf a h2 r1 hd

theorem DataArray.copyTuple_shape (a : DataArray α) (h : Heap α) (i j : Nat)
    (r : Int × DataArray α × Heap α) (hr : a.copyTuple h i j = some r) : r.2.1 = a := by
  unfold DataArray.copyTuple at hr
  split at hr
  · cases hr
  split at hr
  · cases hr; rfl
  · simp only [Option.bind_eq_some] at hr
    obtain ⟨h1, -, he⟩ := hr
    cases he
    rfl

theorem DataArray.initializeWithValues_shape (a : DataArray α) (h : Heap α) (v : α)
    (r : DataArray α × Heap α) (hr : a.initializeWithValues h v = some r) : r.1 = a := by
  unfold DataArray.initializeWithValues at hr
  split at hr
  · cases hr; rfl
  · simp only [Option.map_eq_some'] at hr
    obtain ⟨h1, -, he⟩ := hr
    cases he
    rfl

theorem ArrayOp.run_shape [ElementType α]
    (pf : Platform α) (op : ArrayOp α) (s r : DataArray α × Heap α)
    (hno : op.isRead = false) (hr : op.run pf s = some r) :
    r.1.m_NumComponents = s.1.m_NumComponents := by
  cases op with
  | allocate env =>
    simp only [ArrayOp.run, Option.map_eq_some'] at hr
    obtain ⟨r1, h1, he⟩ := hr
    cases he
    exact (DataArray.Allocate_shape pf env s.1 s.2 r1 h1).1
  | resize env n =>
    simp only [ArrayOp.run, Option.map_eq_some'] at hr
    obtain ⟨r1, h1, he⟩ := hr
    cases he
    exact (DataArray.resize_shape pf env s.1 s.2 n r1 h1).1
  | eraseTuples env idxs =>
    simp only [ArrayOp.run, Option.map_eq_some'] at hr
    obtain ⟨r1, h1, he⟩ := hr
    cases he
    exact (DataArray.eraseTuples_shape pf env s.1 s.2 idxs r1 h1).1
  | copyTuple i j =>
    simp only [ArrayOp.run, Option.map_eq_some'] at hr
    obtain ⟨r1, h1, he⟩ := hr
    cases he
    rw [DataArray.copyTuple_shape s.1 s.2 i j r1 h1]
  | reset =>
    simp only [ArrayOp.run] at hr
    exact (DataArray.initialize_shape pf s.1 s.2 r hr).1
  | initializeWithValues v =>
    simp only [ArrayOp.run] at hr
    rw [DataArray.initializeWithValues_shape s.1 s.2 v r hr]
  | readH5Data env rd => simp [ArrayOp.isRead] at hno

theorem runOps_shape [ElementType α] (pf : Platform α) :
    ∀ (ops : List (ArrayOp α)) (s r : DataArray α × Heap α),
      (∀ op ∈ ops, op.isRead = false) → runOps pf ops s = some r →
      r.1.m_NumComponents = s.1.m_NumComponents
  | [], s, r, _, hr => by
    simp only [runOps, Option.some.injEq] at hr
    rw [hr]
  | op :: rest, s, r, hno, hr => by
    simp only [runOps, Option.bind_eq_some] at hr
    obtain ⟨s1, h1, h2⟩ := hr
    have e1 := ArrayOp.run_shape pf op s s1 (hno op (by simp)) h1
    have e2 := runOps_shape pf rest s1 r (fun o ho => hno o (List.mem_cons_of_mem _ ho)) h2
    exact e2.trans e1

theorem DataArray.readH5Data_components [ElementType α] (pf : Platform α) (env : Alloc α)
    (rd : Heap α → Option (DataArray α) × Heap α) (a : DataArray α) (h : Heap α)
    (p : DataArray α) (r : Int × DataArray α × Heap α) (hp : ∀ h1, (rd h1).1 = some p)
    (hr : a.readH5Data pf env rd h = some r) :
    r.1 = 0 ∧ r.2.1.m_NumComponents = ofInt32 p.getNumberOfComponents := by
  unfold DataArray.readH5Data at hr
  simp only [Option.bind_eq_some, hp] at hr
  obtain ⟨r1, -, he⟩ := hr
  cases he
  exact ⟨rfl, rfl⟩

/-- C15 (as amended): a sequence of `Allocate`, `resize`, `eraseTuples`, `copyTuple`,
`initialize` and `initializeWithValues` calls leaves `getNumberOfComponents()` as it was,
whereas a `readH5Data` that finds an array in the file returns 0 and sets the component
count to that array's component count. -/
theorem C15_numComponents_fixed [ElementType α] (pf : Platform α) (ops : List (ArrayOp α))
    (s : DataArray α × Heap α) (hno : ∀ op ∈ ops, op.isRead = false) :
    ((runOps pf ops s).map fun r => r.1.getNumberOfComponents) =
        ((runOps pf ops s).map fun _ => s.1.getNumberOfComponents) ∧
      ∀ (env : Alloc α) (rd : Heap α → Option (DataArray α) × Heap α) (p : DataArray α)
        (r : Int × DataArray α × Heap α), (∀ h1, (rd h1).1 = some p) →
        s.1.readH5Data pf env rd s.2 = some r →
        r.1 = 0 ∧ r.2.1.m_NumComponents = ofInt32 p.getNumberOfComponents := by
  refine ⟨?_, fun env rd p r hp hr =>
    DataArray.readH5Data_components pf env rd s.1 s.2 p r hp hr⟩
  cases hrun : runOps pf ops s with
  | none => simp only [Option.map_none']
  | some r =>
    have e := runOps_shape pf ops s r hno hrun
    simp only [Option.map_some', DataArray.getNumberOfComponents, e]

/-- Witness for C15: six calls on the five-tuple, two-component array; the sequence runs to
completion. -/
theorem C15_numComponents_fixed_witness :
    (∀ op ∈ [ArrayOp.resize envOk 7, ArrayOp.copyTuple 0 1, ArrayOp.eraseTuples envOk [1],
        ArrayOp.initializeWithValues 4, ArrayOp.reset, ArrayOp.allocate envOk],
        op.isRead = false) ∧
      (runOps pfRealloc [ArrayOp.resize envOk 7, ArrayOp.copyTuple 0 1,
        ArrayOp.eraseTuples envOk [1], ArrayOp.initializeWithValues 4, ArrayOp.reset,
        ArrayOp.allocate envOk] (arr52, heap52)).isSome = true ∧
      (((runOps pfRealloc [ArrayOp.resize envOk 7, ArrayOp.copyTuple 0 1,
          ArrayOp.eraseTuples envOk [1], ArrayOp.initializeWithValues 4, ArrayOp.reset,
          ArrayOp.allocate envOk] (arr52, heap52)).map fun r => r.1.getNumberOfComponents) =
        ((runOps pfRealloc [ArrayOp.resize envOk 7, ArrayOp.copyTuple 0 1,
          ArrayOp.eraseTuples envOk [1], ArrayOp.initializeWithValues 4, ArrayOp.reset,
          ArrayOp.allocate envOk] (arr52, heap52)).map fun _ =>
            (arr52, heap52).1.getNumberOfComponents) ∧
        ∀ (env : Alloc Nat) (rd : Heap Nat → Option (DataArray Nat) × Heap Nat)
          (p : DataArray Nat) (r : Int × DataArray Nat × Heap Nat),
          (∀ h1, (rd h1).1 = some p) →
          (arr52, heap52).1.readH5Data pfRealloc env rd (arr52, heap52).2 = some r →
          r.1 = 0 ∧ r.2.1.m_NumComponents = ofInt32 p.getNumberOfComponents) :=
  ⟨by simp [ArrayOp.isRead], by decide,
    C15_numComponents_fixed pfRealloc [ArrayOp.resize envOk 7, ArrayOp.copyTuple 0 1,
      ArrayOp.eraseTuples envOk [1], ArrayOp.initializeWithValues 4, ArrayOp.reset,
      ArrayOp.allocate envOk] (arr52, heap52) (by simp [ArrayOp.isRead])⟩

/-- C15 (as stated) fails: the one-component array `arr21` reads a three-component array
from the file; `readH5Data` returns 0 and `getNumberOfComponents()` is 3 afterwards. -/
theorem C15_counterexample :
    arr21.getNumberOfComponents = 1 ∧
      (arr21.readH5Data pfRealloc envOk reader43 heap21).map
          (fun r => (r.1, r.2.1.getNumberOfComponents, r.2.1.getSize)) =
        some (0, 3, 12) := by
  decide

/-! ## `byteSwapElements` -/

theorem mxa_bswap_spec {β : Type} (bytes : List β) (off s d : Nat)
    (hs : off + s < bytes.length) (hd : off + d < bytes.length) (hsd : s ≠ d) :
    ∃ b1, mxa_bswap bytes off s d = some b1 ∧ b1.length = bytes.length ∧
      ∀ i, b1[i]? = if i = off + s then bytes[off + d]? else
        if i = off + d then bytes[off + s]? else bytes[i]? := by
  have hx : bytes[off + s]? = some bytes[off + s] := List.getElem?_eq_getElem hs
  have hy : bytes[off + d]? = some bytes[off + d] := List.getElem?_eq_getElem hd
  refine ⟨(bytes.set (off + s) bytes[off + d]).set (off + d) bytes[off + s], ?_, by simp, ?_⟩
  · simp [mxa_bswap, hx, hy]
  · intro i
    rw [List.getElem?_set, List.getElem?_set, List.length_set]
    by_cases h1 : i = off + s
    · have h2 : ¬ (off + d = i) := by omega
      simp [h1, h2, hs, hy]
      intro h3
      omega
    · by_cases h2 : i = off + d
      · have h5 : ¬ d = s := fun e => hsd e.symm
        simp [h2, hd, hx, h5]
      · have h3 : ¬ (off + d = i) := fun e => h2 e.symm
        have h4 : ¬ (off + s = i) := fun e => h1 e.symm
        simp [h1, h2, h3, h4]

theorem swapOne_spec {β : Type} (w : Nat) (hw : w = 1 ∨ w = 2 ∨ w = 4 ∨ w = 8)
    (bytes : List β) (off : Nat) (hlen : off + w ≤ bytes.length) :
    ∃ b1, swapOne w bytes off = some b1 ∧ b1.length = bytes.length ∧
      (∀ b, b < w → b1[off + b]? = bytes[off + (w - 1 - b)]?) ∧
      (∀ i, i < off ∨ off + w ≤ i → b1[i]? = bytes[i]?) := by
  rcases hw with rfl | rfl | rfl | rfl
  · refine ⟨bytes, by simp [swapOne], rfl, ?_, fun _ _ => rfl⟩
    intro b hb
    have : b = 0 := by omega
    simp [this]
  · obtain ⟨b1, e1, l1, p1⟩ := mxa_bswap_spec bytes off 0 1 (by omega) (by omega) (by omega)
    refine ⟨b1, by simp [swapOne, e1], l1, ?_, ?_⟩
    · intro b hb
      rw [p1]
      interval_cases b <;> simp
    · intro i hi
      rw [p1, if_neg (by omega), if_neg (by omega)]
  · obtain ⟨b1, e1, l1, p1⟩ := mxa_bswap_spec bytes off 0 3 (by omega) (by omega) (by omega)
    obtain ⟨b2, e2, l2, p2⟩ := mxa_bswap_spec b1 off 1 2 (by omega) (by omega) (by omega)
    refine ⟨b2, by simp [swapOne, e1, e2], by omega, ?_, ?_⟩
    · intro b hb
      rw [p2]
      interval_cases b <;> simp [p1]
    · intro i hi
      rw [p2, if_neg (by omega), if_neg (by omega), p1, if_neg (by omega), if_neg (by omega)]
  · obtain ⟨b1, e1, l1, p1⟩ := mxa_bswap_spec bytes off 0 7 (by omega) (by omega) (by omega)
    obtain ⟨b2, e2, l2, p2⟩ := mxa_bswap_spec b1 off 1 6 (by omega) (by omega) (by omega)
    obtain ⟨b3, e3, l3, p3⟩ := mxa_bswap_spec b2 off 2 5 (by omega) (by omega) (by omega)
    obtain ⟨b4, e4, l4, p4⟩ := mxa_bswap_spec b3 off 3 4 (by omega) (by omega) (by omega)
    refine ⟨b4, by simp [swapOne, e1, e2, e3, e4], by omega, ?_, ?_⟩
    · intro b hb
      rw [p4]
      interval_cases b <;> simp [p1, p2, p3]
    · intro i hi
      rw [p4, if_neg (by omega), if_neg (by omega), p3, if_neg (by omega), if_neg (by omega),
        p2, if_neg (by omega), if_neg (by omega), p1, if_neg (by omega), if_neg (by omega)]

theorem byteSwapLoop_spec {β : Type} (w : Nat) (hw : w = 1 ∨ w = 2 ∨ w = 4 ∨ w = 8) :
    ∀ (k off : Nat) (bytes : List β), off + k * w ≤ bytes.length →
      ∃ out, byteSwapLoop w k off bytes = some out ∧ out.length = bytes.length ∧
        (∀ e b, e < k → b < w → out[off + e * w + b]? = bytes[off + e * w + (w - 1 - b)]?) ∧
        (∀ i, i < off ∨ off + k * w ≤ i → out[i]? = bytes[i]?)
  | 0, off, bytes, _ =>
    ⟨bytes, rfl, rfl, fun e b he _ => absurd he (Nat.not_lt_zero e), fun _ _ => rfl⟩
  | k + 1, off, bytes, hlen => by
    have hkw : (k + 1) * w = k * w + w := Nat.succ_mul k w
    have hwpos : 0 < w := by omega
    obtain ⟨b1, e1, l1, p1, q1⟩ := swapOne_spec w hw bytes off (by omega)
    obtain ⟨out, e2, l2, p2, q2⟩ := byteSwapLoop_spec w hw k (off + w) b1 (by omega)
    refine ⟨out, by simp [byteSwapLoop, e1, e2], by omega, ?_, ?_⟩
    · intro e b he hb
      cases e with
      | zero =>
        rw [Nat.zero_mul, Nat.add_zero, q2 (off + b) (Or.inl (by omega)), p1 b hb]
      | succ e1' =>
        have hew : (e1' + 1) * w = e1' * w + w := Nat.succ_mul e1' w
        have i1 : off + (e1' + 1) * w + b = off + w + e1' * w + b := by omega
        have i2 : off + (e1' + 1) * w + (w - 1 - b) = off + w + e1' * w + (w - 1 - b) := by
          omega
        rw [i1, i2, p2 e1' b (by omega) hb, q1 _ (Or.inr (by omega))]
    · intro i hi
      rw [q2 i (by omega), q1 i (by omega)]

theorem DataArray.byteSwapElements_spec {β : Type} (w : Nat)
    (hw : w = 1 ∨ w = 2 ∨ w = 4 ∨ w = 8) (a : DataArray α) (h : Heap β) (bytes : List β)
    (hr : h.read a.m_Array = some bytes) (hl : bytes.length = a.m_Size * w) :
    ∃ h1 out, a.byteSwapElements w h = some (a, h1) ∧ h1.read a.m_Array = some out ∧
      out.length = bytes.length ∧
      (∀ e b, e < a.m_Size → b < w → out[e * w + b]? = bytes[e * w + (w - 1 - b)]?) ∧
      (∀ p, p ≠ a.m_Array → h1.read p = h.read p) ∧ h1.log = h.log ∧
      h1.blocks.length = h.blocks.length := by
  have h0 := Heap.read_some_ne_zero hr
  have hlt := Heap.read_some_lt hr
  by_cases hg : a.m_Size = 0 ∨ ¬ (w = 2 ∨ w = 4 ∨ w = 8)
  · refine ⟨h, bytes, by simp only [DataArray.byteSwapElements, hg, if_true], hr, rfl, ?_,
      fun _ _ => rfl, rfl, rfl⟩
    intro e b he hb
    rcases hg with hz | hn
    · omega
    · have hw1 : w = 1 := by omega
      subst hw1
      have : b = 0 := by omega
      simp [this]
  · obtain ⟨out, e1, l1, p1, -⟩ := byteSwapLoop_spec w hw a.m_Size 0 bytes (by omega)
    refine ⟨h.store a.m_Array out, out, ?_, Heap.read_store_same h a.m_Array out h0 hlt, l1,
      ?_, fun p hp => Heap.read_store_ne h p a.m_Array out h0 hp, rfl, ?_⟩
    · simp only [DataArray.byteSwapElements, hg, if_false, hr, e1, Option.map_some']
    · intro e b he hb
      have := p1 e b he hb
      simpa using this
    · simp [Heap.store]

/-- C17: for an element width `w` of 1, 2, 4 or 8 and an array whose live buffer holds the
`getSize() * w` bytes `bytes`, `byteSwapElements` reverses the bytes of every element in
place: byte `b` of element `e` afterwards is the former byte `w - 1 - b` of that element;
the array's fields, the other blocks and the allocator log are unchanged. -/
theorem C17_byteSwapElements_reverses {β : Type} (w : Nat)
    (hw : w = 1 ∨ w = 2 ∨ w = 4 ∨ w = 8) (a : DataArray α) (h : Heap β) (bytes : List β)
    (hr : h.read a.m_Array = some bytes) (hl : bytes.length = a.getSize * w) :
    ∃ h1 out, a.byteSwapElements w h = some (a, h1) ∧ h1.read a.m_Array = some out ∧
      out.length = bytes.length ∧
      (∀ e b, e < a.getSize → b < w → out[e * w + b]? = bytes[e * w + (w - 1 - b)]?) ∧
      (∀ p, p ≠ a.m_Array → h1.read p = h.read p) ∧ h1.log = h.log := by
  obtain ⟨h1, out, e1, r1, l1, p1, f1, g1, -⟩ :=
    DataArray.byteSwapElements_spec w hw a h bytes hr hl
  exact ⟨h1, out, e1, r1, l1, p1, f1, g1⟩

/-- Witness for C17: two four-byte elements `1 2 3 4` and `5 6 7 8`. -/
theorem C17_byteSwapElements_reverses_witness :
    (4 = 1 ∨ 4 = 2 ∨ 4 = 4 ∨ 4 = 8) ∧
      bytes21x4.read arr21.m_Array = some [1, 2, 3, 4, 5, 6, 7, 8] ∧
      [1, 2, 3, 4, 5, 6, 7, 8].length = arr21.getSize * 4 ∧
      ∃ h1 out, arr21.byteSwapElements 4 bytes21x4 = some (arr21, h1) ∧
        h1.read arr21.m_Array = some out ∧ out.length = [1, 2, 3, 4, 5, 6, 7, 8].length ∧
        (∀ e b, e < arr21.getSize → b < 4 →
          out[e * 4 + b]? = [1, 2, 3, 4, 5, 6, 7, 8][e * 4 + (4 - 1 - b)]?) ∧
        (∀ p, p ≠ arr21.m_Array → h1.read p = bytes21x4.read p) ∧ h1.log = bytes21x4.log :=
  ⟨by decide, by decide, by decide,
    C17_byteSwapElements_reverses 4 (by decide) arr21 bytes21x4 [1, 2, 3, 4, 5, 6, 7, 8]
      (by decide) (by decide)⟩

/-- The swapped bytes of the two four-byte elements. -/
theorem byteSwapElements_example :
    (arr21.byteSwapElements 4 bytes21x4).map (fun r => r.2.read 1) =
      some (some [4, 3, 2, 1, 8, 7, 6, 5]) := by
  decide

theorem Heap.ext_of_read {β : Type} (h1 h2 : Heap β) (hb : h1.blocks.length = h2.blocks.length)
    (hr : ∀ p, h1.read p = h2.read p) (hlog : h1.log = h2.log) : h1 = h2 := by
  cases h1 with
  | mk b1 l1 =>
    cases h2 with
    | mk b2 l2 =>
      simp only at hb hlog
      subst hlog
      congr 1
      apply List.ext_getElem hb
      intro n hn1 hn2
      have := hr (n + 1)
      simp only [Heap.read, Nat.add_one_ne_zero, if_false, Nat.add_sub_cancel,
        List.getD_eq_getElem?_getD, List.getElem?_eq_getElem hn1,
        List.getElem?_eq_getElem hn2, Option.getD_some] at this
      exact this

/-- C18: for an element width of 1, 2, 4 or 8 and an array whose live buffer holds the
`getSize() * w` bytes `bytes`, two successive `byteSwapElements` both return and leave the
heap exactly as it was before the first: the buffer holds `bytes` again. -/
theorem C18_byteSwapElements_twice {β : Type} (w : Nat)
    (hw : w = 1 ∨ w = 2 ∨ w = 4 ∨ w = 8) (a : DataArray α) (h : Heap β) (bytes : List β)
    (hr : h.read a.m_Array = some bytes) (hl : bytes.length = a.getSize * w) :
    ∃ h1, a.byteSwapElements w h = some (a, h1) ∧ a.byteSwapElements w h1 = some (a, h) ∧
      h.read a.m_Array = some bytes := by
  have hwpos : 0 < w := by omega
  obtain ⟨h1, out, e1, r1, l1, p1, f1, g1, n1⟩ :=
    DataArray.byteSwapElements_spec w hw a h bytes hr hl
  obtain ⟨h2, out2, e2, r2, l2, p2, f2, g2, n2⟩ :=
    DataArray.byteSwapElements_spec w hw a h1 out r1 (by rw [l1]; exact hl)
  have hout : out2 = bytes := by
    apply List.ext_getElem?
    intro i
    by_cases hi : i < bytes.length
    · have hdm : i / w * w + i % w = i := Nat.div_add_mod' i w
      have hb : i % w < w := Nat.mod_lt i hwpos
      have he : i / w < a.m_Size := by
        apply Nat.div_lt_of_lt_mul
        rw [Nat.mul_comm]
        exact hl ▸ hi
      have s1 := p2 (i / w) (i % w) he hb
      have s2 := p1 (i / w) (w - 1 - i % w) he (by omega)
      rw [show w - 1 - (w - 1 - i % w) = i % w by omega] at s2
      rw [hdm] at s1 s2
      rw [s1, s2]
    · rw [List.getElem?_eq_none (by omega), List.getElem?_eq_none (by omega)]
  have hh : h2 = h := by
    apply Heap.ext_of_read h2 h (by omega) _ (by rw [g2, g1])
    intro p
    by_cases hp : p = a.m_Array
    · rw [hp, r2, hout, hr]
    · rw [f2 p hp, f1 p hp]
  rw [hh] at e2
  exact ⟨h1, e1, e2, hr⟩

/-- Witness for C18: the two four-byte elements are swapped and swapped back. -/
theorem C18_byteSwapElements_twice_witness :
    (4 = 1 ∨ 4 = 2 ∨ 4 = 4 ∨ 4 = 8) ∧
      bytes21x4.read arr21.m_Array = some [1, 2, 3, 4, 5, 6, 7, 8] ∧
      [1, 2, 3, 4, 5, 6, 7, 8].length = arr21.getSize * 4 ∧
      ∃ h1, arr21.byteSwapElements 4 bytes21x4 = some (arr21, h1) ∧
        arr21.byteSwapElements 4 h1 = some (arr21, bytes21x4) ∧
        bytes21x4.read arr21.m_Array = some [1, 2, 3, 4, 5, 6, 7, 8] :=
  ⟨by decide, by decide, by decide,
    C18_byteSwapElements_twice 4 (by decide) arr21 bytes21x4 [1, 2, 3, 4, 5, 6, 7, 8]
      (by decide) (by decide)⟩

/-! ## `removeEdgeData` -/

theorem QMap.find_erase_self {β : Type} :
    ∀ (m : QMap β) (key : String), (QMap.keys m).Nodup → QMap.find (QMap.erase m key) key = none
  | [], _, _ => rfl
  | e :: rest, key, hk => by
    have hk2 : e.1 ∉ QMap.keys rest ∧ (QMap.keys rest).Nodup := by
      simpa [QMap.keys] using hk
    by_cases he : e.1 = key
    · rw [QMap.erase, if_pos he]
      subst he
      cases hf : QMap.find rest e.1 with
      | none => rfl
      | some v =>
        exact absurd ((QMap.find_isSome_iff e.1 rest).1 (by rw [hf]; rfl)) hk2.1
    · rw [QMap.erase, if_neg he, QMap.find, if_neg he]
      exact QMap.find_erase_self rest key hk2.2

theorem QMap.find_erase_ne {β : Type} :
    ∀ (m : QMap β) (key other : String), other ≠ key →
      QMap.find (QMap.erase m key) other = QMap.find m other
  | [], _, _, _ => rfl
  | e :: rest, key, other, hne => by
    by_cases he : e.1 = key
    · rw [QMap.erase, if_pos he, QMap.find, if_neg (by rw [he]; exact fun h => hne h.symm)]
    · rw [QMap.erase, if_neg he, QMap.find, QMap.find, QMap.find_erase_ne rest key other hne]

theorem QMap.keys_erase {β : Type} :
    ∀ (m : QMap β) (key : String), QMap.keys (QMap.erase m key) = (QMap.keys m).erase key
  | [], _ => rfl
  | e :: rest, key => by
    by_cases he : e.1 = key
    · rw [QMap.erase, if_pos he]
      simp [QMap.keys, he]
    · rw [QMap.erase, if_neg he]
      have ih := QMap.keys_erase rest key
      simp only [QMap.keys] at ih
      simp [QMap.keys, List.erase_cons, he, ih]

/-- C21: for a container whose edge map has distinct keys, `removeEdgeData(name)` on a
present name returns the stored pointer; afterwards `getEdgeData(name)` returns the null
handle, every other name gives what it gave before, the key list is the former one without
`name`, and the tuple count of the group and the other members are unchanged.  On an
absent name `removeEdgeData` returns the null handle and the container is unchanged. -/
theorem C21_removeEdgeData (c : EdgeDataContainer) (name : String)
    (hk : (QMap.keys c.m_EdgeData).Nodup) :
    (∀ p, c.getEdgeData name = some p →
        (c.removeEdgeData name).1 = some p ∧
        (c.removeEdgeData name).2.getEdgeData name = none ∧
        (∀ other, other ≠ name →
          (c.removeEdgeData name).2.getEdgeData other = c.getEdgeData other) ∧
        (c.removeEdgeData name).2.getEdgeArrayNameList = c.getEdgeArrayNameList.erase name ∧
        (c.removeEdgeData name).2.m_NumEdgeTuples = c.m_NumEdgeTuples ∧
        (c.removeEdgeData name).2.m_EdgeFieldData = c.m_EdgeFieldData ∧
        (c.removeEdgeData name).2.m_EdgeEnsembleData = c.m_EdgeEnsembleData ∧
        (c.removeEdgeData name).2.m_NumEdgeFieldTuples = c.m_NumEdgeFieldTuples ∧
        (c.removeEdgeData name).2.m_NumEdgeEnsembleTuples = c.m_NumEdgeEnsembleTuples) ∧
      (c.getEdgeData name = none → c.removeEdgeData name = (none, c)) := by
  constructor
  · intro p hp
    simp only [EdgeDataContainer.getEdgeData] at hp
    simp only [EdgeDataContainer.removeEdgeData, hp, EdgeDataContainer.getEdgeData,
      EdgeDataContainer.getEdgeArrayNameList]
    exact ⟨trivial, QMap.find_erase_self _ _ hk,
      fun other hne => QMap.find_erase_ne _ _ _ hne, QMap.keys_erase _ _, trivial, trivial,
      trivial, trivial, trivial⟩
  · intro hp
    simp only [EdgeDataContainer.getEdgeData] at hp
    simp only [EdgeDataContainer.removeEdgeData, hp]

/-- Witness for C21: the only array of a container is removed; the key list becomes empty
and the tuple count of the group is still 2. -/
theorem C21_removeEdgeData_witness :
    (QMap.keys edges1.m_EdgeData).Nodup ∧ edges1.getEdgeData "a" = some 0 ∧
      (edges1.removeEdgeData "a").2.getEdgeArrayNameList = [] ∧
      (edges1.removeEdgeData "a").2.m_NumEdgeTuples = 2 ∧
      ((edges1.removeEdgeData "a").1 = some 0 ∧
        (edges1.removeEdgeData "a").2.getEdgeData "a" = none ∧
        (∀ other, other ≠ "a" →
          (edges1.removeEdgeData "a").2.getEdgeData other = edges1.getEdgeData other) ∧
        (edges1.removeEdgeData "a").2.getEdgeArrayNameList =
          edges1.getEdgeArrayNameList.erase "a" ∧
        (edges1.removeEdgeData "a").2.m_NumEdgeTuples = edges1.m_NumEdgeTuples ∧
        (edges1.removeEdgeData "a").2.m_EdgeFieldData = edges1.m_EdgeFieldData ∧
        (edges1.removeEdgeData "a").2.m_EdgeEnsembleData = edges1.m_EdgeEnsembleData ∧
        (edges1.removeEdgeData "a").2.m_NumEdgeFieldTuples = edges1.m_NumEdgeFieldTuples ∧
        (edges1.removeEdgeData "a").2.m_NumEdgeEnsembleTuples =
          edges1.m_NumEdgeEnsembleTuples) ∧
      (edges2.getEdgeData "b" = none → edges2.removeEdgeData "b" = (none, edges2)) :=
  ⟨by decide, by decide, by decide, by decide,
    (C21_removeEdgeData edges1 "a" (by decide)).1 0 (by decide),
    (C21_removeEdgeData edges2 "b" (by decide)).2⟩

/-! ## `eraseTuples` with an empty index list -/

/-- C25: `eraseTuples` with an empty index list returns 0 and gives back the array and
the heap exactly as they were (every field of the array, every block and the record of
allocator calls). -/
theorem C25_eraseTuples_empty [ElementType α] (pf : Platform α) (env : Alloc α) (a : DataArray α)
    (h : Heap α) : a.eraseTuples pf env h [] = some (0, a, h) := by
  simp [DataArray.eraseTuples]

/-! ## `getVoidPointer` -/

/-- On an array whose buffer pointer is not null, `getVoidPointer(i)` is the null pointer
exactly when `i ≥ getSize()`, and for `i < getSize()` it is the address of element `i`. -/
theorem DataArray.getVoidPointer_nonnull (a : DataArray α) (i : Nat) (hp : a.m_Array ≠ 0) :
    (a.getVoidPointer i = (0, 0) ↔ i ≥ a.getSize) ∧
      (i < a.getSize → a.getVoidPointer i = (a.m_Array, i)) := by
  unfold DataArray.getVoidPointer DataArray.getSize
  by_cases hi : i ≥ a.m_Size
  · simp [hi]
  · simp only [hi, if_false, Prod.mk.injEq, iff_false, not_and]
    exact ⟨fun h0 => absurd h0 hp, fun _ => trivial⟩

/-- For every array `getVoidPointer(i)` is the null pointer when `i ≥ getSize()`. -/
theorem DataArray.getVoidPointer_beyond (a : DataArray α) (i : Nat) (hi : i ≥ a.getSize) :
    a.getVoidPointer i = (0, 0) := by
  unfold DataArray.getSize at hi
  simp [DataArray.getVoidPointer, hi]

/-- C23: the array made by `CreateArray([5], [2], "a")` whose later `Allocate()` meets a
failing allocator has a null buffer and `getSize() == 10`; `getVoidPointer(0)` returns the
null pointer although `0 < getSize()`. -/
theorem C23_getVoidPointer_null_below_size :
    ((CreateArrayDims pfRealloc envOk heap0 [5] [2] "a").bind fun r =>
        r.1.bind fun a =>
          (a.Allocate pfRealloc envFail r.2).map fun q =>
            (q.1, q.2.1.m_Array, q.2.1.getSize, decide (0 < q.2.1.getSize),
              q.2.1.getVoidPointer 0)) =
      some (-1, 0, 10, true, ((0, 0) : Ptr × Nat)) := by
  decide

/-! ## `initializeWithValues`, `initializeWithZeros` -/

theorem Heap.memset_full {β : Type} (h : Heap β) (p : Nat) (v : β) (d : List β)
    (hd : h.read p = some d) :
    h.memset p v d.length = some (h.store p (List.replicate d.length v)) := by
  rw [Heap.memset_live h p v d.length d hd (Nat.le_refl _)]
  simp

theorem DataArray.getValue_replicate (a : DataArray α) (h : Heap α) (v : α) (n i : Nat)
    (hr : h.read a.m_Array = some (List.replicate n v)) (hi : i < n) :
    a.getValue h i = some v := by
  simp [DataArray.getValue, hr, hi]

/-- C24: on an array that holds its `getSize()` elements (the empty array without a buffer
included), `initializeWithValues(v)` returns with the array object unchanged, hence the
same size, tuple count, component count and ownership; afterwards the array holds
`getSize()` copies of `v`, so `getValue(i) == v` for every `i < getSize()`, and no other
block and no allocator call is involved.  When the buffer pointer is not null the same
holds for `initializeWithZeros()` with the value 0. -/
theorem C24_initializeWith_fills [Zero α] (a : DataArray α) (h : Heap α) (buf : List α)
    (v : α) (hh : a.holds h buf) :
    (∃ h1, a.initializeWithValues h v = some (a, h1) ∧
        a.holds h1 (List.replicate a.getSize v) ∧
        (∀ i, i < a.getSize → a.getValue h1 i = some v) ∧
        (∀ p, p ≠ a.m_Array → h1.read p = h.read p) ∧ h1.log = h.log) ∧
      (a.m_Array ≠ 0 →
        ∃ h2, a.initializeWithZeros h = some (a, h2) ∧
          a.holds h2 (List.replicate a.getSize 0) ∧
          (∀ i, i < a.getSize → a.getValue h2 i = some 0) ∧
          (∀ p, p ≠ a.m_Array → h2.read p = h.read p) ∧ h2.log = h.log) := by
  have live : ∀ w : α, h.read a.m_Array = some buf → buf.length = a.m_Size →
      (h.store a.m_Array (List.replicate a.m_Size w)).read a.m_Array =
          some (List.replicate a.m_Size w) ∧
        (∀ p, p ≠ a.m_Array →
          (h.store a.m_Array (List.replicate a.m_Size w)).read p = h.read p) := by
    intro w hr _
    exact ⟨Heap.read_store_same h _ _ (Heap.read_some_ne_zero hr) (Heap.read_some_lt hr),
      fun p hp => Heap.read_store_ne h p _ _ (Heap.read_some_ne_zero hr) hp⟩
  constructor
  · rcases hh with ⟨_, hs, _⟩ | ⟨hr, hl⟩
    · refine ⟨h, by simp [DataArray.initializeWithValues, hs], Or.inl ⟨‹_›, hs, ?_⟩, ?_,
        fun _ _ => rfl, rfl⟩
      · simp [DataArray.getSize, hs]
      · intro i hi
        simp [DataArray.getSize, hs] at hi
    · obtain ⟨h1r, h1o⟩ := live v hr hl
      by_cases hs : a.m_Size = 0
      · refine ⟨h, by simp [DataArray.initializeWithValues, hs], Or.inr ⟨?_, ?_⟩, ?_,
          fun _ _ => rfl, rfl⟩
        · have hb : buf = [] := List.length_eq_zero.1 (by omega)
          simp [DataArray.getSize, hs, hr, hb]
        · simp [DataArray.getSize]
        · intro i hi
          simp [DataArray.getSize, hs] at hi
      · have hms := Heap.memset_full h a.m_Array v buf hr
        rw [hl] at hms
        refine ⟨h.store a.m_Array (List.replicate a.m_Size v), by
          simp [DataArray.initializeWithValues, hs, hms], Or.inr ⟨h1r, by simp [DataArray.getSize]⟩, ?_, h1o, rfl⟩
        intro i hi
        exact DataArray.getValue_replicate a _ v a.m_Size i h1r hi
  · intro hp
    rcases hh with ⟨h0, _, _⟩ | ⟨hr, hl⟩
    · exact absurd h0 hp
    · obtain ⟨h2r, h2o⟩ := live 0 hr hl
      have hms := Heap.memset_full h a.m_Array (0 : α) buf hr
      rw [hl] at hms
      refine ⟨h.store a.m_Array (List.replicate a.m_Size 0), by
        simp [DataArray.initializeWithZeros, hms], Or.inr ⟨h2r, by simp [DataArray.getSize]⟩, ?_, h2o, rfl⟩
      intro i hi
      exact DataArray.getValue_replicate a _ 0 a.m_Size i h2r hi

/-- Witness for C24: the five-tuple, two-component array is filled with 7, and with 0. -/
theorem C24_initializeWith_fills_witness :
    arr52.holds heap52 [10, 11, 20, 21, 30, 31, 40, 41, 50, 51] ∧ arr52.m_Array ≠ 0 ∧
      (arr52.initializeWithValues heap52 7).map (fun r => r.2.read 1) =
        some (some [7, 7, 7, 7, 7, 7, 7, 7, 7, 7]) ∧
      (arr52.initializeWithZeros heap52).map (fun r => r.2.read 1) =
        some (some [0, 0, 0, 0, 0, 0, 0, 0, 0, 0]) ∧
      ((∃ h1, arr52.initializeWithValues heap52 7 = some (arr52, h1) ∧
          arr52.holds h1 (List.replicate arr52.getSize 7) ∧
          (∀ i, i < arr52.getSize → arr52.getValue h1 i = some 7) ∧
          (∀ p : Nat, p ≠ arr52.m_Array → h1.read p = heap52.read p) ∧ h1.log = heap52.log) ∧
        (arr52.m_Array ≠ 0 →
          ∃ h2, arr52.initializeWithZeros heap52 = some (arr52, h2) ∧
            arr52.holds h2 (List.replicate arr52.getSize 0) ∧
            (∀ i, i < arr52.getSize → arr52.getValue h2 i = some 0) ∧
            (∀ p : Nat, p ≠ arr52.m_Array → h2.read p = heap52.read p) ∧
            h2.log = heap52.log)) :=
  ⟨Or.inr ⟨rfl, rfl⟩, by decide, by decide, by decide,
    C24_initializeWith_fills arr52 heap52 [10, 11, 20, 21, 30, 31, 40, 41, 50, 51] 7
      (Or.inr ⟨rfl, rfl⟩)⟩

/-! ## `resize` with a failing allocator -/

theorem DataArray.ctor_array_null (tDims cDims : List Nat) (name : String) (ownsData : Bool)
    (fillValue : α) (d : DataArray α)
    (hd : DataArray.ctor tDims cDims name ownsData fillValue = some d) : d.m_Array = 0 := by
  unfold DataArray.ctor at hd
  split at hd
  · cases hd
    rfl
  · cases hd

theorem DataArray.ctor_total (tDims cDims : List Nat) (name : String) (ownsData : Bool)
    (fillValue : α) (ht : tDims ≠ []) (hc : cDims ≠ []) :
    ∃ d, DataArray.ctor tDims cDims name ownsData fillValue = some d := by
  cases tDims with
  | nil => exact absurd rfl ht
  | cons t ts =>
    cases cDims with
    | nil => exact absurd rfl hc
    | cons c cs => exact ⟨_, rfl⟩

/-- The common tail of the factories on a newly constructed array (null buffer pointer):
an empty array is returned unallocated, otherwise the outcome is that of `malloc`. -/
theorem finishCreate_eq [ElementType α]
    (pf : Platform α) (env : Alloc α) (h : Heap α) (d : DataArray α)
    (hd : d.m_Array = 0) :
    finishCreate pf env h d =
      if d.m_Size = 0 then
        some (some { d with m_Size := 0, m_OwnsData := true, m_MaxId := 0,
                            m_IsAllocated := false }, h)
      else if env.ok = true then
        some (some { d with m_Array := h.blocks.length + 1, m_OwnsData := true,
                            m_IsAllocated := true }, (h.malloc env d.m_Size).1)
      else some (none, Heap.mk h.blocks (h.log ++ [MemEvent.malloc d.m_Size 0])) := by
  cases d with
  | mk arr size owns maxId alloc nm td nt cd nc fv =>
    simp only at hd
    subst hd
    by_cases hs : size = 0
    · subst hs
      simp [finishCreate, DataArray.Allocate, DataArray.initialize]
    · cases hok : env.ok
      · simp [finishCreate, DataArray.Allocate, hs, Heap.malloc, hok, DataArray.destroy]
      · simp [finishCreate, DataArray.Allocate, hs, Heap.malloc, hok]

theorem finishCreate_owns [ElementType α]
    (pf : Platform α) (env : Alloc α) (h : Heap α) (d a : DataArray α)
    (h1 : Heap α) (hd : d.m_Array = 0) (hc : finishCreate pf env h d = some (some a, h1)) :
    a.m_OwnsData = true ∧ (a.isAllocated = true ↔ 0 < a.getSize) := by
  rw [finishCreate_eq pf env h d hd] at hc
  by_cases hs : d.m_Size = 0
  · rw [if_pos hs] at hc
    simp only [Option.some.injEq, Prod.mk.injEq] at hc
    rw [← hc.1]
    simp [DataArray.isAllocated, DataArray.getSize]
  · rw [if_neg hs] at hc
    by_cases hok : env.ok = true
    · rw [if_pos hok] at hc
      simp only [Option.some.injEq, Prod.mk.injEq] at hc
      rw [← hc.1]
      simp only [DataArray.isAllocated, DataArray.getSize, true_and, true_iff]
      omega
    · rw [if_neg hok] at hc
      simp at hc

theorem finishCreate_null [ElementType α]
    (pf : Platform α) (env : Alloc α) (h : Heap α) (d : DataArray α)
    (h1 : Heap α) (hd : d.m_Array = 0) (hc : finishCreate pf env h d = some (none, h1)) :
    env.ok = false ∧
      ∃ size, 0 < size ∧ h1 = Heap.mk h.blocks (h.log ++ [MemEvent.malloc size 0]) := by
  rw [finishCreate_eq pf env h d hd] at hc
  by_cases hs : d.m_Size = 0
  · rw [if_pos hs] at hc
    simp at hc
  · rw [if_neg hs] at hc
    by_cases hok : env.ok = true
    · rw [if_pos hok] at hc
      simp at hc
    · rw [if_neg hok] at hc
      simp only [Option.some.injEq, Prod.mk.injEq, true_and] at hc
      exact ⟨by simpa using hok, d.m_Size, by omega, hc.symm⟩

theorem bind_ctor_finishCreate [ElementType α] (pf : Platform α) (env : Alloc α) (h : Heap α)
    (tDims cDims : List Nat) (name : String) (ownsData : Bool) (fillValue : α)
    (r : Option (DataArray α) × Heap α)
    (hr : (DataArray.ctor tDims cDims name ownsData fillValue).bind (finishCreate pf env h) =
      some r) :
    ∃ d, d.m_Array = 0 ∧ finishCreate pf env h d = some r := by
  simp only [Option.bind_eq_some] at hr
  obtain ⟨d, hd, hf⟩ := hr
  exact ⟨d, DataArray.ctor_array_null _ _ _ _ _ d hd, hf⟩

/-- Whatever a factory returns for a non-empty name is what the common tail returns on a
newly constructed array. -/
theorem returnedByCreateArray_finish [ElementType α]
    [Zero α] [One α] (pf : Platform α) (env : Alloc α)
    (h : Heap α) (name : String) (r : Option (DataArray α) × Heap α)
    (hname : name.isEmpty = false) (hc : returnedByCreateArray pf env h name r) :
    ∃ d, d.m_Array = 0 ∧ finishCreate pf env h d = some r := by
  rcases hc with ⟨n, hr⟩ | ⟨n, rank, dims, hr⟩ | ⟨n, cDims, hr⟩ | ⟨n, cDims, hr⟩ |
    ⟨tDims, cDims, hr⟩
  · simp only [CreateArray, hname, Bool.false_eq_true, if_false] at hr
    exact bind_ctor_finishCreate pf env h _ _ _ _ _ r hr
  · simp only [CreateArrayRank, hname, Bool.false_eq_true, if_false] at hr
    split at hr
    · exact bind_ctor_finishCreate pf env h _ _ _ _ _ r hr
    · cases hr
  · simp only [CreateArrayStd, hname, Bool.false_eq_true, if_false] at hr
    exact bind_ctor_finishCreate pf env h _ _ _ _ _ r hr
  · simp only [CreateArrayQ, hname, Bool.false_eq_true, if_false] at hr
    exact bind_ctor_finishCreate pf env h _ _ _ _ _ r hr
  · simp only [CreateArrayDims, hname, Bool.false_eq_true, if_false] at hr
    exact bind_ctor_finishCreate pf env h _ _ _ _ _ r hr

theorem returnedByCreateArray_empty_name [ElementType α]
    [Zero α] [One α] (pf : Platform α) (env : Alloc α)
    (h : Heap α) (name : String) (r : Option (DataArray α) × Heap α)
    (hname : name.isEmpty = true) (hc : returnedByCreateArray pf env h name r) :
    r = (none, h) := by
  rcases hc with ⟨n, hr⟩ | ⟨n, rank, dims, hr⟩ | ⟨n, cDims, hr⟩ | ⟨n, cDims, hr⟩ |
    ⟨tDims, cDims, hr⟩
  · simpa [CreateArray, hname] using hr.symm
  · simpa [CreateArrayRank, hname] using hr.symm
  · simpa [CreateArrayStd, hname] using hr.symm
  · simpa [CreateArrayQ, hname] using hr.symm
  · simpa [CreateArrayDims, hname] using hr.symm

theorem bind_ctor_succeeds [ElementType α] (pf : Platform α) (env : Alloc α) (h : Heap α)
    (tDims cDims : List Nat) (name : String) (ownsData : Bool) (fillValue : α)
    (ht : tDims ≠ []) (hc : cDims ≠ []) (hok : env.ok = true) :
    ∃ a h1, (DataArray.ctor tDims cDims name ownsData fillValue).bind (finishCreate pf env h) =
      some (some a, h1) := by
  obtain ⟨d, hd⟩ := DataArray.ctor_total tDims cDims name ownsData fillValue ht hc
  rw [hd, Option.some_bind, finishCreate_eq pf env h d (DataArray.ctor_array_null _ _ _ _ _ d hd)]
  by_cases hs : d.m_Size = 0
  · rw [if_pos hs]
    exact ⟨_, _, rfl⟩
  · rw [if_neg hs, if_pos hok]
    exact ⟨_, _, rfl⟩

/-- C29: an array returned by any of the five `CreateArray` overloads, or by the common
tail of the factories on an array constructed with any `ownsData` and `fillValue`
arguments, has the owning flag set, and `isAllocated()` is true exactly when its total
size is positive. -/
theorem C29_created_arrays_own [ElementType α] [Zero α] [One α] (pf : Platform α) (env : Alloc α)
    (h : Heap α) (name : String) (a : DataArray α) (h1 : Heap α)
    (hc : returnedByCreateArray pf env h name (some a, h1) ∨
      ∃ tDims cDims ownsData fillValue d,
        DataArray.ctor tDims cDims name ownsData fillValue = some d ∧
          finishCreate pf env h d = some (some a, h1)) :
    a.m_OwnsData = true ∧ (a.isAllocated = true ↔ 0 < a.getSize) := by
  rcases hc with hc | ⟨tDims, cDims, ownsData, fillValue, d, hd, hf⟩
  · cases hname : name.isEmpty
    · obtain ⟨d, hd, hf⟩ := returnedByCreateArray_finish pf env h name _ hname hc
      exact finishCreate_owns pf env h d a h1 hd hf
    · have := returnedByCreateArray_empty_name pf env h name _ hname hc
      simp at this
  · exact finishCreate_owns pf env h d a h1 (DataArray.ctor_array_null _ _ _ _ _ d hd) hf

/-- Witness for C29: `CreateArray(3, "a")`, whose constructor call passes `(0, true)`,
returns an allocated three-element array that owns its buffer; `CreateArray(0, "a")`
returns an owning, unallocated array of size 0. -/
theorem C29_created_arrays_own_witness :
    (CreateArray pfRealloc envOk heap0 3 "a").map
        (fun r => r.1.map fun (a : DataArray Nat) => (a.m_OwnsData, a.isAllocated, a.getSize)) =
      some (some (true, true, 3)) ∧
    (CreateArray pfRealloc envOk heap0 0 "a").map
        (fun r => r.1.map fun (a : DataArray Nat) => (a.m_OwnsData, a.isAllocated, a.getSize)) =
      some (some (true, false, 0)) ∧
    (arr21.m_OwnsData = true ∧ (arr21.isAllocated = true ↔ 0 < arr21.getSize)) :=
  ⟨by decide, by decide,
    C29_created_arrays_own pfRealloc envOk heap0 "a" arr21 (heap0.malloc envOk 2).1
      (Or.inl (Or.inr (Or.inr (Or.inr (Or.inl ⟨2, [1], by decide⟩)))))⟩

/-- C30: every `CreateArray` overload returns the null handle for an empty name, whatever
the sizes and shapes, with the heap and the record of allocator calls untouched (no array
is constructed: the dimension vectors are not even read).  With a non-empty name a null
handle is returned only when the allocator has failed on a request of positive size, the
failed `malloc` being the only allocator call; and when the allocator succeeds every
overload returns an array for non-empty dimension vectors. -/
theorem C30_null_handle [ElementType α]
    [Zero α] [One α] (pf : Platform α) (env : Alloc α) (h : Heap α)
    (name : String) :
    (name.isEmpty = true →
        (∀ numElements, CreateArray pf env h numElements name = some (none, h)) ∧
        (∀ numTuples rank dims,
          CreateArrayRank pf env h numTuples rank dims name = some (none, h)) ∧
        (∀ numTuples cDims, CreateArrayStd pf env h numTuples cDims name = some (none, h)) ∧
        (∀ numTuples cDims, CreateArrayQ pf env h numTuples cDims name = some (none, h)) ∧
        (∀ tDims cDims, CreateArrayDims pf env h tDims cDims name = some (none, h))) ∧
      (name.isEmpty = false → ∀ h1, returnedByCreateArray pf env h name (none, h1) →
        env.ok = false ∧
          ∃ size, 0 < size ∧ h1 = Heap.mk h.blocks (h.log ++ [MemEvent.malloc size 0])) ∧
      (name.isEmpty = false → env.ok = true →
        (∀ numElements,
          ∃ a h1, CreateArray pf env h numElements name = some (some a, h1)) ∧
        (∀ numTuples rank dims, 0 < rank → rank ≤ dims.length →
          ∃ a h1, CreateArrayRank pf env h numTuples rank dims name = some (some a, h1)) ∧
        (∀ numTuples cDims, cDims ≠ [] →
          ∃ a h1, CreateArrayStd pf env h numTuples cDims name = some (some a, h1)) ∧
        (∀ numTuples cDims, cDims ≠ [] →
          ∃ a h1, CreateArrayQ pf env h numTuples cDims name = some (some a, h1)) ∧
        (∀ tDims cDims, tDims ≠ [] → cDims ≠ [] →
          ∃ a h1, CreateArrayDims pf env h tDims cDims name = some (some a, h1))) := by
  refine ⟨fun hname => ?_, fun hname h1 hc => ?_, fun hname hok => ?_⟩
  · simp [CreateArray, CreateArrayRank, CreateArrayStd, CreateArrayQ, CreateArrayDims, hname]
  · obtain ⟨d, hd, hf⟩ := returnedByCreateArray_finish pf env h name _ hname hc
    exact finishCreate_null pf env h d h1 hd hf
  · refine ⟨fun n => ?_, fun n rank dims hr hle => ?_, fun n cDims hc => ?_,
      fun n cDims hc => ?_, fun tDims cDims ht hc => ?_⟩
    · simp only [CreateArray, hname, Bool.false_eq_true, if_false]
      exact bind_ctor_succeeds pf env h _ _ _ _ _ (by simp) (by simp) hok
    · simp only [CreateArrayRank, hname, Bool.false_eq_true, if_false, hle, if_true]
      refine bind_ctor_succeeds pf env h _ _ _ _ _ (by simp) ?_ hok
      intro he
      have hlen := congrArg List.length he
      simp only [List.length_take, List.length_nil] at hlen
      omega
    · simp only [CreateArrayStd, hname, Bool.false_eq_true, if_false]
      exact bind_ctor_succeeds pf env h _ _ _ _ _ (by simp) hc hok
    · simp only [CreateArrayQ, hname, Bool.false_eq_true, if_false]
      exact bind_ctor_succeeds pf env h _ _ _ _ _ (by simp) hc hok
    · simp only [CreateArrayDims, hname, Bool.false_eq_true, if_false]
      exact bind_ctor_succeeds pf env h _ _ _ _ _ ht hc hok

/-- Witness for C30: with the empty name and empty dimension vectors the factory returns
the null handle and the heap as it was; with the name `"a"` and a failing allocator
`CreateArray(3, "a")` returns the null handle after one failed `malloc`; with a succeeding
allocator `CreateArray(3, "a")` returns an array. -/
theorem C30_null_handle_witness :
    "".isEmpty = true ∧ "a".isEmpty = false ∧
      CreateArrayDims pfRealloc envOk heap0 [] [] "" =
        some ((none : Option (DataArray Nat)), heap0) ∧
      returnedByCreateArray pfRealloc envFail heap0 "a"
        ((none : Option (DataArray Nat)), Heap.mk [] [MemEvent.malloc 3 0]) ∧
      (envFail.ok = false ∧ ∃ size, 0 < size ∧
        (Heap.mk [] [MemEvent.malloc 3 0] : Heap Nat) =
          Heap.mk heap0.blocks (heap0.log ++ [MemEvent.malloc size 0])) ∧
      ∃ (a : DataArray Nat) (h1 : Heap Nat),
        CreateArray pfRealloc envOk heap0 3 "a" = some (some a, h1) :=
  ⟨by decide, by decide,
    ((C30_null_handle pfRealloc envOk heap0 "").1 (by decide)).2.2.2.2 [] [],
    Or.inl ⟨3, by decide⟩,
    (C30_null_handle pfRealloc envFail heap0 "a").2.1 (by decide) _ (Or.inl ⟨3, by decide⟩),
    ((C30_null_handle pfRealloc envOk heap0 "a").2.2 (by decide) rfl).1 3⟩

/-! ## The range check of `eraseTuples` -/

/-- On a fresh array, for an ascending index list shorter than the tuple count whose
element offsets `i * c` are all representable in `size_t`, `eraseTuples` returns -100
exactly when some index is at or beyond the tuple count, and then nothing has changed. -/
theorem DataArray.eraseTuples_rejects_iff [ElementType α]
    (pf : Platform α) (env : Alloc α) (a : DataArray α)
    (h : Heap α) (buf : List α) (n c : Nat) (idxs : List Nat) (hc : 1 ≤ c)
    (hf : a.freshWith h n c buf) (hsorted : idxs.Pairwise (· < ·))
    (hpos : 0 < idxs.length) (hlen : idxs.length < n) (hok : env.ok = true)
    (hfit : ∀ i ∈ idxs, i * c < 2 ^ 64) :
    ∃ r, a.eraseTuples pf env h idxs = some r ∧ (r.1 = -100 ↔ ∃ i ∈ idxs, n ≤ i) ∧
      (r.1 = -100 → r.2 = (a, h)) := by
  by_cases hout : ∃ i ∈ idxs, n ≤ i
  · refine ⟨(-100, a, h), ?_, by simp [hout], fun _ => rfl⟩
    obtain ⟨hn, hcomp, hsize, -, hmax, -, -⟩ := hf
    obtain ⟨i, hi, hge⟩ := hout
    have hne : idxs.length ≠ 0 := by omega
    have hnl : ¬ (a.getNumberOfTuples ≤ idxs.length) := by
      simp only [DataArray.getNumberOfTuples, hn]; omega
    have hnc : n ≤ n * c := le_mul_of_one_le hc
    have hany : idxs.any (fun i => decide (wmul i a.m_NumComponents > a.m_MaxId)) = true := by
      rw [List.any_eq_true]
      refine ⟨i, hi, ?_⟩
      have hw : wmul i a.m_NumComponents = i * c := by
        rw [hcomp]; exact wmul_eq (hfit i hi)
      have hle : n * c ≤ i * c := Nat.mul_le_mul_right _ hge
      simp only [hw, decide_eq_true_eq, hmax, hsize]
      omega
    simp [DataArray.eraseTuples, hne, hnl, hany]
  · have hin : ∀ i ∈ idxs, i < n := by
      intro i hi
      by_contra hge
      exact hout ⟨i, hi, Nat.le_of_not_lt hge⟩
    obtain ⟨h1, he, -⟩ :=
      DataArray.eraseTuples_fresh pf env a h buf n c idxs hc hf hsorted hin hpos hlen hok
    refine ⟨_, he, ?_, ?_⟩
    · simp only [hout, iff_false]
      show ¬ ((0 : Int) = -100)
      decide
    · intro h100
      change (0 : Int) = -100 at h100
      omega

/-- C26: the array made by `CreateArray([5], [2], "a")` (elements `900, ..., 909` as the
allocator left them) is asked to erase the single index `2 ^ 63`, which is beyond its five
tuples.  `eraseTuples` does not return -100: it returns 0, allocates an eight-element
buffer, frees the old one and has dropped tuple 0. -/
theorem C26_wrapping_index_not_rejected :
    ((CreateArrayDims pfRealloc envOk heap0 [5] [2] "a").bind fun r =>
        r.1.map fun a =>
          (decide (a.getNumberOfTuples ≤ 2 ^ 63), a.getNumberOfTuples, r.2.read a.m_Array)) =
      some (true, 5, some [900, 901, 902, 903, 904, 905, 906, 907, 908, 909]) ∧
    ((CreateArrayDims pfRealloc envOk heap0 [5] [2] "a").bind fun r =>
        r.1.bind fun a =>
          (a.eraseTuples pfRealloc envOk r.2 [2 ^ 63]).map fun q =>
            (q.1, q.2.1.getSize, q.2.2.read q.2.1.m_Array)) =
      some (0, 8, some [902, 903, 904, 905, 906, 907, 908, 909]) ∧
    ((CreateArrayDims pfRealloc envOk heap0 [5] [2] "a").bind fun r =>
        r.1.bind fun a =>
          (a.eraseTuples pfRealloc envOk r.2 [2 ^ 63]).map fun q => q.2.2.log) =
      some [MemEvent.malloc 10 1, MemEvent.malloc 8 2, MemEvent.free 1] := by
  decide

/-! ## The two copy paths of `eraseTuples` agree -/

theorem frontRun_range' :
    ∀ (k j m : Nat), j + k < 2 ^ 64 → frontRun (List.range' j k) j m = (j + k, m + k)
  | 0, j, m, _ => by simp [frontRun]
  | k + 1, j, m, hfit => by
    have e1 : wadd j 1 = j + 1 := wadd_eq (by omega)
    rw [List.range'_succ]
    simp only [frontRun, if_true, e1]
    rw [frontRun_range' k (j + 1) (m + 1) (by omega)]
    simp only [Prod.mk.injEq]
    omega

/-- Once the guards of `eraseTuples` have been passed, the front-run loop decides which
of the two copy paths runs. -/
theorem DataArray.eraseTuples_paths [ElementType α]
    (pf : Platform α) (env : Alloc α) (a : DataArray α)
    (h : Heap α) (idxs : List Nat) (hne : idxs.length ≠ 0)
    (hnl : ¬ (idxs.length ≥ a.getNumberOfTuples))
    (hany : idxs.any (fun i => decide (wmul i a.m_NumComponents > a.m_MaxId)) = false) :
    a.eraseTuples pf env h idxs =
      if (frontRun idxs 0 0).2 = idxs.length then a.eraseTuplesFast pf env h idxs
      else a.eraseTuplesGeneral pf env h idxs := by
  by_cases hfront : (frontRun idxs 0 0).2 = idxs.length
  · simp only [DataArray.eraseTuples, DataArray.eraseTuplesFast, hne, hnl, hany, hfront,
      if_true, if_false, Bool.false_eq_true]
  · simp only [DataArray.eraseTuples, DataArray.eraseTuplesGeneral, hne, hnl, hany, hfront,
      if_true, if_false, Bool.false_eq_true]

/-- Both copy paths of `eraseTuples` on a fresh array with in-range, ascending indices: the
table-driven path always, and the single-`memcpy` path whenever the front-run loop has
consumed the whole list, end in the same array object and the same heap. -/
theorem DataArray.erasePaths_fresh [ElementType α]
    (pf : Platform α) (env : Alloc α) (a : DataArray α)
    (h : Heap α) (buf : List α) (n c : Nat) (idxs : List Nat) (hc : 1 ≤ c)
    (hf : a.freshWith h n c buf) (hsorted : idxs.Pairwise (· < ·)) (hin : ∀ i ∈ idxs, i < n)
    (hpos : 0 < idxs.length) (hlen : idxs.length < n) (hok : env.ok = true) :
    a.eraseTuplesGeneral pf env h idxs =
        some (0, ({ a with m_Array := 0, m_IsAllocated := false } : DataArray α).saveErased
          ((n - idxs.length) * c) (h.blocks.length + 1),
          ((h.malloc env ((n - idxs.length) * c)).1.store (h.blocks.length + 1)
            (tuplesFrom buf c 0 n idxs)).release a.m_Array) ∧
      ((frontRun idxs 0 0).2 = idxs.length →
        a.eraseTuplesFast pf env h idxs =
          some (0, ({ a with m_Array := 0, m_IsAllocated := false } : DataArray α).saveErased
            ((n - idxs.length) * c) (h.blocks.length + 1),
            ((h.malloc env ((n - idxs.length) * c)).1.store (h.blocks.length + 1)
              (tuplesFrom buf c 0 n idxs)).release a.m_Array)) := by
  obtain ⟨hn, hcomp, hsize, hrange, hmax, hr, hl, hby⟩ := hf
  subst hn hcomp
  have h0 := Heap.read_some_ne_zero hr
  have hlt := Heap.read_some_lt hr
  have hfit : a.m_NumTuples * a.m_NumComponents < 2 ^ 64 := by rw [← hsize]; exact hrange
  have hnfit : a.m_NumTuples < 2 ^ 64 := Nat.lt_of_le_of_lt (le_mul_of_one_le hc) hfit
  have hsrc : buf.length = a.m_NumTuples * a.m_NumComponents := by rw [hl, hsize]
  have hNle : (a.m_NumTuples - idxs.length) * a.m_NumComponents ≤
      a.m_NumTuples * a.m_NumComponents :=
    Nat.mul_le_mul_right a.m_NumComponents (Nat.sub_le _ _)
  have eN1 : wsub a.m_NumTuples idxs.length = a.m_NumTuples - idxs.length :=
    wsub_eq hnfit (by omega)
  have eN2 : wmul (a.m_NumTuples - idxs.length) a.m_NumComponents =
      (a.m_NumTuples - idxs.length) * a.m_NumComponents :=
    wmul_eq (by omega)
  generalize hN : (a.m_NumTuples - idxs.length) * a.m_NumComponents = N at *
  have hNb : N * ElementType.sizeofT α < 2 ^ 64 :=
    Nat.lt_of_le_of_lt (Nat.mul_le_mul_right _ (by rw [hsize]; exact hNle)) hby
  have hmal := Heap.malloc_ok h env N hok hNb
  obtain ⟨hm, hhm⟩ : ∃ hm : Heap α,
      Heap.mk (h.blocks ++ [some (junkBlock env 0 N)])
        (h.log ++ [MemEvent.malloc N (h.blocks.length + 1)]) = hm := ⟨_, rfl⟩
  rw [hhm] at hmal
  have hmq : hm.read (h.blocks.length + 1) = some (junkBlock env 0 N) := by
    have := Heap.read_malloc_new h env N hok hNb
    rwa [hmal] at this
  have hmp : hm.read a.m_Array = some buf := by
    have := Heap.read_malloc_old h env N hr
    rwa [hmal] at this
  have hmlen : h.blocks.length + 1 - 1 < hm.blocks.length := by
    rw [← hhm]; simp
  have hq : h.blocks.length + 1 ≠ a.m_Array := by omega
  have hq0 : h.blocks.length + 1 ≠ 0 := by omega
  have hset := Heap.memset_live hm (h.blocks.length + 1) pf.abFill N (junkBlock env 0 N) hmq
    (by simp [junkBlock_length])
  generalize hd0 : List.replicate N pf.abFill ++ (junkBlock env 0 N).drop N = d0 at hset
  have hd0len : d0.length = N := by
    rw [← hd0]; simp [junkBlock_length]
  -- the common tail of both copy paths
  have tail : ∀ d1 : List α,
      d1 = tuplesFrom buf a.m_NumComponents 0 a.m_NumTuples idxs →
      ((a._deallocate pf (hm.store (h.blocks.length + 1) d1)).bind fun r =>
          some ((0 : Int), r.1.saveErased N (h.blocks.length + 1), r.2)) =
        some (0, ({ a with m_Array := 0, m_IsAllocated := false } : DataArray α).saveErased
          N (h.blocks.length + 1),
          (hm.store (h.blocks.length + 1)
            (tuplesFrom buf a.m_NumComponents 0 a.m_NumTuples idxs)).release a.m_Array) := by
    intro d1 hd1
    subst hd1
    have hrp : (hm.store (h.blocks.length + 1)
        (tuplesFrom buf a.m_NumComponents 0 a.m_NumTuples idxs)).read a.m_Array = some buf := by
      rw [Heap.read_store_ne hm _ _ _ hq0 (fun e => hq e.symm)]; exact hmp
    rw [DataArray.deallocate_live pf a _ buf hrp hl]
    rfl
  rw [hmal]
  constructor
  · simp only [DataArray.eraseTuplesGeneral, DataArray.getNumberOfTuples, eN1, eN2, hmal, hset,
      Option.some_bind]
    obtain ⟨x, rest, hxr⟩ : ∃ x rest, idxs = x :: rest := by
      cases idxs with
      | nil => simp at hpos
      | cons x rest => exact ⟨x, rest, rfl⟩
    have happ := applyRows_eraseTable buf a.m_NumTuples a.m_NumComponents hc hsrc hfit x rest d0
      (by rw [← hxr]; exact hsorted) (by rw [← hxr]; exact hin)
      (by rw [← hxr, hN]; exact hd0len)
    rw [← hxr] at happ
    rw [copyRows_store (h.blocks.length + 1) a.m_Array buf (fun e => hq e.symm) hq0 _ hm d0 _
      hmp hmlen happ, Option.some_bind]
    exact tail _ rfl
  · intro hfront
    obtain ⟨hrange', hj⟩ := frontRun_full a.m_NumTuples hnfit idxs 0 0 hin (by omega)
    simp only [DataArray.eraseTuplesFast, DataArray.getNumberOfTuples, eN1, eN2, hmal, hset,
      Option.some_bind, hj, Nat.zero_add]
    have hkc : idxs.length * a.m_NumComponents ≤ a.m_NumTuples * a.m_NumComponents :=
      Nat.mul_le_mul_right a.m_NumComponents (by omega)
    have hsum : idxs.length * a.m_NumComponents + N = a.m_NumTuples * a.m_NumComponents := by
      rw [← hN, ← Nat.add_mul]; congr 1; omega
    have e3 : wmul idxs.length a.m_NumComponents = idxs.length * a.m_NumComponents :=
      wmul_eq (by omega)
    have hcpy := Heap.memcpy_live (hm.store (h.blocks.length + 1) d0) (h.blocks.length + 1) 0
      a.m_Array (idxs.length * a.m_NumComponents) N buf d0
      (by rw [Heap.read_store_ne hm _ _ d0 hq0 (fun e => hq e.symm)]; exact hmp)
      (Heap.read_store_same hm _ d0 hq0 hmlen) (by omega) (by omega)
    have hd0drop : d0.drop (0 + N) = [] := List.drop_eq_nil_of_le (by omega)
    simp only [List.take_zero, List.nil_append, hd0drop, List.append_nil,
      Heap.store_store] at hcpy
    rw [e3, hcpy, Option.some_bind]
    apply tail
    have := tuplesFrom_range' buf a.m_NumComponents idxs.length 0 a.m_NumTuples hlen
    rw [← hrange'] at this
    rw [this, Nat.zero_add]
    congr 1
    rw [← hN]

theorem DataArray.rangeCheck_passes [ElementType α] (a : DataArray α) (h : Heap α) (buf : List α)
    (n c : Nat) (idxs : List Nat) (hc : 1 ≤ c) (hf : a.freshWith h n c buf)
    (hin : ∀ i ∈ idxs, i < n) :
    idxs.any (fun i => decide (wmul i a.m_NumComponents > a.m_MaxId)) = false := by
  obtain ⟨hn, hcomp, hsize, hrange, hmax, -, -⟩ := hf
  rw [List.any_eq_false]
  intro x hx
  have hxn := hin x hx
  have hxc : (x + 1) * c ≤ n * c := Nat.mul_le_mul_right c hxn
  rw [Nat.add_mul, Nat.one_mul] at hxc
  have e : wmul x a.m_NumComponents = x * c := by
    rw [hcomp]; exact wmul_eq (by omega)
  simp only [e, decide_eq_true_eq, hmax, hsize]
  omega

/-- C27: on a fresh array of `n` tuples of `c ≥ 1` components holding `buf`, with the
index list `0, 1, ..., k - 1` for `0 < k < n` and the allocator succeeding, `eraseTuples`
takes the fast path, and the fast path returns exactly what the table-driven general path
returns on the same input: code 0, the same array object (size `(n - k) * c`, max index
`(n - k) * c - 1`) and the same heap, whose new buffer holds the elements of `buf` from
offset `k * c` on. -/
theorem C27_fast_path_agrees_with_general [ElementType α] (pf : Platform α) (env : Alloc α)
    (a : DataArray α) (h : Heap α) (buf : List α) (n c k : Nat) (hc : 1 ≤ c)
    (hf : a.freshWith h n c buf) (hk : 0 < k) (hkn : k < n) (hok : env.ok = true) :
    a.eraseTuples pf env h (List.range k) = a.eraseTuplesFast pf env h (List.range k) ∧
      a.eraseTuplesFast pf env h (List.range k) =
        a.eraseTuplesGeneral pf env h (List.range k) ∧
      ∃ a1 h1, a.eraseTuplesGeneral pf env h (List.range k) = some (0, a1, h1) ∧
        a1.getSize = (n - k) * c ∧ a1.m_MaxId = (n - k) * c - 1 ∧
        h1.read a1.m_Array = some (buf.drop (k * c)) := by
  have hlenk : (List.range k).length = k := List.length_range k
  have hsorted : (List.range k).Pairwise (· < ·) := List.pairwise_lt_range k
  have hin : ∀ i ∈ List.range k, i < n := by
    intro i hi
    rw [List.mem_range] at hi
    omega
  have hnc : n * c < 2 ^ 64 := by
    obtain ⟨-, -, hsize, hrange, -, -, -⟩ := hf
    rw [← hsize]; exact hrange
  have hnle : n ≤ n * c := le_mul_of_one_le hc
  have hfront : (frontRun (List.range k) 0 0).2 = (List.range k).length := by
    rw [hlenk, List.range_eq_range', frontRun_range' k 0 0 (by omega)]
    simp
  obtain ⟨hg, hfa⟩ := DataArray.erasePaths_fresh pf env a h buf n c (List.range k) hc hf
    hsorted hin (by omega) (by omega) hok
  have hfast := hfa hfront
  have hpaths := DataArray.eraseTuples_paths pf env a h (List.range k) (by omega)
    (by
      obtain ⟨hn, -⟩ := hf
      simp only [DataArray.getNumberOfTuples, hn, ge_iff_le, hlenk]
      omega)
    (DataArray.rangeCheck_passes a h buf n c _ hc hf hin)
  rw [if_pos hfront] at hpaths
  refine ⟨hpaths, by rw [hfast, hg], _, _, hg, ?_, ?_, ?_⟩
  · simp [DataArray.getSize, DataArray.saveErased]
  · have hN : 1 ≤ (n - k) * c := Nat.le_trans (by omega) (le_mul_of_one_le hc)
    have hNle : (n - k) * c ≤ n * c := Nat.mul_le_mul_right c (Nat.sub_le _ _)
    simp only [DataArray.saveErased, hlenk]
    exact wsub_eq (by omega) hN
  · obtain ⟨-, -, hsize, -, -, hr, hl, -⟩ := hf
    have hne : h.blocks.length + 1 ≠ a.m_Array := by
      have := Heap.read_some_lt hr
      omega
    have hkc : k * c + (n - k) * c = n * c := by
      rw [← Nat.add_mul]; congr 1; omega
    simp only [DataArray.saveErased, hlenk]
    rw [Heap.read_release_ne _ _ _ (Heap.read_some_ne_zero hr) hne,
      Heap.read_store_same _ _ _ (by omega)
        (by rw [Heap.malloc_fst_blocks_length h env _ hok]; omega),
      List.range_eq_range', tuplesFrom_range' buf c k 0 n hkn, Nat.zero_add,
      List.take_of_length_le (by rw [List.length_drop]; omega)]

/-- Witness for C27: the first two tuples of the five-tuple, two-component array are
erased; both paths leave `[30, 31, 40, 41, 50, 51]`. -/
theorem C27_fast_path_agrees_with_general_witness :
    1 ≤ 2 ∧ arr52.freshWith heap52 5 2 [10, 11, 20, 21, 30, 31, 40, 41, 50, 51] ∧
      (arr52.eraseTuplesFast pfRealloc envOk heap52 [0, 1]).map
          (fun r => (r.1, r.2.1.getSize, r.2.1.m_MaxId, r.2.2.read r.2.1.m_Array)) =
        some (0, 6, 5, some [30, 31, 40, 41, 50, 51]) ∧
      (arr52.eraseTuplesGeneral pfRealloc envOk heap52 [0, 1]).map
          (fun r => (r.1, r.2.1.getSize, r.2.1.m_MaxId, r.2.2.read r.2.1.m_Array)) =
        some (0, 6, 5, some [30, 31, 40, 41, 50, 51]) ∧
      (arr52.eraseTuples pfRealloc envOk heap52 (List.range 2) =
          arr52.eraseTuplesFast pfRealloc envOk heap52 (List.range 2) ∧
        arr52.eraseTuplesFast pfRealloc envOk heap52 (List.range 2) =
          arr52.eraseTuplesGeneral pfRealloc envOk heap52 (List.range 2) ∧
        ∃ a1 h1, arr52.eraseTuplesGeneral pfRealloc envOk heap52 (List.range 2) =
            some (0, a1, h1) ∧
          a1.getSize = (5 - 2) * 2 ∧ a1.m_MaxId = (5 - 2) * 2 - 1 ∧
          h1.read a1.m_Array =
            some ([10, 11, 20, 21, 30, 31, 40, 41, 50, 51].drop (2 * 2))) :=
  ⟨by decide, by unfold DataArray.freshWith; decide, by decide, by decide,
    C27_fast_path_agrees_with_general pfRealloc envOk arr52 heap52
      [10, 11, 20, 21, 30, 31, 40, 41, 50, 51] 5 2 2 (by decide)
      (by unfold DataArray.freshWith; decide) (by decide) (by decide) rfl⟩

/-! ## `resizeEdgeFieldDataArrays` -/

/-- Whenever the loop of `resizeEdgeFieldDataArrays` returns, the store has as many array
objects as before, and the array object at each address reports the tuple count and the
component count it reported before. -/
theorem resizeArrays_frame [ElementType α] (pf : Platform α) (env : String → Alloc α) (size : Nat) :
    ∀ (m : QMap ArrayPtr) (objs : ArrayStore α) (h : Heap α) (r : ArrayStore α × Heap α),
      resizeArrays pf env size m objs h = some r →
      r.1.length = objs.length ∧
        ∀ (p : Nat) (d1 : DataArray α), r.1[p]? = some d1 →
          ∃ d : DataArray α, objs[p]? = some d ∧
            d1.getNumberOfTuples = d.getNumberOfTuples ∧
            d1.m_NumComponents = d.m_NumComponents
  | [], objs, h, r, hr => by
    simp only [resizeArrays, Option.some.injEq] at hr
    subst hr
    exact ⟨rfl, fun p d1 hd => ⟨d1, hd, rfl, rfl⟩⟩
  | e :: rest, objs, h, r, hr => by
    simp only [resizeArrays] at hr
    cases hd : objs[e.2]? with
    | none => simp [hd] at hr
    | some d =>
      simp only [hd, Option.bind_eq_some] at hr
      obtain ⟨r1, hr1, hq⟩ := hr
      obtain ⟨ihl, ihf⟩ := resizeArrays_frame pf env size rest _ r1.2.2 r hq
      have hshape := DataArray.resize_shape pf (env e.1) d h size r1 hr1
      refine ⟨by simpa using ihl, ?_⟩
      intro p d1 hp
      obtain ⟨d2, hd2, ht, hcm⟩ := ihf p d1 hp
      by_cases hpe : e.2 = p
      · subst hpe
        have hlt : e.2 < objs.length := by
          rcases Nat.lt_or_ge e.2 objs.length with h1 | h1
          · exact h1
          · rw [List.getElem?_eq_none h1] at hd
            cases hd
        rw [List.getElem?_set, if_pos rfl] at hd2
        simp only [hlt, if_true, Option.some.injEq] at hd2
        subst hd2
        exact ⟨d, hd, by rw [ht]; exact hshape.2, by rw [hcm]; exact hshape.1⟩
      · rw [List.getElem?_set_ne hpe] at hd2
        exact ⟨d2, hd2, ht, hcm⟩

/-- C22: the field map holds a two-tuple, one-component array under `"a"` and a
four-tuple, three-component array under `"c"`; `resizeEdgeFieldDataArrays(3)` with every
reallocation succeeding keeps the keys, sets the tuple count of the group to 3 and the
sizes of the arrays to `3 * 1` and `3 * 3`, but `getNumberOfTuples()` of the arrays still
returns 2 and 4. -/
theorem C22_resized_arrays_keep_old_tuple_count :
    (fields2.resizeEdgeFieldDataArrays pfRealloc (fun _ => envOk) fieldArrays2 heapFields 3).map
        (fun r => (r.1.getEdgeFieldArrayNameList, r.1.m_NumEdgeFieldTuples)) =
      some (["a", "c"], 3) ∧
    (fields2.resizeEdgeFieldDataArrays pfRealloc (fun _ => envOk) fieldArrays2 heapFields 3).map
        (fun r => (r.1.getEdgeFieldData "a").bind fun p => (r.2.1[p]?).map fun d =>
          (d.getNumberOfTuples, d.getSize, d.m_NumComponents, r.2.2.read d.m_Array)) =
      some (some (2, 3, 1, some [10, 20, 902])) ∧
    (fields2.resizeEdgeFieldDataArrays pfRealloc (fun _ => envOk) fieldArrays2 heapFields 3).map
        (fun r => (r.1.getEdgeFieldData "c").bind fun p => (r.2.1[p]?).map fun d =>
          (d.getNumberOfTuples, d.getSize, d.m_NumComponents, r.2.2.read d.m_Array)) =
      some (some (4, 9, 3, some [1, 2, 3, 4, 5, 6, 7, 8, 9])) := by
  refine ⟨by decide, by decide, by decide⟩

/-! ## Type tags -/

/-- C19 (as amended): for each of the eleven supported element types `getType()` returns
the matching tag, and it returns `UnknownNumType` exactly for the other element types.  No
factory rejects an element type: whatever `T` is, every `CreateArray` overload called with a
non-empty name, non-empty dimension vectors and a succeeding allocator returns an array. -/
theorem C19_getType_tags [ElementType α]
    [Zero α] [One α] (pf : Platform α) (env : Alloc α) (h : Heap α)
    (name : String) (hname : name.isEmpty = false) (hok : env.ok = true) :
    (∀ a : DataArray α,
        (ElementType.typeId α = CType.int8_t → a.getType = NumType.Int8) ∧
        (ElementType.typeId α = CType.uint8_t → a.getType = NumType.UInt8) ∧
        (ElementType.typeId α = CType.int16_t → a.getType = NumType.Int16) ∧
        (ElementType.typeId α = CType.uint16_t → a.getType = NumType.UInt16) ∧
        (ElementType.typeId α = CType.int32_t → a.getType = NumType.Int32) ∧
        (ElementType.typeId α = CType.uint32_t → a.getType = NumType.UInt32) ∧
        (ElementType.typeId α = CType.int64_t → a.getType = NumType.Int64) ∧
        (ElementType.typeId α = CType.uint64_t → a.getType = NumType.UInt64) ∧
        (ElementType.typeId α = CType.float → a.getType = NumType.Float) ∧
        (ElementType.typeId α = CType.double → a.getType = NumType.Double) ∧
        (ElementType.typeId α = CType.bool → a.getType = NumType.Bool) ∧
        (a.getType = NumType.UnknownNumType ↔ ∃ nm, ElementType.typeId α = CType.other nm)) ∧
      (∀ numElements,
        ∃ a h1, CreateArray pf env h numElements name = some (some a, h1)) ∧
      (∀ numTuples rank dims, 0 < rank → rank ≤ dims.length →
        ∃ a h1, CreateArrayRank pf env h numTuples rank dims name = some (some a, h1)) ∧
      (∀ numTuples cDims, cDims ≠ [] →
        ∃ a h1, CreateArrayStd pf env h numTuples cDims name = some (some a, h1)) ∧
      (∀ numTuples cDims, cDims ≠ [] →
        ∃ a h1, CreateArrayQ pf env h numTuples cDims name = some (some a, h1)) ∧
      (∀ tDims cDims, tDims ≠ [] → cDims ≠ [] →
        ∃ a h1, CreateArrayDims pf env h tDims cDims name = some (some a, h1)) := by
  refine ⟨fun a => ⟨?_, ?_, ?_, ?_, ?_, ?_, ?_, ?_, ?_, ?_, ?_, ?_⟩, fun n => ?_,
    fun n rank dims hr hle => ?_, fun n cDims hc => ?_, fun n cDims hc => ?_,
    fun tDims cDims ht hc => ?_⟩
  iterate 11 (intro ht; simp [DataArray.getType, ht])
  · cases hT : ElementType.typeId α <;> simp [DataArray.getType, hT]
  · simp only [CreateArray, hname, Bool.false_eq_true, if_false]
    exact bind_ctor_succeeds pf env h _ _ _ _ _ (by simp) (by simp) hok
  · simp only [CreateArrayRank, hname, Bool.false_eq_true, if_false, hle, if_true]
    refine bind_ctor_succeeds pf env h _ _ _ _ _ (by simp) ?_ hok
    intro he
    have hlen := congrArg List.length he
    simp only [List.length_take, List.length_nil] at hlen
    omega
  · simp only [CreateArrayStd, hname, Bool.false_eq_true, if_false]
    exact bind_ctor_succeeds pf env h _ _ _ _ _ (by simp) hc hok
  · simp only [CreateArrayQ, hname, Bool.false_eq_true, if_false]
    exact bind_ctor_succeeds pf env h _ _ _ _ _ (by simp) hc hok
  · simp only [CreateArrayDims, hname, Bool.false_eq_true, if_false]
    exact bind_ctor_succeeds pf env h _ _ _ _ _ ht hc hok

/-- Witness for C19: for the element type `long double`, which is not supported,
`getType()` is `UnknownNumType` on every array and `CreateArray(n, "a")` returns an array
for every `n`. -/
theorem C19_getType_tags_witness :
    "a".isEmpty = false ∧ envLongDouble.ok = true ∧
      (∀ a : DataArray LongDouble, a.getType = NumType.UnknownNumType) ∧
      ∀ numElements, ∃ a h1,
        CreateArray pfLongDouble envLongDouble heapLongDouble numElements "a" =
          some (some a, h1) :=
  ⟨by decide, rfl,
    fun a => ((C19_getType_tags pfLongDouble envLongDouble heapLongDouble "a" (by decide)
      rfl).1 a).2.2.2.2.2.2.2.2.2.2.2.2 ⟨"long double", rfl⟩,
    (C19_getType_tags pfLongDouble envLongDouble heapLongDouble "a" (by decide) rfl).2.1⟩

/-- C19 (as stated) fails: `CreateArray(3, "a")` for the element type `long double`, which
is none of the supported types, is not rejected: it returns an allocated three-element
array, whose `getType()` is `UnknownNumType`. -/
theorem C19_counterexample :
    ElementType.typeId LongDouble = CType.other "long double" ∧
      (CreateArray pfLongDouble envLongDouble heapLongDouble 3 "a").map
          (fun r => r.1.map fun a =>
            (a.getType, a.getSize, a.isAllocated, (r.2.read a.m_Array).isSome)) =
        some (some (NumType.UnknownNumType, 3, true, true)) := by
  decide

/-! ## Erasing every tuple of an array whose size has changed -/

/-- C4: after `eraseTuples([1, 3])` the five-tuple, two-component array holds the three
tuples `[[10,11],[30,31],[50,51]]` while `getNumberOfTuples()` still reports 5.  Erasing
every index `0, 1, 2` of the three tuples it holds does not take the branch that empties
the array (3 is not at least 5): the call goes on to copy `(5 - 3) * 2` elements from
offset 6 of the six-element buffer, beyond its end. -/
theorem C4_erase_every_held_tuple_overruns :
    (arr52.eraseTuples pfRealloc envOk heap52 [1, 3]).map
        (fun q => (q.1, q.2.1.getSize, q.2.1.m_NumComponents, q.2.1.getNumberOfTuples,
          q.2.2.read q.2.1.m_Array)) =
      some (0, 6, 2, 5, some [10, 11, 30, 31, 50, 51]) ∧
    ((arr52.eraseTuples pfRealloc envOk heap52 [1, 3]).map fun q =>
        (q.2.1.eraseTuples pfRealloc envOk q.2.2 [0, 1, 2]).isNone) = some true ∧
    ((arr52.eraseTuples pfRealloc envOk heap52 [1, 3]).bind fun q =>
        (q.2.1.eraseTuplesFast pfRealloc envOk q.2.2 [0, 1, 2]).map fun r => r.2.1.getSize) =
      none := by
  refine ⟨by decide, by decide, by decide⟩

/-! ## Byte counts that wrap around -/

/-- The byte count passed to `malloc` is a `size_t` product.  For the eight-byte element
type a borrowed two-element array asked for `2 ^ 61 + 1` elements gets an eight-byte
block, and the copy of its two elements runs beyond that block. -/
theorem resizeAndExtend_wrapped_byte_count_overruns :
    blockElems Nat (2 ^ 61 + 1) = 1 ∧
      (arr21.releaseOwnership.resizeAndExtend pfRealloc envOk heap21 (2 ^ 61 + 1)).isNone =
        true := by
  refine ⟨by decide, by decide⟩

/-- The same wrap-around in `realloc`: `resize(2 ^ 61 + 1)` of the owned two-element array
`[10, 20]` returns 1 and reports `2 ^ 61 + 1` elements, but the block holds one element. -/
theorem resize_wrapped_byte_count_loses_elements :
    (arr21.resize pfRealloc envOk heap21 (2 ^ 61 + 1)).map
        (fun r => (r.1, r.2.1.getSize, r.2.2.read r.2.1.m_Array)) =
      some (1, 2 ^ 61 + 1, some [10]) := by
  decide

/-- A request whose byte count wraps to zero: `resize(2 ^ 60)` of the five-tuple,
two-component array calls `realloc(m_Array, 0)`, which frees the block and returns null;
`resize` returns 0 and the array still points to the freed block. -/
theorem resize_zero_byte_request_frees_buffer :
    (arr52.resize pfRealloc envFail heap52 (2 ^ 60)).map
        (fun r => (r.1, r.2.1.m_Array, r.2.1.getSize, r.2.2.read r.2.1.m_Array)) =
      some (0, 1, 10, none) := by
  decide

end DREAM3D
